import Mathlib

/-!
# R.E.C.O.R.D. arena controller (firmware v1.1): handlers and main loop

A shallow embedding of `main (v1.1).c` and `arenacfg1.h`.

* The device state is a record of the globals the handlers touch: the four
  `LightLevel` tables, the Blink flag, the `#` payload buffer, the output
  lines and the five Timer-B3 compare registers.
* Everything a handler does to the outside world is appended, in program
  order, to `State.trace`.
* A handler that busy-waits for a byte takes the bytes it will read as a
  list; it returns `none` when the list runs out, which is the handler
  waiting forever.  The port handler takes the readings of its wait loop the
  same way and, when they run out, gives the state it waits in.
* The loop of `main` is a step function on the globals, its local
  `ccr_value` and its position; interrupts are taken between steps.

The header `RECORD.h` included by the program is not among the sources.  Its
pin masks are taken as distinct single lines (`Line`), its constants and the
memory contents the program depends on are the fields of `Env`, and its two
helpers `SetBrightness` and `ModifyCCR` are modelled from the specification.

Memory layout is not modelled: the duty characters the entry loop stores past
the one byte of `CCRVAL` are kept in a buffer of their own, and what they
overwrite on the stack is out of reach of the embedding.
-/

namespace RECORD

/-! ## arenacfg1.h -/

/-- The `struct LightLevel` of arenacfg1.h: one compare value per feeder ring
(`unsigned int`, 16 bits on the MSP430). -/
structure LightLevel where
  fdr1 : Nat
  fdr2 : Nat
  fdr3 : Nat
  fdr4 : Nat
deriving DecidableEq, Repr

/-- Light level 0 (0 lux). -/
def L0 : LightLevel := { fdr1 := 8000, fdr2 := 8000, fdr3 := 8000, fdr4 := 8000 }

/-- Light level 1 (15 lux). -/
def L1 : LightLevel := { fdr1 := 7742, fdr2 := 7800, fdr3 := 7700, fdr4 := 7388 }

/-- Light level 2 (170 lux). -/
def L2 : LightLevel := { fdr1 := 5500, fdr2 := 5200, fdr3 := 5200, fdr4 := 5000 }

/-- Light level 3 (260 lux). -/
def L3 : LightLevel := { fdr1 := 4200, fdr2 := 3715, fdr3 := 3880, fdr4 := 4200 }

/-- CPU cycles a relay stays closed. -/
def RELAY_ONTIME : Nat := 4000000

/-! ## Device state and primitive effects -/

/-- The output lines the handlers drive.  The masks are defined in RECORD.h;
each is taken as one line of its port. -/
inductive Line
  | REDLED | GRNLED | LED1 | LED2 | LED3 | LED4
  | ACK | TTL_OUT | RELAY1 | RELAY2 | RELAY3 | RELAY4
deriving DecidableEq, Repr

/-- The GPIO ports of the MSP430FR2355. -/
inductive Port
  | P1 | P2 | P3 | P4 | P5 | P6
deriving DecidableEq, Repr

/-- One externally visible action of the firmware. -/
inductive Event
  /-- The assignment `UCA0TXBUF = c`. -/
  | tx (c : Char)
  /-- The call `UARTsendMsg(string)`. -/
  | msg (string : String)
  /-- The statement `PxOUT |= mask`. -/
  | high (mask : List Line)
  /-- The statement `PxOUT &= ~mask`. -/
  | low (mask : List Line)
  /-- The intrinsic `__delay_cycles(n)`. -/
  | delay (n : Nat)
  /-- The call `delay_us(n)`. -/
  | delay_us (n : Nat)
  /-- The assignment `TB3CCRch = v`. -/
  | ccr (ch : Nat) (v : Nat)
  /-- The read `PxIN & TTL_IN` of port `port`, with what it found. -/
  | poll (port : Port) (asserted : Bool)
deriving DecidableEq, Repr

/-- The globals of the program together with the trace of its actions. -/
structure State where
  L0 : LightLevel
  L1 : LightLevel
  L2 : LightLevel
  L3 : LightLevel
  _BLINK : Bool
  length : Nat
  rxstring : Nat → Char
  out : Line → Bool
  TB3CCR1 : Nat
  TB3CCR2 : Nat
  TB3CCR3 : Nat
  TB3CCR4 : Nat
  TB3CCR5 : Nat
  trace : List Event

/-- What the program reads that no source file fixes.

* `atoiAt c` is the value of `atoi((const char *)c)` for a `char c`: the
  cast makes the byte an address, so the result is whatever number the memory
  at that address spells.
* `overrun` is the memory that follows the fourth duty character: `CCRVAL`
  is declared as `""` and the entry loop writes no terminator after four
  characters, so `atoi(CCRVAL)` reads on into these bytes.
* `LOWER_LIMIT`, `UPPER_LIMIT` and `STEP` are the ramp constants of
  RECORD.h. -/
structure Env where
  atoiAt : Char → Int
  overrun : List Char
  LOWER_LIMIT : Int
  UPPER_LIMIT : Int
  STEP : Int

/-- Record an action. -/
def emit (e : Event) (s : State) : State :=
  { s with trace := s.trace ++ [e] }

/-- The assignment `UCA0TXBUF = c`. -/
def txbuf (c : Char) (s : State) : State := emit (Event.tx c) s

/-- The call `UARTsendMsg(string)` (declared in RECORD.h): the string goes out
on the serial line. -/
def UARTsendMsg (string : String) (s : State) : State := emit (Event.msg string) s

/-- The intrinsic `__delay_cycles(n)`. -/
def delay_cycles (n : Nat) (s : State) : State := emit (Event.delay n) s

/-- The statement `PxOUT |= mask`. -/
def setHigh (mask : List Line) (s : State) : State :=
  { s with out := fun l => if l ∈ mask then true else s.out l,
           trace := s.trace ++ [Event.high mask] }

/-- The statement `PxOUT &= ~mask`. -/
def setLow (mask : List Line) (s : State) : State :=
  { s with out := fun l => if l ∈ mask then false else s.out l,
           trace := s.trace ++ [Event.low mask] }

/-- The assignment `TB3CCRch = v` for `ch` in 1..5. -/
def setTB3CCR (ch : Nat) (v : Nat) (s : State) : State :=
  let t := s.trace ++ [Event.ccr ch v]
  if ch = 1 then { s with TB3CCR1 := v, trace := t }
  else if ch = 2 then { s with TB3CCR2 := v, trace := t }
  else if ch = 3 then { s with TB3CCR3 := v, trace := t }
  else if ch = 4 then { s with TB3CCR4 := v, trace := t }
  else if ch = 5 then { s with TB3CCR5 := v, trace := t }
  else s

/-- The assignment `_BLINK = v`. -/
def setBLINK (v : Bool) (s : State) : State := { s with _BLINK := v }

/-- The payload buffer after the receive loop has filled it. -/
def setRxstring (rxstring : Nat → Char) (s : State) : State := { s with rxstring := rxstring }

/-- The assignment `length = n`. -/
def setLength (n : Nat) (s : State) : State := { s with length := n }

/-- Conversion of an `int` to the 16-bit `unsigned int` of the MSP430. -/
def toUnsigned (v : Int) : Nat := (v % 65536).toNat

/-! ## The C library `atoi` -/

/-- The `isspace` of the C locale. -/
def isspace (c : Char) : Bool :=
  c = ' ' || c = '\t' || c = '\n' || c = '\x0b' || c = '\x0c' || c = '\r'

/-- The `isdigit` of the C locale. -/
def isdigit (c : Char) : Bool := 48 ≤ c.toNat && c.toNat ≤ 57

/-- The digit loop of `atoi`: accumulate decimal digits until the first
character that is not one. -/
def atoiDigits : Nat → List Char → Nat
  | acc, [] => acc
  | acc, c :: cs => if isdigit c then atoiDigits (acc * 10 + (c.toNat - 48)) cs else acc

/-- The sign and digits part of `atoi`, after the leading white space. -/
def atoiSigned : List Char → Int
  | [] => 0
  | c :: cs =>
    if c = '-' then - (atoiDigits 0 cs : Int)
    else if c = '+' then (atoiDigits 0 cs : Int)
    else (atoiDigits 0 (c :: cs) : Int)

/-- Conversion to the 16-bit `int` of the MSP430: the value modulo 2^16 in
-32768..32767. -/
def toInt16 (v : Int) : Int := (v + 32768) % 65536 - 32768

/-- The C library `atoi` on the bytes of a string: skip white space, take an
optional sign, read decimal digits up to the first other character (the
terminating NUL included).  The result is an `int`; up to four characters
always fit it, and a longer run of digits, whose value C leaves undefined, is
taken modulo 2^16 as the accumulation in an `int` gives it. -/
def atoi (str : List Char) : Int := toInt16 (atoiSigned (str.dropWhile isspace))

/-! ## RECORD.h helpers -/

/-- The three structures `lvl_ptr` is pointed at. -/
inductive LvlPtr
  | L1 | L2 | L3
deriving DecidableEq, Repr

/-- The table row a level character names, if any. -/
def levelRow (s : State) (level : Char) : Option LightLevel :=
  if level = '0' then some s.L0
  else if level = '1' then some s.L1
  else if level = '2' then some s.L2
  else if level = '3' then some s.L3
  else none

/-- Modelled from the spec: `SetBrightness` is defined in RECORD.h, which is
not among the sources.  The specification gives `applyBrightness(feeder: 1..4,
level: 0..3)`: look up `BrightnessTable[level][feeder]` and issue
`setPwmDuty(channel_for(feeder), duty)`; by the wiring diagram feeder n is
channel TB3_n.  Level 0 is the row `L0` of arenacfg1.h.  The specification
gives no action outside feeder 1..4 and level 0..3; the model takes none. -/
def SetBrightness (feeder level : Char) (s : State) : State :=
  match levelRow s level with
  | none => s
  | some row =>
    if feeder = '1' then setTB3CCR 1 row.fdr1 s
    else if feeder = '2' then setTB3CCR 2 row.fdr2 s
    else if feeder = '3' then setTB3CCR 3 row.fdr3 s
    else if feeder = '4' then setTB3CCR 4 row.fdr4 s
    else s

/-- Write one feeder field of a row; a character that names no feeder writes
nothing. -/
def LightLevel.modify (row : LightLevel) (fdr : Char) (v : Nat) : LightLevel :=
  if fdr = '1' then { row with fdr1 := v }
  else if fdr = '2' then { row with fdr2 := v }
  else if fdr = '3' then { row with fdr3 := v }
  else if fdr = '4' then { row with fdr4 := v }
  else row

/-- Modelled from the spec: `ModifyCCR` is defined in RECORD.h, which is not
among the sources.  The specification gives "write the new duty into
`BrightnessTable[level][feeder]`"; the fields are `unsigned int`, so the `int`
that `atoi` returns is stored converted to 16 bits unsigned.  The
specification names feeders 1..4 only; the model writes nothing for another
feeder character. -/
def ModifyCCR (lvl_ptr : LvlPtr) (fdr : Char) (value : Int) (s : State) : State :=
  match lvl_ptr with
  | LvlPtr.L1 => { s with L1 := s.L1.modify fdr (toUnsigned value) }
  | LvlPtr.L2 => { s with L2 := s.L2.modify fdr (toUnsigned value) }
  | LvlPtr.L3 => { s with L3 := s.L3.modify fdr (toUnsigned value) }

/-! ## The serial handler `USCI_A0_ISR` -/

/-- Status text of the `#` command. -/
def msgFeeder : String := ": Feeder configured successfully!\r\n\n"

/-- Opening text of the `$` session. -/
def msgEnter : String :=
  "Entering configuration mode...\r\n Keep in mind any configuration done here will be lost when the system is powered off. Commit these changes as default by changing the system's code.\r\n\n"

/-- Level prompt of the `$` session. -/
def msgLevelPrompt : String := "Please enter the level to reconfigure (1, 2, or 3).\r\n> "

/-- Feeder prompt of the `$` session. -/
def msgFeederPrompt : String := "Please enter the feeder to reconfigure (1, 2, 3, or 4).\r\n> "

/-- Duty prompt of the `$` session. -/
def msgDutyPrompt : String :=
  "Please enter the new integer CCR value for this level and feeder (0 through 8000, whole numbers only).\r\nEnter a 4-character number or press enter if you're entering less than 4 characters.\r\n> "

/-- Line break sent after each echoed input. -/
def msgCRLF : String := "\r\n"

/-- Error text of the level switch. -/
def msgLevelError : String :=
  "Error: New CCR value should not exceed 8000 or LEVEL should not exceed 3. Configuration not set.\r\n"

/-- Final status of a rejected `$` session. -/
def msgAborted : String :=
  ": Configuration aborted due to error, try again. Resuming previous operations...\r\n\n"

/-- Test prompt of the `$` session. -/
def msgTestPrompt : String := "Would you like to test the new value? [y/n]\r\n> "

/-- Final status of a `$` session answered `y`. -/
def msgNewSettings : String := ": New settings applied! Resuming previous operations...\r\n\n"

/-- Final status of a `$` session answered otherwise. -/
def msgConfigApplied : String :=
  ": Configuration applied! Restart feeders to see changes. Resuming previous operations...\r\n\n"

/-- Status text of `A`. -/
def msgAllOn : String := ": all on\r\n\n"

/-- Status text of `g`. -/
def msgGreenOn : String := ": green on\r\n\n"

/-- Status text of `r`. -/
def msgRedOn : String := ": red on\r\n\n"

/-- Status text of `k` when the flag was set. -/
def msgBlinkOff : String := ": blinking off\r\n\n"

/-- Status text of `k` when the flag was clear. -/
def msgBlinkOn : String := ": blinking on\r\n\n"

/-- Status text of `R`. -/
def msgAllOff : String := ": all off\r\n\n"

/-- Status text of `F`. -/
def msgRelay1 : String := ": relay1 toggled\r\n\n"

/-- Status text of `G`. -/
def msgRelay2 : String := ": relay2 toggled\r\n\n"

/-- Status text of `H`. -/
def msgRelay3 : String := ": relay3 toggled\r\n\n"

/-- Status text of `J`. -/
def msgRelay4 : String := ": relay4 toggled\r\n\n"

/-- The nine texts `?` sends before its status text, in order. -/
def msgHelp : List String :=
  [ "Welcome to the about section! I will list all the commands I have available for you to use and will give you a short description of what each of them does.\r\n\n",
    "1. '#': Turn on a specific feeder LED ring at a specified level.\r\nI will quietly wait for your input and only execute it once you're done.\r\nPlease format your input like this: FxLy. X is the feeder you want to activate, and Y is the brightness level you want to set it to.\r\n\n",
    "2. '$': Starts configuration mode. Instructions will pop up as soon as you input this command.\r\nThis will allow you to reconfigure how bright feeder LEDs should be.\r\n\n",
    "3. 'k': Toggles the 'trial in progress' light.\r\n\n",
    "4. 'R': Resets everything. All LEDs are turned off and relays are opened.\r\n\n",
    "5. 'F': Toggles relay 1, which will open and close valve 1.\r\nThe amount of time that the relay will be closed can be configured at the beginning of the code I'm executing.\r\nYou'll need to edit that yourself.\r\n\n",
    "6. 'G': Toggles relay 2, which will open and close valve 2.\r\nThe amount of time that the relay will be closed can be configured at the beginning of the code I'm executing.\r\nYou'll need to edit that yourself.\r\n\n",
    "7. 'H': Toggles relay 3, which will open and close valve 3.\r\nThe amount of time that the relay will be closed can be configured at the beginning of the code I'm executing.\r\nYou'll need to edit that yourself.\r\n\n",
    "8. 'J': Toggles relay 4, which will open and close valve 4.\r\nThe amount of time that the relay will be closed can be configured at the beginning of the code I'm executing.\r\nYou'll need to edit that yourself.\r\n\n" ]

/-- Status text of `?`. -/
def msgInformation : String := ": Information.\r\n\n"

/-- Status text of an unknown command. -/
def msgUnknown : String :=
  ": I cannot recognize that command. Send me a '?' for a list of commands.\r\n\n"

/-- The acknowledge pulse: `P3OUT |= ACK; __delay_cycles(4000000);
P3OUT &= ~(ACK);`. -/
def ackPulse (s : State) : State :=
  setLow [Line.ACK] (delay_cycles 4000000 (setHigh [Line.ACK] s))

/-- The relay pulse of `F`, `G`, `H`, `J`: `P3OUT &= ~RELAYn;
__delay_cycles(RELAY_ONTIME); P3OUT |= RELAYn;`. -/
def relayPulse (relay : Line) (s : State) : State :=
  setHigh [relay] (delay_cycles RELAY_ONTIME (setLow [relay] s))

/-- The receive loop of `#`: `while (i <= length - 1)` wait for a byte, store
it in `rxstring[i]`, increment `i`.  No byte left to read is the wait that
never ends. -/
def rxLoop (length : Nat) : Nat → (Nat → Char) → List Char → Option ((Nat → Char) × List Char)
  | i, rxstring, [] => if i ≤ length - 1 then none else some (rxstring, [])
  | i, rxstring, b :: rx =>
    if i ≤ length - 1 then rxLoop length (i + 1) (Function.update rxstring i b) rx
    else some (rxstring, b :: rx)

/-- The duty entry loop of `$`: `while (i <= length - 1)` wait for a byte; a
carriage return stores NUL at `CCRVAL[i]` and leaves the loop; any other byte
is stored at `CCRVAL[i]`, echoed, and `i` is incremented.  `CCRVAL` is the
list of the bytes stored so far, `i` its length. -/
def ccrLoop (length : Nat) : Nat → List Char → State → List Char →
    Option (List Char × State × List Char)
  | i, CCRVAL, s, [] => if i ≤ length - 1 then none else some (CCRVAL, s, [])
  | i, CCRVAL, s, b :: rx =>
    if i ≤ length - 1 then
      if b = '\r' then some (CCRVAL ++ ['\x00'], s, rx)
      else ccrLoop length (i + 1) (CCRVAL ++ [b]) (txbuf b s) rx
    else some (CCRVAL, s, b :: rx)

/-- The echo loop of the epilogue: `while (i <= length - 1)` send
`rxstring[i]`, increment `i`; `n` counts the iterations left. -/
def echoLoop : Nat → Nat → State → State
  | 0, _, s => s
  | n + 1, i, s => echoLoop n (i + 1) (txbuf (s.rxstring i) s)

/-- The test of line 297: `atoi(CCRVAL) > 8000 || atoi((const char *)INPUT_lvl) > 3
|| atoi((const char *)INPUT_fdr) > 4`. -/
def inputsInvalid (env : Env) (CCRVAL : List Char) (INPUT_lvl INPUT_fdr : Char) : Bool :=
  decide (atoi (CCRVAL ++ env.overrun) > 8000) || decide (env.atoiAt INPUT_lvl > 3)
    || decide (env.atoiAt INPUT_fdr > 4)

/-- The parse step of `$` (lines 297-326).  The result is the structure
`lvl_ptr` was pointed at, or `none` when `ERROR` was set to 1, with the state
after the error text of the level switch, if that was sent. -/
def parseInputs (env : Env) (CCRVAL : List Char) (INPUT_lvl INPUT_fdr : Char) (s : State) :
    Option LvlPtr × State :=
  if inputsInvalid env CCRVAL INPUT_lvl INPUT_fdr then (none, s)
  else if INPUT_lvl = '1' then (some LvlPtr.L1, s)
  else if INPUT_lvl = '2' then (some LvlPtr.L2, s)
  else if INPUT_lvl = '3' then (some LvlPtr.L3, s)
  else (none, UARTsendMsg msgLevelError s)

/-- The commit and test step of `$` (lines 328-357): with `ERROR` clear,
`ModifyCCR`, the test prompt, one more byte, and `SetBrightness` for the
four feeders on `y`.  The result carries the final `string`. -/
def commitStep (env : Env) (CCRVAL : List Char) (INPUT_lvl INPUT_fdr : Char) :
    Option LvlPtr × State → List Char → Option (String × State × List Char)
  | (none, s), rx => some (msgAborted, s, rx)
  | (some lvl_ptr, s), rx =>
    let s := ModifyCCR lvl_ptr INPUT_fdr (atoi (CCRVAL ++ env.overrun)) s
    let s := UARTsendMsg msgTestPrompt s
    match rx with
    | [] => none
    | INPUT :: rx =>
      let s := txbuf INPUT s
      let s := UARTsendMsg msgCRLF s
      if INPUT = 'y' then
        let s := SetBrightness '1' INPUT_lvl s
        let s := SetBrightness '2' INPUT_lvl s
        let s := SetBrightness '3' INPUT_lvl s
        let s := SetBrightness '4' INPUT_lvl s
        some (msgNewSettings, s, rx)
      else some (msgConfigApplied, s, rx)

/-- The `$` case of the switch (lines 242-358): the three prompts with their
reads, then the parse and the commit steps. -/
def configCase (env : Env) (s : State) (rx : List Char) : Option (String × State × List Char) :=
  let s := UARTsendMsg msgEnter s
  let s := UARTsendMsg msgLevelPrompt s
  match rx with
  | [] => none
  | INPUT_lvl :: rx =>
    let s := txbuf INPUT_lvl s
    let s := UARTsendMsg msgCRLF s
    let s := UARTsendMsg msgFeederPrompt s
    match rx with
    | [] => none
    | INPUT_fdr :: rx =>
      let s := txbuf INPUT_fdr s
      let s := UARTsendMsg msgCRLF s
      let s := UARTsendMsg msgDutyPrompt s
      let s := setLength 4 s
      match ccrLoop s.length 0 [] s rx with
      | none => none
      | some (CCRVAL, s, rx) =>
        let s := UARTsendMsg msgCRLF s
        commitStep env CCRVAL INPUT_lvl INPUT_fdr
          (parseInputs env CCRVAL INPUT_lvl INPUT_fdr s) rx

/-- The `switch (c)` of the handler.  The result is the final `string`, the
flag `_RXSTR`, the state and the bytes not yet read. -/
def switchCase (env : Env) (c : Char) (s : State) (rx : List Char) :
    Option (String × Bool × State × List Char) :=
  if c = '#' then
    match rxLoop s.length 0 s.rxstring rx with
    | none => none
    | some (rxstring, rx) => some (msgFeeder, true, setRxstring rxstring s, rx)
  else if c = '$' then
    match configCase env s rx with
    | none => none
    | some (string, s, rx) => some (string, false, s, rx)
  else if c = 'A' then
    let s := setHigh [Line.REDLED] s
    let s := setHigh [Line.LED1, Line.LED2, Line.LED3, Line.LED4] s
    let s := setHigh [Line.GRNLED] s
    some (msgAllOn, false, ackPulse s, rx)
  else if c = 'g' then
    let s := setHigh [Line.GRNLED] s
    some (msgGreenOn, false, ackPulse s, rx)
  else if c = 'r' then
    let s := setHigh [Line.REDLED] s
    some (msgRedOn, false, ackPulse s, rx)
  else if c = 'k' then
    if s._BLINK then some (msgBlinkOff, false, ackPulse (setBLINK false s), rx)
    else some (msgBlinkOn, false, ackPulse (setBLINK true s), rx)
  else if c = 'R' then
    let s := setLow [Line.REDLED] s
    let s := setLow [Line.ACK, Line.TTL_OUT] s
    let s := setHigh [Line.RELAY1, Line.RELAY2, Line.RELAY3, Line.RELAY4] s
    let s := setLow [Line.LED1, Line.LED2, Line.LED3, Line.LED4] s
    let s := setLow [Line.GRNLED] s
    let s := setTB3CCR 1 8000 s
    let s := setTB3CCR 2 8000 s
    let s := setTB3CCR 3 8000 s
    let s := setTB3CCR 4 8000 s
    let s := setTB3CCR 5 8000 s
    let s := setBLINK false s
    some (msgAllOff, false, ackPulse s, rx)
  else if c = 'F' then some (msgRelay1, false, ackPulse (relayPulse Line.RELAY1 s), rx)
  else if c = 'G' then some (msgRelay2, false, ackPulse (relayPulse Line.RELAY2 s), rx)
  else if c = 'H' then some (msgRelay3, false, ackPulse (relayPulse Line.RELAY3 s), rx)
  else if c = 'J' then some (msgRelay4, false, ackPulse (relayPulse Line.RELAY4 s), rx)
  else if c = '?' then
    some (msgInformation, false, msgHelp.foldl (fun s string => UARTsendMsg string s) s, rx)
  else some (msgUnknown, false, s, rx)

/-- The part of the handler after the switch (lines 606-632): echo `c`, send
`string`, and for `#` apply the brightness, echo the payload and pulse ACK. -/
def epilogue (c : Char) (string : String) (_RXSTR : Bool) (s : State) : State :=
  let s := txbuf c s
  let s := UARTsendMsg string s
  if _RXSTR then
    let FEEDER := s.rxstring 1
    let BRIGHT := s.rxstring 3
    let s := SetBrightness FEEDER BRIGHT s
    let s := echoLoop (s.length - 1 + 1) 0 s
    let s := txbuf '\r' s
    let s := txbuf '\n' s
    let s := txbuf '\n' s
    ackPulse s
  else s

/-- The interrupt handler `USCI_A0_ISR`, run on the bytes `rx` that arrive
from the moment it is entered: the first is the command byte `c`.  The result
is the state at the return and the bytes left for the next run; `none` is a
handler that never returns because a byte it waits for never arrives. -/
def USCI_A0_ISR (env : Env) (s : State) : List Char → Option (State × List Char)
  | [] => none
  | c :: rx =>
    let s := setLow [Line.ACK, Line.TTL_OUT] s
    match switchCase env c s rx with
    | none => none
    | some (string, _RXSTR, s, rx) => some (epilogue c string _RXSTR s, rx)

/-! ## Start-up and the main loop -/

/-- The state `main` has set up when it enters its loop: port 3 with the four
relay lines high, the other outputs low, the five compare registers at 8000,
then `SetBrightness` of the four feeders at level 0.  `_BLINK`, `length` and
`rxstring` are globals of RECORD.h: a flag without initialiser is clear, and
the specification fixes the payload at 4 bytes. -/
def init : State :=
  let s : State :=
    { L0 := L0, L1 := L1, L2 := L2, L3 := L3,
      _BLINK := false, length := 4, rxstring := fun _ => '\x00',
      out := fun l => l ∈ [Line.RELAY1, Line.RELAY2, Line.RELAY3, Line.RELAY4],
      TB3CCR1 := 8000, TB3CCR2 := 8000, TB3CCR3 := 8000, TB3CCR4 := 8000, TB3CCR5 := 8000,
      trace := [] }
  SetBrightness '4' '0' (SetBrightness '3' '0' (SetBrightness '2' '0' (SetBrightness '1' '0' s)))

/-- An environment in which `atoi((const char *)c)` yields the digit value the
validation of line 297 is written for (the number the one-character string `c`
spells) and a NUL follows the duty buffer.  The ramp runs between 1000 and
8000 in steps of 10. -/
def envDigit : Env :=
  { atoiAt := fun c => atoi [c], overrun := [],
    LOWER_LIMIT := 1000, UPPER_LIMIT := 8000, STEP := 10 }

/-- Where `main` stands in its endless loop: at the test `if(_BLINK)`, at the
test of the falling ramp `while (ccr_value > LOWER_LIMIT)`, or at the test of
the rising ramp `while (ccr_value < UPPER_LIMIT)`. -/
inductive Pc
  | test | down | up
deriving DecidableEq, Repr

/-- The whole program: the globals, and the local `ccr_value` and the
position of `main`. -/
structure Main where
  g : State
  ccr_value : Int
  pc : Pc

/-- The program when `main` enters its loop. -/
def start : Main := { g := init, ccr_value := 8000, pc := Pc.test }

/-- One step of the loop of `main`: a test, and when a ramp test succeeds one
pass of that ramp's body (`delay_us(5000)`, step `ccr_value`, write it to
`TB3CCR5`). -/
def mainStep (env : Env) (m : Main) : Main :=
  match m.pc with
  | Pc.test => if m.g._BLINK then { m with pc := Pc.down } else m
  | Pc.down =>
    if m.ccr_value > env.LOWER_LIMIT then
      let ccr_value := m.ccr_value - env.STEP
      { m with ccr_value := ccr_value,
               g := setTB3CCR 5 (toUnsigned ccr_value) (emit (Event.delay_us 5000) m.g) }
    else { m with pc := Pc.up }
  | Pc.up =>
    if m.ccr_value < env.UPPER_LIMIT then
      let ccr_value := m.ccr_value + env.STEP
      { m with ccr_value := ccr_value,
               g := setTB3CCR 5 (toUnsigned ccr_value) (emit (Event.delay_us 5000) m.g) }
    else { m with pc := Pc.test }

/-- The serial interrupt taken between two steps of `main`: the handler runs
on the globals; `ccr_value` is a local of `main` and the position of `main` is
where it resumes. -/
def serialInterrupt (env : Env) (m : Main) (rx : List Char) : Option (Main × List Char) :=
  match USCI_A0_ISR env m.g rx with
  | none => none
  | some (g, rx) => some ({ m with g := g }, rx)

/-! ## The port handler `Port_1_ISR` and the GPIO set-up -/

/-- Direction of a pin. -/
inductive Dir
  | input | output
deriving DecidableEq, Repr

/-- The direction the GPIO set-up of `main` (lines 81-105) gives the TTL_IN
bit of each port: `PxDIR |= 0xFF` makes every pin of ports 1, 2, 3, 5 and 6 an
output, and `P3DIR &= ~(TTL_IN)` then makes TTL_IN of port 3 an input.  `main`
does not write `P4DIR`. -/
def TTL_IN_dir : Port → Option Dir
  | Port.P1 => some Dir.output
  | Port.P2 => some Dir.output
  | Port.P3 => some Dir.input
  | Port.P4 => none
  | Port.P5 => some Dir.output
  | Port.P6 => some Dir.output

/-- How far a handler that polls has come on the readings it was given: it
has returned, or it is still in its wait loop. -/
inductive Run
  | returned (s : State)
  | waiting (s : State)

/-- The wait loop `while(!(P2IN & TTL_IN)){}` on the successive readings of
`P2IN & TTL_IN`: each test of the condition is one read of port 2. -/
def waitTTL : List Bool → State → Run
  | [], s => Run.waiting s
  | asserted :: P2IN, s =>
    if asserted then Run.returned (emit (Event.poll Port.P2 true) s)
    else waitTTL P2IN (emit (Event.poll Port.P2 false) s)

/-- The interrupt handler `Port_1_ISR` (lines 636-656), run on the successive
readings `P2IN` of `P2IN & TTL_IN`.  The closing `P4IFG &= ~BTN1` clears an
interrupt flag and has no effect on the modelled state. -/
def Port_1_ISR (s : State) (P2IN : List Bool) : Run :=
  let s := setHigh [Line.GRNLED] s
  let s := ['t', 'e', 's', 't', '\r', '\n', '\n'].foldl (fun s c => txbuf c s) s
  let s := setHigh [Line.TTL_OUT] s
  let s := setHigh [Line.LED4] s
  let s := delay_cycles 8000000 s
  let s := setLow [Line.TTL_OUT] s
  match waitTTL P2IN s with
  | Run.waiting s => Run.waiting s
  | Run.returned s =>
    let s := setHigh [Line.LED3] s
    let s := setLow [Line.GRNLED] s
    Run.returned s

/-- The states the program can be in: `main` entering its loop, then steps of
the loop, serial interrupts that returned and port interrupts that returned,
in any order.  A handler runs to its end before anything else does. -/
inductive Reachable (env : Env) : Main → Prop
  | start : Reachable env start
  | step (m : Main) : Reachable env m → Reachable env (mainStep env m)
  | serial (m m' : Main) (rx rest : List Char) :
      Reachable env m → serialInterrupt env m rx = some (m', rest) → Reachable env m'
  | button (m : Main) (g : State) (P2IN : List Bool) :
      Reachable env m → Port_1_ISR m.g P2IN = Run.returned g → Reachable env { m with g := g }

/-! ## Vocabulary for stating the properties -/

/-- A relation between a state and a later one that every primitive effect
of the handlers respects. -/
structure StepClosed (R : State → State → Prop) : Prop where
  refl : ∀ s, R s s
  trans : ∀ s1 s2 s3, R s1 s2 → R s2 s3 → R s1 s3
  on_emit : ∀ e s, R s (emit e s)
  on_setHigh : ∀ mask s, R s (setHigh mask s)
  on_setLow : ∀ mask s, R s (setLow mask s)
  on_setTB3CCR : ∀ ch v s, R s (setTB3CCR ch v s)
  on_setBLINK : ∀ v s, R s (setBLINK v s)
  on_setRxstring : ∀ rxstring s, R s (setRxstring rxstring s)
  on_setLength : ∀ n s, R s (setLength n s)
  on_ModifyCCR : ∀ lvl_ptr fdr value s, R s (ModifyCCR lvl_ptr fdr value s)

/-- An environment whose ramp step does not divide the ramp: limits 0 and
8000, step 300. -/
def envCoarse : Env :=
  { atoiAt := fun c => atoi [c], overrun := [],
    LOWER_LIMIT := 0, UPPER_LIMIT := 8000, STEP := 300 }

/-- An environment in which the byte after the fourth duty character is the
digit 5. -/
def envOverrun : Env :=
  { atoiAt := fun c => atoi [c], overrun := ['5'],
    LOWER_LIMIT := 1000, UPPER_LIMIT := 8000, STEP := 10 }

/-- An environment in which the three bytes that follow the duty buffer in
memory are the characters 1, 1 and $, and `atoi((const char *)c)` yields the
digit value. -/
def envSpill : Env :=
  { atoiAt := fun c => atoi [c], overrun := ['1', '1', '$'],
    LOWER_LIMIT := 1000, UPPER_LIMIT := 8000, STEP := 10 }

/-- What the port handler does before its wait loop: the green LED, the text
`test`, and the TTL pulse of 8,000,000 cycles with LED4. -/
def handshakeOpening : List Event :=
  [Event.high [Line.GRNLED],
   Event.tx 't', Event.tx 'e', Event.tx 's', Event.tx 't', Event.tx '\r', Event.tx '\n',
   Event.tx '\n',
   Event.high [Line.TTL_OUT], Event.high [Line.LED4], Event.delay 8000000,
   Event.low [Line.TTL_OUT]]

/-- The field of a row a feeder character names, if any. -/
def LightLevel.get (row : LightLevel) (feeder : Char) : Option Nat :=
  if feeder = '1' then some row.fdr1
  else if feeder = '2' then some row.fdr2
  else if feeder = '3' then some row.fdr3
  else if feeder = '4' then some row.fdr4
  else none

/-- The table entry a level character and a feeder character name, if any. -/
def tableEntry (s : State) (level feeder : Char) : Option Nat :=
  match levelRow s level with
  | none => none
  | some row => row.get feeder

/-- The trace of one `F` command: the entry write, relay 1 low for
`RELAY_ONTIME` cycles and high again, the ACK pulse, the echo and the status
text. -/
def traceF : List Event :=
  [Event.low [Line.ACK, Line.TTL_OUT],
   Event.low [Line.RELAY1], Event.delay RELAY_ONTIME, Event.high [Line.RELAY1],
   Event.high [Line.ACK], Event.delay 4000000, Event.low [Line.ACK],
   Event.tx 'F', Event.msg msgRelay1]

/-- The compare register of the channel that drives a feeder ring: feeder n is
on TB3_n. -/
def feederDuty (feeder : Char) (s : State) : Option Nat :=
  if feeder = '1' then some s.TB3CCR1
  else if feeder = '2' then some s.TB3CCR2
  else if feeder = '3' then some s.TB3CCR3
  else if feeder = '4' then some s.TB3CCR4
  else none

/-- The bytes a user sends at the duty prompt to enter the characters `typed`
(at most four, none a carriage return): the characters, then a carriage
return when there are fewer than four. -/
def dutyKeys (typed : List Char) : List Char :=
  if typed.length < 4 then typed ++ ['\r'] else typed

/-- The contents of `CCRVAL` after the entry loop has read `dutyKeys typed`:
the characters, NUL-terminated when a carriage return ended the entry. -/
def dutyBuffer (typed : List Char) : List Char :=
  if typed.length < 4 then typed ++ ['\x00'] else typed

/-- The state after the echo of each entered character. -/
def echoed (typed : List Char) (s : State) : State :=
  typed.foldl (fun s b => txbuf b s) s

/-- The state of a `$` session when the entry loop starts: the opening text,
the level and feeder prompts with the echo of their bytes and a line break,
the duty prompt, and `length = 4`. -/
def atDutyPrompt (lvl fdr : Char) (s : State) : State :=
  let s := UARTsendMsg msgEnter s
  let s := UARTsendMsg msgLevelPrompt s
  let s := UARTsendMsg msgCRLF (txbuf lvl s)
  let s := UARTsendMsg msgFeederPrompt s
  let s := UARTsendMsg msgCRLF (txbuf fdr s)
  let s := UARTsendMsg msgDutyPrompt s
  setLength 4 s

/-- The state of a `$` session when the entry loop has ended: the echo of the
duty characters and the line break after them. -/
def afterEntry (lvl fdr : Char) (typed : List Char) (s : State) : State :=
  UARTsendMsg msgCRLF (echoed typed (atDutyPrompt lvl fdr s))

/-- The program in the middle of a falling ramp: Blink on, `main` at the test
of the falling loop with `ccr_value` at 5000. -/
def midRamp : Main := { g := setBLINK true init, ccr_value := 5000, pc := Pc.down }

/-- Between `s` and `s'` the trace has only grown, and by no rise of ACK. -/
def NoAckSince (s s' : State) : Prop :=
  ∃ added : List Event, s'.trace = s.trace ++ added ∧ Event.high [Line.ACK] ∉ added

/-- The four relay lines. -/
def relayLines : List Line := [Line.RELAY1, Line.RELAY2, Line.RELAY3, Line.RELAY4]

/-- The six LED lines. -/
def ledLines : List Line :=
  [Line.REDLED, Line.GRNLED, Line.LED1, Line.LED2, Line.LED3, Line.LED4]

/-- The relay commands with the relay line each one pulses. -/
def relayCommands : List (Char × Line) :=
  [('F', Line.RELAY1), ('G', Line.RELAY2), ('H', Line.RELAY3), ('J', Line.RELAY4)]

/-- A relation between a state and a later one that the serial handler
respects in each of its units of effect: its sends, the entry write, the ACK
pulse, the pulse of a relay in `allowed`, the LED writes, the write that sets
the four relay lines, and the assignments to the globals. -/
structure PulseClosed (allowed : Line → Prop) (R : State → State → Prop) : Prop where
  refl : ∀ s, R s s
  trans : ∀ s1 s2 s3, R s1 s2 → R s2 s3 → R s1 s3
  on_txbuf : ∀ c s, R s (txbuf c s)
  on_UARTsendMsg : ∀ string s, R s (UARTsendMsg string s)
  on_entry : ∀ s, R s (setLow [Line.ACK, Line.TTL_OUT] s)
  on_ackPulse : ∀ s, R s (ackPulse s)
  on_relayPulse : ∀ relay s, allowed relay → R s (relayPulse relay s)
  on_ledsHigh : ∀ mask s, (∀ l ∈ mask, l ∈ ledLines) → R s (setHigh mask s)
  on_ledsLow : ∀ mask s, (∀ l ∈ mask, l ∈ ledLines) → R s (setLow mask s)
  on_relaysHigh : ∀ s, R s (setHigh [Line.RELAY1, Line.RELAY2, Line.RELAY3, Line.RELAY4] s)
  on_setTB3CCR : ∀ ch v s, R s (setTB3CCR ch v s)
  on_setBLINK : ∀ v s, R s (setBLINK v s)
  on_setRxstring : ∀ rxstring s, R s (setRxstring rxstring s)
  on_setLength : ∀ n s, R s (setLength n s)
  on_ModifyCCR : ∀ lvl_ptr fdr value s, R s (ModifyCCR lvl_ptr fdr value s)

/-- The relay lines are high and the ACK line is low. -/
def Idle (s : State) : Prop :=
  (∀ l ∈ relayLines, s.out l = true) ∧ s.out Line.ACK = false

/-- Between `s` and `s'` the trace has only grown, and every write that
drives a relay line low is in the run of that relay's own command `c`. -/
def OwnRelayLow (c : Char) (s s' : State) : Prop :=
  ∃ added : List Event, s'.trace = s.trace ++ added
    ∧ ∀ mask, Event.low mask ∈ added → ∀ relay ∈ mask, relay ∈ relayLines →
        (c, relay) ∈ relayCommands

/-- The characters at which `atoi` starts to read digits: those after the
white space and one sign. -/
def digitsStart (str : List Char) : List Char :=
  match str.dropWhile isspace with
  | [] => []
  | c :: cs => if c = '-' then cs else if c = '+' then cs else c :: cs

/-- The conversion `atoi` attempts finds no digit: where it starts to read
digits the string has ended or shows another character. -/
def noDigits (str : List Char) : Bool :=
  match digitsStart str with
  | [] => true
  | c :: _ => !isdigit c

/-- What a run of the handler on `#` and the payload `b0 b1 b2 b3` adds to the
trace, `mid` being the register writes of the `SetBrightness` call: the entry
write, the echo of `#`, the status text, the register writes, the echo of the
payload, carriage return and two line feeds, and the ACK pulse. -/
def hashTrace (mid : List Event) (b0 b1 b2 b3 : Char) : List Event :=
  [Event.low [Line.ACK, Line.TTL_OUT], Event.tx '#', Event.msg msgFeeder] ++ mid
    ++ [Event.tx b0, Event.tx b1, Event.tx b2, Event.tx b3,
        Event.tx '\r', Event.tx '\n', Event.tx '\n',
        Event.high [Line.ACK], Event.delay 4000000, Event.low [Line.ACK]]

theorem ccrLoop_entry (rest : List Char) :
    ∀ (typed : List Char) (i : Nat) (CCRVAL : List Char) (s : State),
      i + typed.length ≤ 4 → '\r' ∉ typed →
      ccrLoop 4 i CCRVAL s (typed ++ (if i + typed.length < 4 then '\r' :: rest else rest))
        = some (CCRVAL ++ typed ++ (if i + typed.length < 4 then ['\x00'] else []),
                echoed typed s, rest) := by
  intro typed
  induction typed with
  | nil =>
    intro i CCRVAL s hi _
    by_cases h : i < 4
    · have h3 : i ≤ 3 := by omega
      simp [ccrLoop, h, h3, echoed]
    · have h4 : i = 4 := by simpa using (by omega : i = 4)
      subst h4
      cases rest <;> simp [ccrLoop, echoed]
  | cons b typed ih =>
    intro i CCRVAL s hi hcr
    have hb : b ≠ '\r' := by
      intro hb
      exact hcr (by simp [hb])
    have hcr2 : '\r' ∉ typed := by
      intro hmem
      exact hcr (List.mem_cons_of_mem _ hmem)
    have hlen : i + 1 + typed.length ≤ 4 := by
      simp only [List.length_cons] at hi
      omega
    have h3 : i ≤ 3 := by omega
    have key := ih (i + 1) (CCRVAL ++ [b]) (txbuf b s) hlen hcr2
    have heq : i + (b :: typed).length = i + 1 + typed.length := by
      simp only [List.length_cons]
      omega
    rw [heq]
    simp only [List.cons_append, ccrLoop, h3, if_true, hb, if_false, List.append_eq]
    rw [key]
    simp [echoed]

theorem ccrLoop_typed (typed rest : List Char) (s : State)
    (hlen : typed.length ≤ 4) (hcr : '\r' ∉ typed) :
    ccrLoop 4 0 [] s (dutyKeys typed ++ rest) = some (dutyBuffer typed, echoed typed s, rest) := by
  have key := ccrLoop_entry rest typed 0 [] s (by simpa using hlen) hcr
  simp only [Nat.zero_add, List.nil_append] at key
  unfold dutyKeys dutyBuffer
  by_cases h : typed.length < 4
  · simp only [h, if_true] at key ⊢
    simpa using key
  · simp only [h, if_false] at key ⊢
    simpa using key

theorem configCase_two (env : Env) (s : State) (lvl fdr : Char) (rx : List Char) :
    configCase env s (lvl :: fdr :: rx)
      = match ccrLoop 4 0 [] (atDutyPrompt lvl fdr s) rx with
        | none => none
        | some (CCRVAL, s, rx) =>
          commitStep env CCRVAL lvl fdr
            (parseInputs env CCRVAL lvl fdr (UARTsendMsg msgCRLF s)) rx := rfl

theorem configCase_typed (env : Env) (s : State) (lvl fdr : Char) (typed rest : List Char)
    (hlen : typed.length ≤ 4) (hcr : '\r' ∉ typed) :
    configCase env s (lvl :: fdr :: (dutyKeys typed ++ rest))
      = commitStep env (dutyBuffer typed) lvl fdr
          (parseInputs env (dutyBuffer typed) lvl fdr (afterEntry lvl fdr typed s)) rest := by
  have h4 : ∀ s0 : State, (setLength 4 s0).length = 4 := fun _ => rfl
  simp only [configCase, h4]
  rw [ccrLoop_typed typed rest _ hlen hcr]
  rfl

theorem echoed_eq (typed : List Char) (s : State) :
    echoed typed s = { s with trace := s.trace ++ typed.map Event.tx } := by
  induction typed generalizing s with
  | nil => simp [echoed]
  | cons b typed ih =>
    have h := ih (txbuf b s)
    simp only [echoed, List.foldl_cons] at h ⊢
    rw [h]
    simp [txbuf, emit]

theorem afterEntry_eq (lvl fdr : Char) (typed : List Char) (s : State) :
    afterEntry lvl fdr typed s =
      { s with
        length := 4,
        trace := s.trace ++ [Event.msg msgEnter, Event.msg msgLevelPrompt, Event.tx lvl,
          Event.msg msgCRLF, Event.msg msgFeederPrompt, Event.tx fdr, Event.msg msgCRLF,
          Event.msg msgDutyPrompt] ++ typed.map Event.tx ++ [Event.msg msgCRLF] } := by
  simp [afterEntry, atDutyPrompt, echoed_eq, UARTsendMsg, txbuf, emit, setLength]

theorem parseInputs_invalid (env : Env) (CCRVAL : List Char) (lvl fdr : Char) (s : State)
    (hbad : atoi (CCRVAL ++ env.overrun) > 8000 ∨ lvl ∉ ['1', '2', '3']) :
    parseInputs env CCRVAL lvl fdr s = (none, s)
      ∨ parseInputs env CCRVAL lvl fdr s = (none, UARTsendMsg msgLevelError s) := by
  unfold parseInputs
  by_cases hinv : inputsInvalid env CCRVAL lvl fdr = true
  · left
    simp [hinv]
  · have hduty : ¬ atoi (CCRVAL ++ env.overrun) > 8000 := by
      intro h
      apply hinv
      simp [inputsInvalid, h]
    have hlvl : lvl ∉ ['1', '2', '3'] := by
      rcases hbad with h | h
      · exact absurd h hduty
      · exact h
    simp only [List.mem_cons, List.mem_singleton, List.not_mem_nil, or_false, not_or] at hlvl
    right
    simp [hinv, hlvl.1, hlvl.2.1, hlvl.2.2]

theorem trace_last_two (l : List Event) (a b : Event) : (l ++ [a, b]).getLast? = some b := by
  simp [List.getLast?_append]

theorem epilogue_plain (c : Char) (string : String) (s : State) :
    epilogue c string false s = { s with trace := s.trace ++ [Event.tx c, Event.msg string] } := by
  simp [epilogue, UARTsendMsg, txbuf, emit]

theorem switchCase_config (env : Env) (s : State) (rx : List Char) :
    switchCase env '$' s rx = (configCase env s rx).map (fun r => (r.1, false, r.2.1, r.2.2)) := by
  unfold switchCase
  rw [if_neg (by decide), if_pos rfl]
  cases configCase env s rx <;> rfl

theorem ISR_config_typed (env : Env) (s : State) (lvl fdr : Char) (typed rest : List Char)
    (hlen : typed.length ≤ 4) (hcr : '\r' ∉ typed) :
    USCI_A0_ISR env s ('$' :: lvl :: fdr :: (dutyKeys typed ++ rest))
      = (commitStep env (dutyBuffer typed) lvl fdr
          (parseInputs env (dutyBuffer typed) lvl fdr
            (afterEntry lvl fdr typed (setLow [Line.ACK, Line.TTL_OUT] s))) rest).map
          (fun r => (epilogue '$' r.1 false r.2.1, r.2.2)) := by
  simp only [USCI_A0_ISR, switchCase_config, configCase_typed env _ lvl fdr typed rest hlen hcr]
  cases commitStep env (dutyBuffer typed) lvl fdr
          (parseInputs env (dutyBuffer typed) lvl fdr
            (afterEntry lvl fdr typed (setLow [Line.ACK, Line.TTL_OUT] s))) rest <;> rfl

/-- What the tests of line 297 and of the level switch do reject: a `$`
session in which `atoi(CCRVAL)`, reading the duty buffer and on into the memory
after it when no terminator was stored, yields more than 8000, or whose level
byte is none of '1', '2', '3'.  The handler returns, the last thing it sends is
the aborted-due-to-error text, and the four rows of the brightness table are
what they were before the session. -/
theorem config_rejects_bad_duty_or_level (env : Env) (s : State) (lvl fdr : Char)
    (typed rest : List Char) (hlen : typed.length ≤ 4) (hcr : '\r' ∉ typed)
    (hbad : atoi (dutyBuffer typed ++ env.overrun) > 8000 ∨ lvl ∉ ['1', '2', '3']) :
    ∃ s', USCI_A0_ISR env s ('$' :: lvl :: fdr :: (dutyKeys typed ++ rest)) = some (s', rest)
      ∧ s'.trace.getLast? = some (Event.msg msgAborted)
      ∧ s'.L0 = s.L0 ∧ s'.L1 = s.L1 ∧ s'.L2 = s.L2 ∧ s'.L3 = s.L3 := by
  rw [ISR_config_typed env s lvl fdr typed rest hlen hcr]
  rcases parseInputs_invalid env (dutyBuffer typed) lvl fdr
      (afterEntry lvl fdr typed (setLow [Line.ACK, Line.TTL_OUT] s)) hbad with h | h
  · rw [h]
    refine ⟨_, rfl, ?_, ?_, ?_, ?_, ?_⟩
    · simp only [epilogue_plain]
      exact trace_last_two _ _ _
    all_goals simp [epilogue_plain, afterEntry_eq, setLow]
  · rw [h]
    refine ⟨_, rfl, ?_, ?_, ?_, ?_, ?_⟩
    · simp only [epilogue_plain]
      exact trace_last_two _ _ _
    all_goals simp [epilogue_plain, afterEntry_eq, setLow, UARTsendMsg, emit]

/-- Level '1', feeder '1' and the duty characters 9000, with a NUL after the
buffer: rejected. -/
theorem config_rejects_bad_duty_or_level_witness :
    ∃ s', USCI_A0_ISR envDigit init ('$' :: '1' :: '1' :: (dutyKeys ['9', '0', '0', '0'] ++ []))
        = some (s', [])
      ∧ s'.trace.getLast? = some (Event.msg msgAborted)
      ∧ s'.L0 = init.L0 ∧ s'.L1 = init.L1 ∧ s'.L2 = init.L2 ∧ s'.L3 = init.L3 :=
  config_rejects_bad_duty_or_level envDigit init '1' '1' ['9', '0', '0', '0'] []
    (by decide) (by decide) (Or.inl (by decide))

/-- C1: an entered duty above 8000 is not always rejected.  Every entry
above 8000 has four characters, after which the entry loop stores no
terminator, so `atoi(CCRVAL)` reads on into the memory after the buffer.  From
the initial state, with the characters 1, 1, $ after the buffer, in every
environment where the byte '1' passes the tests of line 297, the session with
level '1', feeder '1' and the duty entry 9000 reads 900011, which as a 16-bit
`int` is -17493 and not above 8000: the session is committed, field `fdr1` of
level 1 goes from 7742 to 48043, and the final status is the
configuration-applied text, not the aborted text. -/
theorem config_commits_duty_over_8000 (env : Env) (hov : env.overrun = ['1', '1', '$'])
    (hlvl : env.atoiAt '1' ≤ 3) (hfdr : env.atoiAt '1' ≤ 4) :
    atoi ['9', '0', '0', '0'] = 9000
      ∧ atoi (dutyBuffer ['9', '0', '0', '0'] ++ env.overrun) = -17493
      ∧ ∃ s', USCI_A0_ISR env init ['$', '1', '1', '9', '0', '0', '0', 'n'] = some (s', [])
        ∧ init.L1.fdr1 = 7742 ∧ s'.L1.fdr1 = 48043 ∧ ¬ s'.L1.fdr1 ≤ 8000
        ∧ s'.trace.getLast? = some (Event.msg msgConfigApplied)
        ∧ s'.trace.getLast? ≠ some (Event.msg msgAborted) := by
  have h := ISR_config_typed env init '1' '1' ['9', '0', '0', '0'] ['n'] (by decide) (by decide)
  have hk : dutyKeys ['9', '0', '0', '0'] ++ ['n'] = ['9', '0', '0', '0', 'n'] := by decide
  rw [hk] at h
  have hduty : atoi (dutyBuffer ['9', '0', '0', '0'] ++ env.overrun) = -17493 := by
    rw [hov]
    decide
  have hinv : inputsInvalid env (dutyBuffer ['9', '0', '0', '0']) '1' '1' = false := by
    simp only [inputsInvalid, hduty]
    simp [hlvl, hfdr]
  refine ⟨by decide, hduty, ?_⟩
  rw [h]
  simp only [parseInputs, hinv]
  refine ⟨_, rfl, rfl, ?_, ?_, ?_, ?_⟩
  · simp [epilogue_plain, UARTsendMsg, txbuf, emit, ModifyCCR, LightLevel.modify, hduty,
      toUnsigned]
  · simp [epilogue_plain, UARTsendMsg, txbuf, emit, ModifyCCR, LightLevel.modify, hduty,
      toUnsigned]
  · simp only [epilogue_plain]
    exact trace_last_two _ _ _
  · simp only [epilogue_plain]
    rw [trace_last_two]
    decide

/-- Witness for C1: the environment in which the cast bytes read as their
digit and the characters 1, 1, $ follow the duty buffer. -/
theorem config_commits_duty_over_8000_witness :
    atoi ['9', '0', '0', '0'] = 9000
      ∧ atoi (dutyBuffer ['9', '0', '0', '0'] ++ envSpill.overrun) = -17493
      ∧ ∃ s', USCI_A0_ISR envSpill init ['$', '1', '1', '9', '0', '0', '0', 'n'] = some (s', [])
        ∧ init.L1.fdr1 = 7742 ∧ s'.L1.fdr1 = 48043 ∧ ¬ s'.L1.fdr1 ≤ 8000
        ∧ s'.trace.getLast? = some (Event.msg msgConfigApplied)
        ∧ s'.trace.getLast? ≠ some (Event.msg msgAborted) :=
  config_commits_duty_over_8000 envSpill rfl (by decide) (by decide)

/-- C2: the feeder byte '0' is not rejected.  With level '1', feeder '0' and
the duty entry 500 followed by a carriage return, in every environment where
the bytes '1' and '0' pass the tests of line 297, the handler goes on to the
test prompt and its final status is the configuration-applied text, not the
aborted text. -/
theorem config_accepts_feeder_zero (env : Env) (s : State)
    (hlvl : env.atoiAt '1' ≤ 3) (hfdr : env.atoiAt '0' ≤ 4) :
    ∃ s', USCI_A0_ISR env s ['$', '1', '0', '5', '0', '0', '\r', 'n'] = some (s', [])
      ∧ Event.msg msgTestPrompt ∈ s'.trace
      ∧ s'.trace.getLast? = some (Event.msg msgConfigApplied)
      ∧ s'.trace.getLast? ≠ some (Event.msg msgAborted) := by
  have h := ISR_config_typed env s '1' '0' ['5', '0', '0'] ['n'] (by decide) (by decide)
  have hk : dutyKeys ['5', '0', '0'] ++ ['n'] = ['5', '0', '0', '\r', 'n'] := by decide
  rw [hk] at h
  have hduty : atoi (dutyBuffer ['5', '0', '0'] ++ env.overrun) = 500 := by
    simp [dutyBuffer, atoi, toInt16, isspace, atoiSigned, atoiDigits, isdigit]
  have hinv : inputsInvalid env (dutyBuffer ['5', '0', '0']) '1' '0' = false := by
    simp only [inputsInvalid, hduty]
    simp [hlvl, hfdr]
  rw [h]
  simp only [parseInputs, hinv]
  refine ⟨_, rfl, ?_, ?_, ?_⟩
  · simp [epilogue_plain, UARTsendMsg, txbuf, emit]
  · simp only [epilogue_plain]
    exact trace_last_two _ _ _
  · simp only [epilogue_plain]
    rw [trace_last_two]
    decide

/-- Witness for C2: the environment in which the cast bytes read as their digit. -/
theorem config_accepts_feeder_zero_witness :
    ∃ s', USCI_A0_ISR envDigit init ['$', '1', '0', '5', '0', '0', '\r', 'n'] = some (s', [])
      ∧ Event.msg msgTestPrompt ∈ s'.trace
      ∧ s'.trace.getLast? = some (Event.msg msgConfigApplied)
      ∧ s'.trace.getLast? ≠ some (Event.msg msgAborted) :=
  config_accepts_feeder_zero envDigit init (by decide) (by decide)

/-- C3: the table leaves [0, 8000].  From the initial state, the session with
level '1', feeder '1' and the duty entry -1 followed by a carriage return, in
every environment where the byte '1' passes the tests of line 297, is
committed and leaves 65535 in field `fdr1` of level 1. -/
theorem config_commits_negative_duty (env : Env)
    (hlvl : env.atoiAt '1' ≤ 3) (hfdr : env.atoiAt '1' ≤ 4) :
    ∃ s', USCI_A0_ISR env init ['$', '1', '1', '-', '1', '\r', 'n'] = some (s', [])
      ∧ s'.L1.fdr1 = 65535 ∧ ¬ s'.L1.fdr1 ≤ 8000
      ∧ s'.trace.getLast? = some (Event.msg msgConfigApplied) := by
  have h := ISR_config_typed env init '1' '1' ['-', '1'] ['n'] (by decide) (by decide)
  have hk : dutyKeys ['-', '1'] ++ ['n'] = ['-', '1', '\r', 'n'] := by decide
  rw [hk] at h
  have hduty : atoi (dutyBuffer ['-', '1'] ++ env.overrun) = -1 := by
    simp [dutyBuffer, atoi, toInt16, isspace, atoiSigned, atoiDigits, isdigit]
  have hinv : inputsInvalid env (dutyBuffer ['-', '1']) '1' '1' = false := by
    simp only [inputsInvalid, hduty]
    simp [hlvl, hfdr]
  rw [h]
  simp only [parseInputs, hinv]
  refine ⟨_, rfl, ?_, ?_, ?_⟩
  · simp [epilogue_plain, UARTsendMsg, txbuf, emit, ModifyCCR, LightLevel.modify, hduty,
      toUnsigned]
  · simp [epilogue_plain, UARTsendMsg, txbuf, emit, ModifyCCR, LightLevel.modify, hduty,
      toUnsigned]
  · simp only [epilogue_plain]
    exact trace_last_two _ _ _

/-- Witness for C3: the environment in which the cast bytes read as their digit. -/
theorem config_commits_negative_duty_witness :
    ∃ s', USCI_A0_ISR envDigit init ['$', '1', '1', '-', '1', '\r', 'n'] = some (s', [])
      ∧ s'.L1.fdr1 = 65535 ∧ ¬ s'.L1.fdr1 ≤ 8000
      ∧ s'.trace.getLast? = some (Event.msg msgConfigApplied) :=
  config_commits_negative_duty envDigit (by decide) (by decide)

theorem toUnsigned_of_range (v : Int) (hlo : 0 ≤ v) (hhi : v ≤ 8000) :
    ((toUnsigned v : Nat) : Int) = v := by
  unfold toUnsigned
  have h : v % 65536 = v := Int.emod_eq_of_lt hlo (by omega)
  rw [h]
  exact Int.toNat_of_nonneg hlo

/-- The state a committed session is in when the test prompt has been
answered: the table write, the prompt, the echoed answer, and for `y` the four
`SetBrightness` calls. -/
theorem commitStep_some (env : Env) (CCRVAL : List Char) (lvl fdr ans : Char) (p : LvlPtr)
    (s : State) (rest : List Char) :
    commitStep env CCRVAL lvl fdr (some p, s) (ans :: rest)
      = some (if ans = 'y' then msgNewSettings else msgConfigApplied,
          (if ans = 'y' then
            SetBrightness '4' lvl (SetBrightness '3' lvl (SetBrightness '2' lvl
              (SetBrightness '1' lvl (UARTsendMsg msgCRLF (txbuf ans (UARTsendMsg msgTestPrompt
                (ModifyCCR p fdr (atoi (CCRVAL ++ env.overrun)) s)))))))
           else UARTsendMsg msgCRLF (txbuf ans (UARTsendMsg msgTestPrompt
                (ModifyCCR p fdr (atoi (CCRVAL ++ env.overrun)) s)))),
          rest) := by
  by_cases hy : ans = 'y' <;> simp [commitStep, hy]

theorem parseInputs_valid (env : Env) (CCRVAL : List Char) (lvl fdr : Char) (s : State)
    (hinv : inputsInvalid env CCRVAL lvl fdr = false) :
    (lvl = '1' → parseInputs env CCRVAL lvl fdr s = (some LvlPtr.L1, s))
      ∧ (lvl = '2' → parseInputs env CCRVAL lvl fdr s = (some LvlPtr.L2, s))
      ∧ (lvl = '3' → parseInputs env CCRVAL lvl fdr s = (some LvlPtr.L3, s)) := by
  refine ⟨?_, ?_, ?_⟩ <;> intro h <;> subst h <;> simp [parseInputs, hinv]

/-- C4: for a level in '1'..'3', a feeder in '1'..'4' and an entered duty value
in 0..8000, a `$` session that passes the tests of line 297 returns, whatever
the answer at the test prompt, in a state where `SetBrightness` for that feeder
and level loads exactly the entered duty into the feeder's channel. -/
theorem committed_duty_is_applied (env : Env) (s : State) (lvl fdr ans : Char)
    (typed rest : List Char)
    (hlvl : lvl ∈ ['1', '2', '3']) (hfdr : fdr ∈ ['1', '2', '3', '4'])
    (hlen : typed.length ≤ 4) (hcr : '\r' ∉ typed)
    (hlo : 0 ≤ atoi (dutyBuffer typed ++ env.overrun))
    (hhi : atoi (dutyBuffer typed ++ env.overrun) ≤ 8000)
    (hpl : env.atoiAt lvl ≤ 3) (hpf : env.atoiAt fdr ≤ 4) :
    ∃ s', USCI_A0_ISR env s ('$' :: lvl :: fdr :: (dutyKeys typed ++ ans :: rest))
        = some (s', rest)
      ∧ (feederDuty fdr (SetBrightness fdr lvl s')).map Int.ofNat
          = some (atoi (dutyBuffer typed ++ env.overrun)) := by
  have hinv : inputsInvalid env (dutyBuffer typed) lvl fdr = false := by
    simp only [inputsInvalid]
    simp [hhi, hpl, hpf]
  have hu := toUnsigned_of_range _ hlo hhi
  obtain ⟨h1, h2, h3⟩ := parseInputs_valid env (dutyBuffer typed) lvl fdr
    (afterEntry lvl fdr typed (setLow [Line.ACK, Line.TTL_OUT] s)) hinv
  rw [ISR_config_typed env s lvl fdr typed (ans :: rest) hlen hcr]
  simp only [List.mem_cons, List.mem_singleton, List.not_mem_nil, or_false] at hlvl hfdr
  rcases hlvl with h | h | h
  · rw [h1 h, commitStep_some]
    refine ⟨_, rfl, ?_⟩
    subst h
    by_cases hy : ans = 'y' <;> rcases hfdr with h | h | h | h <;> subst h <;>
      simp [hy, epilogue_plain, UARTsendMsg, txbuf, emit, ModifyCCR, LightLevel.modify,
        SetBrightness, levelRow, setTB3CCR, feederDuty, hu]
  · rw [h2 h, commitStep_some]
    refine ⟨_, rfl, ?_⟩
    subst h
    by_cases hy : ans = 'y' <;> rcases hfdr with h | h | h | h <;> subst h <;>
      simp [hy, epilogue_plain, UARTsendMsg, txbuf, emit, ModifyCCR, LightLevel.modify,
        SetBrightness, levelRow, setTB3CCR, feederDuty, hu]
  · rw [h3 h, commitStep_some]
    refine ⟨_, rfl, ?_⟩
    subst h
    by_cases hy : ans = 'y' <;> rcases hfdr with h | h | h | h <;> subst h <;>
      simp [hy, epilogue_plain, UARTsendMsg, txbuf, emit, ModifyCCR, LightLevel.modify,
        SetBrightness, levelRow, setTB3CCR, feederDuty, hu]

/-- Witness for C4: level '2', feeder '3', the duty entry 4321, answer 'n'. -/
theorem committed_duty_is_applied_witness :
    ∃ s', USCI_A0_ISR envDigit init
          ('$' :: '2' :: '3' :: (dutyKeys ['4', '3', '2', '1'] ++ 'n' :: [])) = some (s', [])
      ∧ (feederDuty '3' (SetBrightness '3' '2' s')).map Int.ofNat
          = some (atoi (dutyBuffer ['4', '3', '2', '1'] ++ envDigit.overrun)) :=
  committed_duty_is_applied envDigit init '2' '3' 'n' ['4', '3', '2', '1'] []
    (by decide) (by decide) (by decide) (by decide) (by decide) (by decide) (by decide)
    (by decide)

/-- C5: from any state whatever, the handler run on `R` returns with the four
relay lines high, the five compare registers at 8000 and the Blink flag clear. -/
theorem reset_all_off (env : Env) (s : State) (rest : List Char) :
    ∃ s', USCI_A0_ISR env s ('R' :: rest) = some (s', rest)
      ∧ s'.out Line.RELAY1 = true ∧ s'.out Line.RELAY2 = true
      ∧ s'.out Line.RELAY3 = true ∧ s'.out Line.RELAY4 = true
      ∧ s'.TB3CCR1 = 8000 ∧ s'.TB3CCR2 = 8000 ∧ s'.TB3CCR3 = 8000
      ∧ s'.TB3CCR4 = 8000 ∧ s'.TB3CCR5 = 8000
      ∧ s'._BLINK = false := by
  refine ⟨_, rfl, ?_⟩
  simp [epilogue_plain, ackPulse, setBLINK, setTB3CCR, setHigh, setLow, delay_cycles, emit]

theorem rxLoop_four (rxstring : Nat → Char) (b0 b1 b2 b3 : Char) (rest : List Char) :
    rxLoop 4 0 rxstring (b0 :: b1 :: b2 :: b3 :: rest)
      = some (Function.update (Function.update (Function.update
          (Function.update rxstring 0 b0) 1 b1) 2 b2) 3 b3, rest) := by
  cases rest <;> simp [rxLoop]

theorem rxLoop_short (rxstring : Nat → Char) :
    ∀ (payload : List Char) (i : Nat), i + payload.length < 4 →
      rxLoop 4 i rxstring payload = none := by
  intro payload
  induction payload generalizing rxstring with
  | nil =>
    intro i hi
    have h3 : i ≤ 3 := by
      simp only [List.length_nil] at hi
      omega
    simp [rxLoop, h3]
  | cons b payload ih =>
    intro i hi
    simp only [List.length_cons] at hi
    have h3 : i ≤ 3 := by omega
    simp only [rxLoop, h3, if_true]
    exact ih _ (i + 1) (by omega)

theorem switchCase_hash (env : Env) (s : State) (rx : List Char) :
    switchCase env '#' s rx
      = (rxLoop s.length 0 s.rxstring rx).map
          (fun r => (msgFeeder, true, setRxstring r.1 s, r.2)) := by
  unfold switchCase
  rw [if_pos rfl]
  cases rxLoop s.length 0 s.rxstring rx <;> rfl

theorem ackPulse_eq (s : State) :
    ackPulse s = { s with
      out := fun l => if l = Line.ACK then false else s.out l,
      trace := s.trace ++ [Event.high [Line.ACK], Event.delay 4000000, Event.low [Line.ACK]] } := by
  simp only [ackPulse, setLow, setHigh, delay_cycles, emit, List.mem_singleton, List.append_assoc,
    List.singleton_append]
  congr 1
  funext l
  by_cases h : l = Line.ACK <;> simp [h]

theorem echoLoop_four (s : State) :
    echoLoop 4 0 s = { s with
      trace := s.trace ++ [Event.tx (s.rxstring 0), Event.tx (s.rxstring 1),
        Event.tx (s.rxstring 2), Event.tx (s.rxstring 3)] } := by
  simp [echoLoop, txbuf, emit]

/-- What `SetBrightness` leaves alone: the table, the Blink flag, the payload
buffer and its length, the output lines and the cue register. -/
theorem SetBrightness_frame (feeder level : Char) (s : State) :
    (SetBrightness feeder level s).L0 = s.L0 ∧ (SetBrightness feeder level s).L1 = s.L1
      ∧ (SetBrightness feeder level s).L2 = s.L2 ∧ (SetBrightness feeder level s).L3 = s.L3
      ∧ (SetBrightness feeder level s)._BLINK = s._BLINK
      ∧ (SetBrightness feeder level s).length = s.length
      ∧ (SetBrightness feeder level s).rxstring = s.rxstring
      ∧ (SetBrightness feeder level s).out = s.out
      ∧ (SetBrightness feeder level s).TB3CCR5 = s.TB3CCR5 := by
  unfold SetBrightness
  cases levelRow s level with
  | none => simp
  | some row =>
    simp only [setTB3CCR]
    split_ifs <;> simp

/-- The feeder registers `SetBrightness` yields depend on the table and on the
feeder registers only. -/
theorem SetBrightness_congr (feeder level : Char) (s1 s2 : State)
    (h0 : s1.L0 = s2.L0) (h1 : s1.L1 = s2.L1) (h2 : s1.L2 = s2.L2) (h3 : s1.L3 = s2.L3)
    (c1 : s1.TB3CCR1 = s2.TB3CCR1) (c2 : s1.TB3CCR2 = s2.TB3CCR2)
    (c3 : s1.TB3CCR3 = s2.TB3CCR3) (c4 : s1.TB3CCR4 = s2.TB3CCR4) :
    (SetBrightness feeder level s1).TB3CCR1 = (SetBrightness feeder level s2).TB3CCR1
      ∧ (SetBrightness feeder level s1).TB3CCR2 = (SetBrightness feeder level s2).TB3CCR2
      ∧ (SetBrightness feeder level s1).TB3CCR3 = (SetBrightness feeder level s2).TB3CCR3
      ∧ (SetBrightness feeder level s1).TB3CCR4 = (SetBrightness feeder level s2).TB3CCR4 := by
  have hrow : levelRow s1 level = levelRow s2 level := by
    simp only [levelRow, h0, h1, h2, h3]
  unfold SetBrightness
  rw [hrow]
  cases levelRow s2 level with
  | none => simp [c1, c2, c3, c4]
  | some row =>
    simp only [setTB3CCR]
    split_ifs <;> simp [c1, c2, c3, c4]

/-- The epilogue of a `#` command with the payload length at 4. -/
theorem epilogue_hash (c : Char) (string : String) (s : State) (hlen : s.length = 4) :
    epilogue c string true s
      = ackPulse (txbuf '\n' (txbuf '\n' (txbuf '\r' (echoLoop 4 0
          (SetBrightness (s.rxstring 1) (s.rxstring 3) (UARTsendMsg string (txbuf c s))))))) := by
  have hb : (SetBrightness (s.rxstring 1) (s.rxstring 3) (UARTsendMsg string (txbuf c s))).length
      = 4 := by
    rw [(SetBrightness_frame _ _ _).2.2.2.2.2.1]
    exact hlen
  show ackPulse (txbuf '\n' (txbuf '\n' (txbuf '\r' (echoLoop
      ((SetBrightness (s.rxstring 1) (s.rxstring 3) (UARTsendMsg string (txbuf c s))).length
        - 1 + 1) 0
          (SetBrightness (s.rxstring 1) (s.rxstring 3) (UARTsendMsg string (txbuf c s))))))) = _
  rw [hb]

/-- The state the handler returns in after `#` and four payload bytes, with
the payload length at 4. -/
theorem ISR_hash_four (env : Env) (s : State) (b0 b1 b2 b3 : Char) (rest : List Char)
    (hlen : s.length = 4) :
    USCI_A0_ISR env s ('#' :: b0 :: b1 :: b2 :: b3 :: rest)
      = some (ackPulse (txbuf '\n' (txbuf '\n' (txbuf '\r' (echoLoop 4 0
          (SetBrightness b1 b3 (UARTsendMsg msgFeeder (txbuf '#'
            (setRxstring (Function.update (Function.update (Function.update
                (Function.update s.rxstring 0 b0) 1 b1) 2 b2) 3 b3)
              (setLow [Line.ACK, Line.TTL_OUT] s))))))))), rest) := by
  have hl : (setLow [Line.ACK, Line.TTL_OUT] s).length = 4 := hlen
  have hr : (setLow [Line.ACK, Line.TTL_OUT] s).rxstring = s.rxstring := rfl
  simp only [USCI_A0_ISR, switchCase_hash, hl, hr, rxLoop_four, Option.map]
  rw [epilogue_hash _ _ _
    (show (setRxstring _ (setLow [Line.ACK, Line.TTL_OUT] s)).length = 4 from hlen)]
  rfl

/-- C6: with the payload length at 4, the handler run on `#` stores the next
four bytes, whatever they are, in `rxstring` and returns with the bytes after
them unread.  Its only effects on the device are those of `#` itself: the
compare registers of the feeders are those `SetBrightness` of bytes 1 and 3
gives, the cue register, the Blink flag, the table and every output line are
as before (ACK and TTL_OUT, which the handler drives, are low), so an `R` among
the four bytes resets nothing.  While fewer than four bytes have followed `#`
the handler has not returned. -/
theorem hash_payload_is_raw (env : Env) (s : State) (b0 b1 b2 b3 : Char) (rest : List Char)
    (hlen : s.length = 4) :
    (∃ s', USCI_A0_ISR env s ('#' :: b0 :: b1 :: b2 :: b3 :: rest) = some (s', rest)
      ∧ s'.rxstring 0 = b0 ∧ s'.rxstring 1 = b1 ∧ s'.rxstring 2 = b2 ∧ s'.rxstring 3 = b3
      ∧ s'.TB3CCR1 = (SetBrightness b1 b3 s).TB3CCR1
      ∧ s'.TB3CCR2 = (SetBrightness b1 b3 s).TB3CCR2
      ∧ s'.TB3CCR3 = (SetBrightness b1 b3 s).TB3CCR3
      ∧ s'.TB3CCR4 = (SetBrightness b1 b3 s).TB3CCR4
      ∧ s'.TB3CCR5 = s.TB3CCR5
      ∧ s'._BLINK = s._BLINK
      ∧ s'.L0 = s.L0 ∧ s'.L1 = s.L1 ∧ s'.L2 = s.L2 ∧ s'.L3 = s.L3
      ∧ (∀ l, l ≠ Line.ACK → l ≠ Line.TTL_OUT → s'.out l = s.out l)
      ∧ s'.out Line.ACK = false ∧ s'.out Line.TTL_OUT = false)
    ∧ ∀ payload : List Char, payload.length < 4 → USCI_A0_ISR env s ('#' :: payload) = none := by
  constructor
  · rw [ISR_hash_four env s b0 b1 b2 b3 rest hlen]
    refine ⟨_, rfl, ?_⟩
    generalize hs1 : UARTsendMsg msgFeeder (txbuf '#'
        (setRxstring (Function.update (Function.update (Function.update
            (Function.update s.rxstring 0 b0) 1 b1) 2 b2) 3 b3)
          (setLow [Line.ACK, Line.TTL_OUT] s))) = s1
    have e0 : s1.L0 = s.L0 := by rw [← hs1]; rfl
    have e1 : s1.L1 = s.L1 := by rw [← hs1]; rfl
    have e2 : s1.L2 = s.L2 := by rw [← hs1]; rfl
    have e3 : s1.L3 = s.L3 := by rw [← hs1]; rfl
    have eB : s1._BLINK = s._BLINK := by rw [← hs1]; rfl
    have d1 : s1.TB3CCR1 = s.TB3CCR1 := by rw [← hs1]; rfl
    have d2 : s1.TB3CCR2 = s.TB3CCR2 := by rw [← hs1]; rfl
    have d3 : s1.TB3CCR3 = s.TB3CCR3 := by rw [← hs1]; rfl
    have d4 : s1.TB3CCR4 = s.TB3CCR4 := by rw [← hs1]; rfl
    have d5 : s1.TB3CCR5 = s.TB3CCR5 := by rw [← hs1]; rfl
    have r0 : s1.rxstring 0 = b0 := by rw [← hs1]; rfl
    have r1 : s1.rxstring 1 = b1 := by rw [← hs1]; rfl
    have r2 : s1.rxstring 2 = b2 := by rw [← hs1]; rfl
    have r3 : s1.rxstring 3 = b3 := by rw [← hs1]; rfl
    have eO : s1.out = fun l => if l ∈ [Line.ACK, Line.TTL_OUT] then false else s.out l := by
      rw [← hs1]; rfl
    obtain ⟨f0, f1, f2, f3, fB, _, fR, fO, f5⟩ := SetBrightness_frame b1 b3 s1
    obtain ⟨c1, c2, c3, c4⟩ := SetBrightness_congr b1 b3 s1 s e0 e1 e2 e3 d1 d2 d3 d4
    generalize SetBrightness b1 b3 s1 = sb at *
    have key : ackPulse (txbuf '\n' (txbuf '\n' (txbuf '\r' (echoLoop 4 0 sb))))
        = { sb with
            out := fun l => if l = Line.ACK then false else sb.out l,
            trace := sb.trace ++ [Event.tx (sb.rxstring 0), Event.tx (sb.rxstring 1),
              Event.tx (sb.rxstring 2), Event.tx (sb.rxstring 3), Event.tx '\r', Event.tx '\n',
              Event.tx '\n', Event.high [Line.ACK], Event.delay 4000000,
              Event.low [Line.ACK]] } := by
      simp [ackPulse_eq, echoLoop_four, txbuf, emit]
    rw [key]
    simp only [fR, fO, eO, r0, r1, r2, r3, f0, f1, f2, f3, e0, e1, e2, e3, fB, eB, f5, d5,
      c1, c2, c3, c4, true_and]
    refine ⟨?_, ?_, ?_⟩
    · intro l h1 h2
      simp [h1, h2]
    · trivial
    · simp
  · intro payload hp
    have hl : (setLow [Line.ACK, Line.TTL_OUT] s).length = 4 := hlen
    simp only [USCI_A0_ISR, switchCase_hash, hl]
    rw [rxLoop_short _ payload 0 (by omega)]
    rfl

/-- Witness for C6: the payload F, R, L, 1 from the initial state. -/
theorem hash_payload_is_raw_witness :
    (∃ s', USCI_A0_ISR envDigit init ('#' :: 'F' :: 'R' :: 'L' :: '1' :: []) = some (s', [])
      ∧ s'.rxstring 0 = 'F' ∧ s'.rxstring 1 = 'R' ∧ s'.rxstring 2 = 'L' ∧ s'.rxstring 3 = '1'
      ∧ s'.TB3CCR1 = (SetBrightness 'R' '1' init).TB3CCR1
      ∧ s'.TB3CCR2 = (SetBrightness 'R' '1' init).TB3CCR2
      ∧ s'.TB3CCR3 = (SetBrightness 'R' '1' init).TB3CCR3
      ∧ s'.TB3CCR4 = (SetBrightness 'R' '1' init).TB3CCR4
      ∧ s'.TB3CCR5 = init.TB3CCR5
      ∧ s'._BLINK = init._BLINK
      ∧ s'.L0 = init.L0 ∧ s'.L1 = init.L1 ∧ s'.L2 = init.L2 ∧ s'.L3 = init.L3
      ∧ (∀ l, l ≠ Line.ACK → l ≠ Line.TTL_OUT → s'.out l = init.out l)
      ∧ s'.out Line.ACK = false ∧ s'.out Line.TTL_OUT = false)
    ∧ ∀ payload : List Char, payload.length < 4 →
        USCI_A0_ISR envDigit init ('#' :: payload) = none :=
  hash_payload_is_raw envDigit init 'F' 'R' 'L' '1' [] rfl

theorem switchCase_unknown (env : Env) (c : Char) (s : State) (rx : List Char)
    (hc : c ∉ ['#', '$', 'A', 'g', 'r', 'k', 'R', 'F', 'G', 'H', 'J', '?']) :
    switchCase env c s rx = some (msgUnknown, false, s, rx) := by
  simp only [List.mem_cons, List.mem_singleton, List.not_mem_nil, or_false, not_or] at hc
  obtain ⟨h1, h2, h3, h4, h5, h6, h7, h8, h9, h10, h11, h12⟩ := hc
  unfold switchCase
  rw [if_neg h1, if_neg h2, if_neg h3, if_neg h4, if_neg h5, if_neg h6, if_neg h7, if_neg h8,
    if_neg h9, if_neg h10, if_neg h11, if_neg h12]

/-- C7, as stated, fails: the byte `A` is none of the nine listed commands, yet
the handler run on it from the initial state raises the REDLED line, pulses
ACK, and ends with the all-on text. -/
theorem legacy_byte_A_has_effects :
    'A' ∉ ['#', '$', 'k', 'R', 'F', 'G', 'H', 'J', '?']
      ∧ ∃ s', USCI_A0_ISR envDigit init ['A'] = some (s', [])
        ∧ init.out Line.REDLED = false ∧ s'.out Line.REDLED = true
        ∧ Event.high [Line.ACK] ∈ s'.trace
        ∧ s'.trace.getLast? = some (Event.msg msgAllOn)
        ∧ msgAllOn ≠ msgUnknown := by
  refine ⟨by decide, _, rfl, by decide, by decide, ?_, ?_, by decide⟩
  · simp [epilogue_plain, ackPulse_eq, setHigh]
  · simp only [epilogue_plain]
    exact trace_last_two _ _ _

/-- C7, amended: for every byte other than `#`, `$`, `k`, `R`, `F`, `G`, `H`,
`J`, `?` and the legacy bytes `A`, `g`, `r`, the handler returns with every
compare register, every table row and the Blink flag as they were.  All it
does is the entry write that drives ACK and TTL_OUT low, the echo of the byte
and the unrecognized-command text: no ACK pulse, and no output line changed
when ACK and TTL_OUT were low at entry. -/
theorem unknown_byte_changes_nothing (env : Env) (s : State) (c : Char) (rest : List Char)
    (hc : c ∉ ['#', '$', 'A', 'g', 'r', 'k', 'R', 'F', 'G', 'H', 'J', '?']) :
    ∃ s', USCI_A0_ISR env s (c :: rest) = some (s', rest)
      ∧ s'.trace = s.trace ++
          [Event.low [Line.ACK, Line.TTL_OUT], Event.tx c, Event.msg msgUnknown]
      ∧ s'.out = (fun l => if l ∈ [Line.ACK, Line.TTL_OUT] then false else s.out l)
      ∧ (s.out Line.ACK = false → s.out Line.TTL_OUT = false → s'.out = s.out)
      ∧ s'.TB3CCR1 = s.TB3CCR1 ∧ s'.TB3CCR2 = s.TB3CCR2 ∧ s'.TB3CCR3 = s.TB3CCR3
      ∧ s'.TB3CCR4 = s.TB3CCR4 ∧ s'.TB3CCR5 = s.TB3CCR5
      ∧ s'.L0 = s.L0 ∧ s'.L1 = s.L1 ∧ s'.L2 = s.L2 ∧ s'.L3 = s.L3
      ∧ s'._BLINK = s._BLINK := by
  simp only [USCI_A0_ISR, switchCase_unknown env c _ rest hc, epilogue_plain]
  refine ⟨_, rfl, ?_, rfl, ?_, rfl, rfl, rfl, rfl, rfl, rfl, rfl, rfl, rfl, rfl⟩
  · simp [setLow]
  · intro hACK hTTL
    funext l
    simp only [setLow, List.mem_cons, List.mem_singleton, List.not_mem_nil, or_false]
    by_cases h1 : l = Line.ACK
    · simp [h1, hACK]
    · by_cases h2 : l = Line.TTL_OUT
      · simp [h2, hTTL]
      · simp [h1, h2]

/-- Witness for C7: the byte `x` in the initial state. -/
theorem unknown_byte_changes_nothing_witness :
    ∃ s', USCI_A0_ISR envDigit init ('x' :: []) = some (s', [])
      ∧ s'.trace = init.trace ++
          [Event.low [Line.ACK, Line.TTL_OUT], Event.tx 'x', Event.msg msgUnknown]
      ∧ s'.out = (fun l => if l ∈ [Line.ACK, Line.TTL_OUT] then false else init.out l)
      ∧ (init.out Line.ACK = false → init.out Line.TTL_OUT = false → s'.out = init.out)
      ∧ s'.TB3CCR1 = init.TB3CCR1 ∧ s'.TB3CCR2 = init.TB3CCR2 ∧ s'.TB3CCR3 = init.TB3CCR3
      ∧ s'.TB3CCR4 = init.TB3CCR4 ∧ s'.TB3CCR5 = init.TB3CCR5
      ∧ s'.L0 = init.L0 ∧ s'.L1 = init.L1 ∧ s'.L2 = init.L2 ∧ s'.L3 = init.L3
      ∧ s'._BLINK = init._BLINK :=
  unknown_byte_changes_nothing envDigit init 'x' [] (by decide)

/-- C8, as stated, fails: with the level byte '9' the handler has not returned
while only the level byte has arrived, and on the full session it sends the
feeder and duty prompts and reads the feeder byte and the duty entry before
it rejects. -/
theorem invalid_level_still_prompts :
    '9' ∉ ['1', '2', '3']
      ∧ USCI_A0_ISR envDigit init ['$', '9'] = none
      ∧ ∃ s', USCI_A0_ISR envDigit init ['$', '9', '1', '5', '\r'] = some (s', [])
        ∧ Event.msg msgFeederPrompt ∈ s'.trace
        ∧ Event.msg msgDutyPrompt ∈ s'.trace
        ∧ s'.trace.getLast? = some (Event.msg msgAborted) := by
  refine ⟨by decide, rfl, _, rfl, ?_, ?_, ?_⟩
  · simp [epilogue_plain, commitStep, parseInputs, UARTsendMsg, txbuf, emit, setLength]
  · simp [epilogue_plain, commitStep, parseInputs, UARTsendMsg, txbuf, emit, setLength]
  · simp only [epilogue_plain]
    exact trace_last_two _ _ _

/-- C8, amended: validation comes after all three inputs.  With a level byte
that is none of '1', '2', '3' the handler does not return before the feeder
byte and the duty entry have arrived; it sends the feeder and duty prompts,
reads and echoes the feeder byte and the duty characters, and only then
rejects: its output ends with the aborted text (after the level error text
when the test of line 297 let the inputs pass) and the table is unchanged. -/
theorem invalid_level_rejected_after_entry (env : Env) (s : State) (lvl fdr : Char)
    (typed rest : List Char) (hlen : typed.length ≤ 4) (hcr : '\r' ∉ typed)
    (hlvl : lvl ∉ ['1', '2', '3']) :
    USCI_A0_ISR env s ['$', lvl] = none
      ∧ USCI_A0_ISR env s ['$', lvl, fdr] = none
      ∧ ∃ s', USCI_A0_ISR env s ('$' :: lvl :: fdr :: (dutyKeys typed ++ rest)) = some (s', rest)
        ∧ s'.trace = s.trace ++
            [Event.low [Line.ACK, Line.TTL_OUT], Event.msg msgEnter, Event.msg msgLevelPrompt,
              Event.tx lvl, Event.msg msgCRLF, Event.msg msgFeederPrompt, Event.tx fdr,
              Event.msg msgCRLF, Event.msg msgDutyPrompt]
            ++ typed.map Event.tx ++ [Event.msg msgCRLF]
            ++ (if inputsInvalid env (dutyBuffer typed) lvl fdr then []
                else [Event.msg msgLevelError])
            ++ [Event.tx '$', Event.msg msgAborted]
        ∧ s'.L0 = s.L0 ∧ s'.L1 = s.L1 ∧ s'.L2 = s.L2 ∧ s'.L3 = s.L3 := by
  refine ⟨rfl, rfl, ?_⟩
  rw [ISR_config_typed env s lvl fdr typed rest hlen hcr]
  simp only [List.mem_cons, List.mem_singleton, List.not_mem_nil, or_false, not_or] at hlvl
  by_cases hinv : inputsInvalid env (dutyBuffer typed) lvl fdr = true
  · simp only [parseInputs, hinv, if_true]
    refine ⟨_, rfl, ?_, ?_, ?_, ?_, ?_⟩ <;>
      simp [epilogue_plain, afterEntry_eq, setLow]
  · simp only [parseInputs, hinv, hlvl.1, hlvl.2.1, hlvl.2.2, if_false]
    refine ⟨_, rfl, ?_, ?_, ?_, ?_, ?_⟩ <;>
      simp [epilogue_plain, afterEntry_eq, setLow, UARTsendMsg, emit]

/-- Witness for C8: level '9', feeder '1', the duty entry 5 and a carriage return. -/
theorem invalid_level_rejected_after_entry_witness :
    USCI_A0_ISR envDigit init ['$', '9'] = none
      ∧ USCI_A0_ISR envDigit init ['$', '9', '1'] = none
      ∧ ∃ s', USCI_A0_ISR envDigit init ('$' :: '9' :: '1' :: (dutyKeys ['5'] ++ []))
          = some (s', [])
        ∧ s'.trace = init.trace ++
            [Event.low [Line.ACK, Line.TTL_OUT], Event.msg msgEnter, Event.msg msgLevelPrompt,
              Event.tx '9', Event.msg msgCRLF, Event.msg msgFeederPrompt, Event.tx '1',
              Event.msg msgCRLF, Event.msg msgDutyPrompt]
            ++ ['5'].map Event.tx ++ [Event.msg msgCRLF]
            ++ (if inputsInvalid envDigit (dutyBuffer ['5']) '9' '1' then []
                else [Event.msg msgLevelError])
            ++ [Event.tx '$', Event.msg msgAborted]
        ∧ s'.L0 = init.L0 ∧ s'.L1 = init.L1 ∧ s'.L2 = init.L2 ∧ s'.L3 = init.L3 :=
  invalid_level_rejected_after_entry envDigit init '9' '1' ['5'] [] (by decide) (by decide)
    (by decide)

theorem NoAckSince.refl (s : State) : NoAckSince s s :=
  ⟨[], by simp, by simp⟩

theorem NoAckSince.trans {s1 s2 s3 : State} (h12 : NoAckSince s1 s2) (h23 : NoAckSince s2 s3) :
    NoAckSince s1 s3 := by
  obtain ⟨a, ha, hna⟩ := h12
  obtain ⟨b, hb, hnb⟩ := h23
  refine ⟨a ++ b, ?_, ?_⟩
  · rw [hb, ha, List.append_assoc]
  · simp [hna, hnb]

theorem NoAckSince.of_trace_eq {s s' : State} (h : s'.trace = s.trace) : NoAckSince s s' :=
  ⟨[], by simp [h], by simp⟩

theorem NoAckSince.txbuf (c : Char) (s : State) : NoAckSince s (txbuf c s) :=
  ⟨[Event.tx c], rfl, by simp⟩

theorem NoAckSince.UARTsendMsg (string : String) (s : State) :
    NoAckSince s (UARTsendMsg string s) :=
  ⟨[Event.msg string], rfl, by simp⟩

theorem NoAckSince.setLow (mask : List Line) (s : State) : NoAckSince s (setLow mask s) :=
  ⟨[Event.low mask], rfl, by simp⟩

theorem NoAckSince.setTB3CCR (ch v : Nat) (s : State) : NoAckSince s (setTB3CCR ch v s) := by
  unfold RECORD.setTB3CCR
  split_ifs
  · exact ⟨[Event.ccr ch v], rfl, by simp⟩
  · exact ⟨[Event.ccr ch v], rfl, by simp⟩
  · exact ⟨[Event.ccr ch v], rfl, by simp⟩
  · exact ⟨[Event.ccr ch v], rfl, by simp⟩
  · exact ⟨[Event.ccr ch v], rfl, by simp⟩
  · exact NoAckSince.refl s

theorem NoAckSince.SetBrightness (feeder level : Char) (s : State) :
    NoAckSince s (SetBrightness feeder level s) := by
  unfold RECORD.SetBrightness
  cases levelRow s level with
  | none => exact NoAckSince.refl s
  | some row =>
    simp only
    split_ifs
    · exact NoAckSince.setTB3CCR _ _ s
    · exact NoAckSince.setTB3CCR _ _ s
    · exact NoAckSince.setTB3CCR _ _ s
    · exact NoAckSince.setTB3CCR _ _ s
    · exact NoAckSince.refl s

theorem NoAckSince.ModifyCCR (p : LvlPtr) (fdr : Char) (v : Int) (s : State) :
    NoAckSince s (ModifyCCR p fdr v s) := by
  cases p <;> exact NoAckSince.of_trace_eq rfl

theorem NoAckSince.ccrLoop (length : Nat) :
    ∀ (rx : List Char) (i : Nat) (CCRVAL : List Char) (s : State)
      (r : List Char × State × List Char),
      ccrLoop length i CCRVAL s rx = some r → NoAckSince s r.2.1 := by
  intro rx
  induction rx with
  | nil =>
    intro i CCRVAL s r h
    unfold RECORD.ccrLoop at h
    split_ifs at h
    cases h
    exact NoAckSince.refl s
  | cons b rx ih =>
    intro i CCRVAL s r h
    unfold RECORD.ccrLoop at h
    split_ifs at h
    · cases h
      exact NoAckSince.refl s
    · exact (NoAckSince.txbuf b s).trans (ih _ _ _ _ h)
    · cases h
      exact NoAckSince.refl s

theorem NoAckSince.parseInputs (env : Env) (CCRVAL : List Char) (lvl fdr : Char) (s : State) :
    NoAckSince s (parseInputs env CCRVAL lvl fdr s).2 := by
  unfold RECORD.parseInputs
  split_ifs
  · exact NoAckSince.refl s
  · exact NoAckSince.refl s
  · exact NoAckSince.refl s
  · exact NoAckSince.refl s
  · exact NoAckSince.UARTsendMsg _ s

theorem NoAckSince.commitStep (env : Env) (CCRVAL : List Char) (lvl fdr : Char)
    (o : Option LvlPtr) (s : State) (rx : List Char) (r : String × State × List Char)
    (h : commitStep env CCRVAL lvl fdr (o, s) rx = some r) : NoAckSince s r.2.1 := by
  cases o with
  | none =>
    simp only [RECORD.commitStep, Option.some.injEq] at h
    subst h
    exact NoAckSince.refl s
  | some p =>
    cases rx with
    | nil => simp [RECORD.commitStep] at h
    | cons ans rx =>
      rw [commitStep_some, Option.some.injEq] at h
      subst h
      have hbase : NoAckSince s (RECORD.UARTsendMsg msgCRLF (RECORD.txbuf ans
          (RECORD.UARTsendMsg msgTestPrompt
            (RECORD.ModifyCCR p fdr (atoi (CCRVAL ++ env.overrun)) s)))) :=
        (((NoAckSince.ModifyCCR _ _ _ s).trans (NoAckSince.UARTsendMsg _ _)).trans
          (NoAckSince.txbuf _ _)).trans (NoAckSince.UARTsendMsg _ _)
      by_cases hy : ans = 'y'
      · simp only [hy, if_true] at hbase ⊢
        exact ((((hbase.trans (NoAckSince.SetBrightness _ _ _)).trans
          (NoAckSince.SetBrightness _ _ _)).trans (NoAckSince.SetBrightness _ _ _)).trans
          (NoAckSince.SetBrightness _ _ _))
      · simp only [hy, if_false]
        exact hbase

theorem NoAckSince.atDutyPrompt (lvl fdr : Char) (s : State) :
    NoAckSince s (atDutyPrompt lvl fdr s) := by
  refine ⟨[Event.msg msgEnter, Event.msg msgLevelPrompt, Event.tx lvl, Event.msg msgCRLF,
    Event.msg msgFeederPrompt, Event.tx fdr, Event.msg msgCRLF, Event.msg msgDutyPrompt], ?_, ?_⟩
  · simp [RECORD.atDutyPrompt, RECORD.UARTsendMsg, RECORD.txbuf, emit, setLength]
  · simp

theorem NoAckSince.configCase (env : Env) (s : State) (rx : List Char)
    (r : String × State × List Char) (h : configCase env s rx = some r) :
    NoAckSince s r.2.1 := by
  cases rx with
  | nil => simp [RECORD.configCase] at h
  | cons lvl rx =>
    cases rx with
    | nil => simp [RECORD.configCase] at h
    | cons fdr rx =>
      rw [configCase_two] at h
      cases hloop : RECORD.ccrLoop 4 0 [] (RECORD.atDutyPrompt lvl fdr s) rx with
      | none => simp [hloop] at h
      | some q =>
        obtain ⟨CCRVAL, s2, rx2⟩ := q
        simp only [hloop] at h
        have hl := NoAckSince.ccrLoop _ _ _ _ _ _ hloop
        have hp := NoAckSince.parseInputs env CCRVAL lvl fdr (RECORD.UARTsendMsg msgCRLF s2)
        have hc := NoAckSince.commitStep env CCRVAL lvl fdr
          (RECORD.parseInputs env CCRVAL lvl fdr (RECORD.UARTsendMsg msgCRLF s2)).1
          (RECORD.parseInputs env CCRVAL lvl fdr (RECORD.UARTsendMsg msgCRLF s2)).2 rx2 r h
        exact ((((NoAckSince.atDutyPrompt lvl fdr s).trans hl).trans
          (NoAckSince.UARTsendMsg _ _)).trans hp).trans hc

theorem NoAckSince.ISR_config (env : Env) (s s' : State) (rx rest : List Char)
    (h : USCI_A0_ISR env s ('$' :: rx) = some (s', rest)) : NoAckSince s s' := by
  simp only [USCI_A0_ISR, switchCase_config] at h
  cases hc : RECORD.configCase env (RECORD.setLow [Line.ACK, Line.TTL_OUT] s) rx with
  | none => simp [hc] at h
  | some r =>
    have hcfg := NoAckSince.configCase env _ rx r hc
    simp only [hc, Option.map, Option.some.injEq, Prod.mk.injEq] at h
    obtain ⟨h1, _⟩ := h
    subst h1
    rw [epilogue_plain]
    exact ((NoAckSince.setLow _ s).trans hcfg).trans ⟨[Event.tx '$', Event.msg r.1], rfl, by simp⟩

theorem setTB3CCR_trace (ch v : Nat) (s : State) :
    ∃ mid : List Event, (∀ e ∈ mid, ∃ ch v, e = Event.ccr ch v)
      ∧ (setTB3CCR ch v s).trace = s.trace ++ mid := by
  unfold setTB3CCR
  split_ifs
  · exact ⟨[Event.ccr ch v], by simp, rfl⟩
  · exact ⟨[Event.ccr ch v], by simp, rfl⟩
  · exact ⟨[Event.ccr ch v], by simp, rfl⟩
  · exact ⟨[Event.ccr ch v], by simp, rfl⟩
  · exact ⟨[Event.ccr ch v], by simp, rfl⟩
  · exact ⟨[], by simp, by simp⟩

/-- All `SetBrightness` adds to the trace is writes of compare registers. -/
theorem SetBrightness_trace (feeder level : Char) (s : State) :
    ∃ mid : List Event, (∀ e ∈ mid, ∃ ch v, e = Event.ccr ch v)
      ∧ (SetBrightness feeder level s).trace = s.trace ++ mid := by
  unfold SetBrightness
  cases levelRow s level with
  | none => exact ⟨[], by simp, by simp⟩
  | some row =>
    simp only
    split_ifs
    · exact setTB3CCR_trace _ _ s
    · exact setTB3CCR_trace _ _ s
    · exact setTB3CCR_trace _ _ s
    · exact setTB3CCR_trace _ _ s
    · exact ⟨[], by simp, by simp⟩

/-- C9, as stated, fails: the `$` session with level '1', feeder '1', the duty
entry 500 and the answer `y` completes with the new-settings text, and ACK is
raised nowhere in the trace. -/
theorem config_session_without_ack :
    ∃ s', USCI_A0_ISR envDigit init ['$', '1', '1', '5', '0', '0', '\r', 'y'] = some (s', [])
      ∧ s'.trace.getLast? = some (Event.msg msgNewSettings)
      ∧ Event.high [Line.ACK] ∉ s'.trace := by
  have hrun : ∃ s', USCI_A0_ISR envDigit init ['$', '1', '1', '5', '0', '0', '\r', 'y']
      = some (s', []) ∧ s'.trace.getLast? = some (Event.msg msgNewSettings) := by
    refine ⟨_, rfl, ?_⟩
    simp only [epilogue_plain]
    exact trace_last_two _ _ _
  obtain ⟨s', hs, hlast⟩ := hrun
  refine ⟨s', hs, hlast, ?_⟩
  obtain ⟨added, hadd, hno⟩ := NoAckSince.ISR_config envDigit init s' _ _ hs
  rw [hadd]
  have hinit : init.trace
      = [Event.ccr 1 8000, Event.ccr 2 8000, Event.ccr 3 8000, Event.ccr 4 8000] := rfl
  rw [hinit]
  simp [hno]

/-- C9, amended: of the two multi-byte commands only `#` pulses ACK.  With the
payload length at 4, a completed `#` command sends its echo and status text,
applies the brightness (writes of compare registers only), echoes the payload
and a line break, and then raises ACK, waits 4,000,000 cycles and lowers it,
the pulse being the last thing it does.  A completed `$` session, however it
ends, raises ACK nowhere. -/
theorem ack_pulse_after_hash_only (env : Env) (s : State) (b0 b1 b2 b3 : Char)
    (rest : List Char) (hlen : s.length = 4) :
    (∃ s' mid, USCI_A0_ISR env s ('#' :: b0 :: b1 :: b2 :: b3 :: rest) = some (s', rest)
      ∧ (∀ e ∈ mid, ∃ ch v, e = Event.ccr ch v)
      ∧ s'.trace = s.trace
          ++ [Event.low [Line.ACK, Line.TTL_OUT], Event.tx '#', Event.msg msgFeeder]
          ++ mid
          ++ [Event.tx b0, Event.tx b1, Event.tx b2, Event.tx b3,
              Event.tx '\r', Event.tx '\n', Event.tx '\n',
              Event.high [Line.ACK], Event.delay 4000000, Event.low [Line.ACK]])
    ∧ ∀ (rx : List Char) (s' : State) (rest' : List Char),
        USCI_A0_ISR env s ('$' :: rx) = some (s', rest') →
        ∃ added : List Event, s'.trace = s.trace ++ added ∧ Event.high [Line.ACK] ∉ added := by
  constructor
  · rw [ISR_hash_four env s b0 b1 b2 b3 rest hlen]
    generalize hs1 : UARTsendMsg msgFeeder (txbuf '#'
        (setRxstring (Function.update (Function.update (Function.update
            (Function.update s.rxstring 0 b0) 1 b1) 2 b2) 3 b3)
          (setLow [Line.ACK, Line.TTL_OUT] s))) = s1
    have r0 : s1.rxstring 0 = b0 := by rw [← hs1]; rfl
    have r1 : s1.rxstring 1 = b1 := by rw [← hs1]; rfl
    have r2 : s1.rxstring 2 = b2 := by rw [← hs1]; rfl
    have r3 : s1.rxstring 3 = b3 := by rw [← hs1]; rfl
    have ht : s1.trace = s.trace
        ++ [Event.low [Line.ACK, Line.TTL_OUT], Event.tx '#', Event.msg msgFeeder] := by
      rw [← hs1]
      simp [UARTsendMsg, txbuf, emit, setRxstring, setLow]
    obtain ⟨mid, hmid, htr⟩ := SetBrightness_trace b1 b3 s1
    have fR := (SetBrightness_frame b1 b3 s1).2.2.2.2.2.2.1
    generalize SetBrightness b1 b3 s1 = sb at *
    refine ⟨_, mid, rfl, hmid, ?_⟩
    simp [ackPulse_eq, echoLoop_four, txbuf, emit, htr, ht, fR, r0, r1, r2, r3]
  · intro rx s' rest' h
    exact NoAckSince.ISR_config env s s' rx rest' h

/-- Witness for C9: the payload F, 2, L, 1 from the initial state. -/
theorem ack_pulse_after_hash_only_witness :
    (∃ s' mid, USCI_A0_ISR envDigit init ('#' :: 'F' :: '2' :: 'L' :: '1' :: []) = some (s', [])
      ∧ (∀ e ∈ mid, ∃ ch v, e = Event.ccr ch v)
      ∧ s'.trace = init.trace
          ++ [Event.low [Line.ACK, Line.TTL_OUT], Event.tx '#', Event.msg msgFeeder]
          ++ mid
          ++ [Event.tx 'F', Event.tx '2', Event.tx 'L', Event.tx '1',
              Event.tx '\r', Event.tx '\n', Event.tx '\n',
              Event.high [Line.ACK], Event.delay 4000000, Event.low [Line.ACK]])
    ∧ ∀ (rx : List Char) (s' : State) (rest' : List Char),
        USCI_A0_ISR envDigit init ('$' :: rx) = some (s', rest') →
        ∃ added : List Event, s'.trace = init.trace ++ added ∧ Event.high [Line.ACK] ∉ added :=
  ack_pulse_after_hash_only envDigit init 'F' '2' 'L' '1' [] rfl

/-- C10: the serial handler leaves the ramp where it was.  Whatever bytes the
handler reads before it returns, the local `ccr_value` of `main` and the point
`main` resumes at are what they were when it was entered.  Resumed in a
falling ramp that is in progress, the next pass of the body steps the value
down by `STEP` from there and writes it to the cue register; the same holds
rising. -/
theorem serial_handler_keeps_ramp (env : Env) (m m' : Main) (rx rest : List Char)
    (h : serialInterrupt env m rx = some (m', rest)) :
    m'.ccr_value = m.ccr_value ∧ m'.pc = m.pc
      ∧ (m.pc = Pc.down → m.ccr_value > env.LOWER_LIMIT →
          (mainStep env m').ccr_value = m.ccr_value - env.STEP
            ∧ (mainStep env m').g.TB3CCR5 = toUnsigned (m.ccr_value - env.STEP)
            ∧ (mainStep env m').pc = Pc.down)
      ∧ (m.pc = Pc.up → m.ccr_value < env.UPPER_LIMIT →
          (mainStep env m').ccr_value = m.ccr_value + env.STEP
            ∧ (mainStep env m').g.TB3CCR5 = toUnsigned (m.ccr_value + env.STEP)
            ∧ (mainStep env m').pc = Pc.up) := by
  unfold serialInterrupt at h
  cases hisr : USCI_A0_ISR env m.g rx with
  | none => simp [hisr] at h
  | some r =>
    simp only [hisr, Option.some.injEq, Prod.mk.injEq] at h
    obtain ⟨hm, _⟩ := h
    subst hm
    refine ⟨rfl, rfl, ?_, ?_⟩
    · intro hpc hgt
      simp [mainStep, hpc, hgt, setTB3CCR]
    · intro hpc hlt
      simp [mainStep, hpc, hlt, setTB3CCR]

/-- Witness for C10: `R` arriving in the middle of a falling ramp clears the
Blink flag and writes 8000 to the cue register, and the ramp goes on from 5000. -/
theorem serial_handler_keeps_ramp_witness :
    ∃ m', serialInterrupt envDigit midRamp ['R'] = some (m', [])
      ∧ (m'.ccr_value = midRamp.ccr_value ∧ m'.pc = midRamp.pc
        ∧ (midRamp.pc = Pc.down → midRamp.ccr_value > envDigit.LOWER_LIMIT →
            (mainStep envDigit m').ccr_value = midRamp.ccr_value - envDigit.STEP
              ∧ (mainStep envDigit m').g.TB3CCR5
                  = toUnsigned (midRamp.ccr_value - envDigit.STEP)
              ∧ (mainStep envDigit m').pc = Pc.down)
        ∧ (midRamp.pc = Pc.up → midRamp.ccr_value < envDigit.UPPER_LIMIT →
            (mainStep envDigit m').ccr_value = midRamp.ccr_value + envDigit.STEP
              ∧ (mainStep envDigit m').g.TB3CCR5
                  = toUnsigned (midRamp.ccr_value + envDigit.STEP)
              ∧ (mainStep envDigit m').pc = Pc.up)) :=
  ⟨_, rfl, serial_handler_keeps_ramp envDigit midRamp _ ['R'] [] rfl⟩

/-! ## Effects of the handlers, primitive by primitive -/

theorem StepClosed.then_emit {R : State → State → Prop} (hR : StepClosed R) {a s : State}
    (e : Event) (h : R a s) : R a (emit e s) := hR.trans _ _ _ h (hR.on_emit e s)

theorem StepClosed.then_txbuf {R : State → State → Prop} (hR : StepClosed R) {a s : State}
    (c : Char) (h : R a s) : R a (txbuf c s) := hR.then_emit _ h

theorem StepClosed.then_UARTsendMsg {R : State → State → Prop} (hR : StepClosed R)
    {a s : State} (string : String) (h : R a s) : R a (UARTsendMsg string s) :=
  hR.then_emit _ h

theorem StepClosed.then_delay_cycles {R : State → State → Prop} (hR : StepClosed R)
    {a s : State} (n : Nat) (h : R a s) : R a (delay_cycles n s) := hR.then_emit _ h

theorem StepClosed.then_setHigh {R : State → State → Prop} (hR : StepClosed R) {a s : State}
    (mask : List Line) (h : R a s) : R a (setHigh mask s) := hR.trans _ _ _ h (hR.on_setHigh mask s)

theorem StepClosed.then_setLow {R : State → State → Prop} (hR : StepClosed R) {a s : State}
    (mask : List Line) (h : R a s) : R a (setLow mask s) := hR.trans _ _ _ h (hR.on_setLow mask s)

theorem StepClosed.then_setTB3CCR {R : State → State → Prop} (hR : StepClosed R) {a s : State}
    (ch v : Nat) (h : R a s) : R a (setTB3CCR ch v s) := hR.trans _ _ _ h (hR.on_setTB3CCR ch v s)

theorem StepClosed.then_setBLINK {R : State → State → Prop} (hR : StepClosed R) {a s : State}
    (v : Bool) (h : R a s) : R a (setBLINK v s) := hR.trans _ _ _ h (hR.on_setBLINK v s)

theorem StepClosed.then_setRxstring {R : State → State → Prop} (hR : StepClosed R)
    {a s : State} (rxstring : Nat → Char) (h : R a s) : R a (setRxstring rxstring s) :=
  hR.trans _ _ _ h (hR.on_setRxstring rxstring s)

theorem StepClosed.then_setLength {R : State → State → Prop} (hR : StepClosed R) {a s : State}
    (n : Nat) (h : R a s) : R a (setLength n s) := hR.trans _ _ _ h (hR.on_setLength n s)

theorem StepClosed.then_ModifyCCR {R : State → State → Prop} (hR : StepClosed R) {a s : State}
    (p : LvlPtr) (fdr : Char) (v : Int) (h : R a s) : R a (ModifyCCR p fdr v s) :=
  hR.trans _ _ _ h (hR.on_ModifyCCR p fdr v s)

theorem StepClosed.then_ackPulse {R : State → State → Prop} (hR : StepClosed R) {a s : State}
    (h : R a s) : R a (ackPulse s) := by
  unfold ackPulse
  exact hR.then_setLow _ (hR.then_delay_cycles _ (hR.then_setHigh _ h))

theorem StepClosed.then_relayPulse {R : State → State → Prop} (hR : StepClosed R)
    {a s : State} (relay : Line) (h : R a s) : R a (relayPulse relay s) := by
  unfold relayPulse
  exact hR.then_setHigh _ (hR.then_delay_cycles _ (hR.then_setLow _ h))

theorem StepClosed.then_SetBrightness {R : State → State → Prop} (hR : StepClosed R)
    {a s : State} (feeder level : Char) (h : R a s) : R a (SetBrightness feeder level s) := by
  unfold SetBrightness
  cases levelRow s level with
  | none => exact h
  | some row =>
    simp only
    split_ifs
    · exact hR.then_setTB3CCR _ _ h
    · exact hR.then_setTB3CCR _ _ h
    · exact hR.then_setTB3CCR _ _ h
    · exact hR.then_setTB3CCR _ _ h
    · exact h

theorem StepClosed.then_echoLoop {R : State → State → Prop} (hR : StepClosed R) {a : State} :
    ∀ (n i : Nat) (s : State), R a s → R a (echoLoop n i s) := by
  intro n
  induction n with
  | zero =>
    intro i s h
    exact h
  | succ n ih =>
    intro i s h
    unfold echoLoop
    exact ih _ _ (hR.then_txbuf _ h)

theorem StepClosed.then_sendChars {R : State → State → Prop} (hR : StepClosed R) {a : State} :
    ∀ (msg : List Char) (s : State), R a s → R a (msg.foldl (fun s c => txbuf c s) s) := by
  intro msg
  induction msg with
  | nil =>
    intro s h
    exact h
  | cons c msg ih =>
    intro s h
    simp only [List.foldl_cons]
    exact ih _ (hR.then_txbuf c h)

theorem StepClosed.then_sendMsgs {R : State → State → Prop} (hR : StepClosed R) {a : State} :
    ∀ (l : List String) (s : State), R a s →
      R a (l.foldl (fun s string => UARTsendMsg string s) s) := by
  intro l
  induction l with
  | nil =>
    intro s h
    exact h
  | cons m l ih =>
    intro s h
    simp only [List.foldl_cons]
    exact ih _ (hR.then_UARTsendMsg m h)

theorem StepClosed.then_ccrLoop {R : State → State → Prop} (hR : StepClosed R) {a : State}
    (length : Nat) :
    ∀ (rx : List Char) (i : Nat) (CCRVAL : List Char) (s : State)
      (r : List Char × State × List Char),
      R a s → ccrLoop length i CCRVAL s rx = some r → R a r.2.1 := by
  intro rx
  induction rx with
  | nil =>
    intro i CCRVAL s r ha h
    unfold ccrLoop at h
    split_ifs at h
    cases h
    exact ha
  | cons b rx ih =>
    intro i CCRVAL s r ha h
    unfold ccrLoop at h
    split_ifs at h
    · cases h
      exact ha
    · exact ih _ _ _ _ (hR.then_txbuf b ha) h
    · cases h
      exact ha

theorem StepClosed.then_parseInputs {R : State → State → Prop} (hR : StepClosed R)
    {a s : State} (env : Env) (CCRVAL : List Char) (lvl fdr : Char) (h : R a s) :
    R a (parseInputs env CCRVAL lvl fdr s).2 := by
  unfold parseInputs
  split_ifs
  · exact h
  · exact h
  · exact h
  · exact h
  · exact hR.then_UARTsendMsg _ h

theorem StepClosed.then_commitStep {R : State → State → Prop} (hR : StepClosed R)
    {a : State} (env : Env) (CCRVAL : List Char) (lvl fdr : Char) (o : Option LvlPtr)
    (s : State) (rx : List Char) (r : String × State × List Char) (ha : R a s)
    (h : commitStep env CCRVAL lvl fdr (o, s) rx = some r) : R a r.2.1 := by
  cases o with
  | none =>
    simp only [commitStep, Option.some.injEq] at h
    subst h
    exact ha
  | some p =>
    cases rx with
    | nil => simp [commitStep] at h
    | cons ans rx =>
      rw [commitStep_some, Option.some.injEq] at h
      subst h
      have hbase : R a (UARTsendMsg msgCRLF (txbuf ans (UARTsendMsg msgTestPrompt
          (ModifyCCR p fdr (atoi (CCRVAL ++ env.overrun)) s)))) :=
        hR.then_UARTsendMsg _ (hR.then_txbuf _ (hR.then_UARTsendMsg _
          (hR.then_ModifyCCR _ _ _ ha)))
      by_cases hy : ans = 'y'
      · simp only [hy, if_true] at hbase ⊢
        exact hR.then_SetBrightness _ _ (hR.then_SetBrightness _ _
          (hR.then_SetBrightness _ _ (hR.then_SetBrightness _ _ hbase)))
      · simp only [hy, if_false]
        exact hbase

theorem StepClosed.then_atDutyPrompt {R : State → State → Prop} (hR : StepClosed R)
    {a s : State} (lvl fdr : Char) (h : R a s) : R a (atDutyPrompt lvl fdr s) := by
  unfold atDutyPrompt
  exact hR.then_setLength _ (hR.then_UARTsendMsg _ (hR.then_UARTsendMsg _ (hR.then_txbuf _
    (hR.then_UARTsendMsg _ (hR.then_UARTsendMsg _ (hR.then_txbuf _ (hR.then_UARTsendMsg _
      (hR.then_UARTsendMsg _ h))))))))

theorem StepClosed.then_configCase {R : State → State → Prop} (hR : StepClosed R) {a : State}
    (env : Env) (s : State) (rx : List Char) (r : String × State × List Char) (ha : R a s)
    (h : configCase env s rx = some r) : R a r.2.1 := by
  cases rx with
  | nil => simp [configCase] at h
  | cons lvl rx =>
    cases rx with
    | nil => simp [configCase] at h
    | cons fdr rx =>
      rw [configCase_two] at h
      cases hloop : ccrLoop 4 0 [] (atDutyPrompt lvl fdr s) rx with
      | none => simp [hloop] at h
      | some q =>
        obtain ⟨CCRVAL, s2, rx2⟩ := q
        simp only [hloop] at h
        have hl : R a s2 := hR.then_ccrLoop _ _ _ _ _ _ (hR.then_atDutyPrompt lvl fdr ha) hloop
        have hp := hR.then_parseInputs env CCRVAL lvl fdr (hR.then_UARTsendMsg msgCRLF hl)
        exact hR.then_commitStep env CCRVAL lvl fdr _ _ rx2 r hp h

theorem StepClosed.then_epilogue {R : State → State → Prop} (hR : StepClosed R) {a s : State}
    (c : Char) (string : String) (flag : Bool) (h : R a s) :
    R a (epilogue c string flag s) := by
  have h2 : R a (UARTsendMsg string (txbuf c s)) := hR.then_UARTsendMsg _ (hR.then_txbuf _ h)
  cases flag with
  | false => exact h2
  | true =>
    exact hR.then_ackPulse (hR.then_txbuf _ (hR.then_txbuf _ (hR.then_txbuf _
      (hR.then_echoLoop _ _ _ (hR.then_SetBrightness _ _ h2)))))

theorem StepClosed.then_switchCase {R : State → State → Prop} (hR : StepClosed R) {a : State}
    (env : Env) (c : Char) (s : State) (rx : List Char)
    (r : String × Bool × State × List Char) (ha : R a s)
    (h : switchCase env c s rx = some r) : R a r.2.2.1 := by
  unfold switchCase at h
  by_cases h1 : c = '#'
  · rw [if_pos h1] at h
    cases hl : rxLoop s.length 0 s.rxstring rx with
    | none => simp [hl] at h
    | some q =>
      simp only [hl, Option.some.injEq] at h
      subst h
      exact hR.then_setRxstring _ ha
  rw [if_neg h1] at h
  by_cases h2 : c = '$'
  · rw [if_pos h2] at h
    cases hc : configCase env s rx with
    | none => simp [hc] at h
    | some q =>
      simp only [hc, Option.some.injEq] at h
      subst h
      exact hR.then_configCase env s rx q ha hc
  rw [if_neg h2] at h
  by_cases h3 : c = 'A'
  · rw [if_pos h3, Option.some.injEq] at h
    subst h
    exact hR.then_ackPulse (hR.then_setHigh _ (hR.then_setHigh _ (hR.then_setHigh _ ha)))
  rw [if_neg h3] at h
  by_cases h4 : c = 'g'
  · rw [if_pos h4, Option.some.injEq] at h
    subst h
    exact hR.then_ackPulse (hR.then_setHigh _ ha)
  rw [if_neg h4] at h
  by_cases h5 : c = 'r'
  · rw [if_pos h5, Option.some.injEq] at h
    subst h
    exact hR.then_ackPulse (hR.then_setHigh _ ha)
  rw [if_neg h5] at h
  by_cases h6 : c = 'k'
  · rw [if_pos h6] at h
    by_cases hb : s._BLINK = true
    · rw [if_pos hb, Option.some.injEq] at h
      subst h
      exact hR.then_ackPulse (hR.then_setBLINK _ ha)
    · rw [if_neg hb, Option.some.injEq] at h
      subst h
      exact hR.then_ackPulse (hR.then_setBLINK _ ha)
  rw [if_neg h6] at h
  by_cases h7 : c = 'R'
  · rw [if_pos h7, Option.some.injEq] at h
    subst h
    exact hR.then_ackPulse (hR.then_setBLINK _ (hR.then_setTB3CCR _ _ (hR.then_setTB3CCR _ _
      (hR.then_setTB3CCR _ _ (hR.then_setTB3CCR _ _ (hR.then_setTB3CCR _ _
        (hR.then_setLow _ (hR.then_setLow _ (hR.then_setHigh _ (hR.then_setLow _
          (hR.then_setLow _ ha)))))))))))
  rw [if_neg h7] at h
  by_cases h8 : c = 'F'
  · rw [if_pos h8, Option.some.injEq] at h
    subst h
    exact hR.then_ackPulse (hR.then_relayPulse _ ha)
  rw [if_neg h8] at h
  by_cases h9 : c = 'G'
  · rw [if_pos h9, Option.some.injEq] at h
    subst h
    exact hR.then_ackPulse (hR.then_relayPulse _ ha)
  rw [if_neg h9] at h
  by_cases h10 : c = 'H'
  · rw [if_pos h10, Option.some.injEq] at h
    subst h
    exact hR.then_ackPulse (hR.then_relayPulse _ ha)
  rw [if_neg h10] at h
  by_cases h11 : c = 'J'
  · rw [if_pos h11, Option.some.injEq] at h
    subst h
    exact hR.then_ackPulse (hR.then_relayPulse _ ha)
  rw [if_neg h11] at h
  by_cases h12 : c = '?'
  · rw [if_pos h12, Option.some.injEq] at h
    subst h
    exact hR.then_sendMsgs _ _ ha
  rw [if_neg h12, Option.some.injEq] at h
  subst h
  exact ha

/-- Every effect of a serial handler that returns is a chain of primitive
effects: a relation all primitives respect holds between entry and return. -/
theorem StepClosed.of_USCI_A0_ISR {R : State → State → Prop} (hR : StepClosed R) (env : Env)
    (s s' : State) (rx rest : List Char) (h : USCI_A0_ISR env s rx = some (s', rest)) :
    R s s' := by
  cases rx with
  | nil => simp [USCI_A0_ISR] at h
  | cons c rx =>
    simp only [USCI_A0_ISR] at h
    cases hsw : switchCase env c (setLow [Line.ACK, Line.TTL_OUT] s) rx with
    | none => simp [hsw] at h
    | some q =>
      obtain ⟨string, flag, s1, rx1⟩ := q
      simp only [hsw, Option.some.injEq, Prod.mk.injEq] at h
      obtain ⟨h1, _⟩ := h
      subst h1
      exact hR.then_epilogue _ _ _
        (hR.then_switchCase env c _ rx _ (hR.then_setLow _ (hR.refl s)) hsw)

theorem StepClosed.then_waitTTL {R : State → State → Prop} (hR : StepClosed R) {a : State} :
    ∀ (P2IN : List Bool) (s s' : State), R a s → waitTTL P2IN s = Run.returned s' → R a s' := by
  intro P2IN
  induction P2IN with
  | nil =>
    intro s s' _ h
    simp [waitTTL] at h
  | cons v P2IN ih =>
    intro s s' ha h
    unfold waitTTL at h
    split_ifs at h
    · simp only [Run.returned.injEq] at h
      subst h
      exact hR.then_emit _ ha
    · exact ih _ _ (hR.then_emit _ ha) h

/-- The same for a port handler that returns. -/
theorem StepClosed.of_Port_1_ISR {R : State → State → Prop} (hR : StepClosed R)
    (s s' : State) (P2IN : List Bool) (h : Port_1_ISR s P2IN = Run.returned s') : R s s' := by
  unfold Port_1_ISR at h
  simp only at h
  split at h
  · simp at h
  · rename_i s2 hw
    simp only [Run.returned.injEq] at h
    subst h
    have hpre := hR.then_setLow [Line.TTL_OUT] (hR.then_delay_cycles 8000000
      (hR.then_setHigh [Line.LED4] (hR.then_setHigh [Line.TTL_OUT]
        (hR.then_sendChars ['t', 'e', 's', 't', '\r', '\n', '\n'] _
          (hR.then_setHigh [Line.GRNLED] (hR.refl s))))))
    exact hR.then_setLow _ (hR.then_setHigh _ (hR.then_waitTTL _ _ _ hpre hw))

/-- The same for a step of the loop of `main`. -/
theorem StepClosed.of_mainStep {R : State → State → Prop} (hR : StepClosed R) (env : Env)
    (m : Main) : R m.g (mainStep env m).g := by
  unfold mainStep
  split
  · split_ifs
    · exact hR.refl _
    · exact hR.refl _
  · split_ifs
    · exact hR.then_setTB3CCR 5 (toUnsigned (m.ccr_value - env.STEP))
        (hR.then_emit (Event.delay_us 5000) (hR.refl m.g))
    · exact hR.refl _
  · split_ifs
    · exact hR.then_setTB3CCR 5 (toUnsigned (m.ccr_value + env.STEP))
        (hR.then_emit (Event.delay_us 5000) (hR.refl m.g))
    · exact hR.refl _

/-! ## The ramp of the blink task -/

theorem Reachable.iterate (env : Env) (m : Main) (h : Reachable env m) :
    ∀ n : Nat, Reachable env ((mainStep env)^[n] m) := by
  intro n
  induction n generalizing m with
  | zero => exact h
  | succ n ih =>
    rw [Function.iterate_succ_apply]
    exact ih _ (Reachable.step m h)

/-- Where the step does not divide the ramp the loops pass a limit: with
limits 0 and 8000 and step 300, once `k` has set the Blink flag the falling
ramp passes 200 and stops at -100, below the lower limit, and that value goes
to the cue register as 65436. -/
theorem ramp_undershoots_lower_limit :
    ∃ m, Reachable envCoarse m
      ∧ m.ccr_value = -100 ∧ m.ccr_value < envCoarse.LOWER_LIMIT
      ∧ m.g.TB3CCR5 = 65436 := by
  have hk : ∃ m1, serialInterrupt envCoarse start ['k'] = some (m1, [])
      ∧ ((mainStep envCoarse)^[28] m1).ccr_value = -100
      ∧ ((mainStep envCoarse)^[28] m1).g.TB3CCR5 = 65436 := ⟨_, rfl, by decide, by decide⟩
  obtain ⟨m1, h1, h2, h3⟩ := hk
  refine ⟨(mainStep envCoarse)^[28] m1, ?_, h2, ?_, h3⟩
  · exact Reachable.iterate envCoarse m1
      (Reachable.serial start m1 ['k'] [] Reachable.start h1) 28
  · rw [h2]
    decide

theorem switchCase_relay (env : Env) (s : State) (rx : List Char) :
    switchCase env 'F' s rx = some (msgRelay1, false, ackPulse (relayPulse Line.RELAY1 s), rx)
      ∧ switchCase env 'G' s rx
          = some (msgRelay2, false, ackPulse (relayPulse Line.RELAY2 s), rx)
      ∧ switchCase env 'H' s rx
          = some (msgRelay3, false, ackPulse (relayPulse Line.RELAY3 s), rx)
      ∧ switchCase env 'J' s rx
          = some (msgRelay4, false, ackPulse (relayPulse Line.RELAY4 s), rx) := by
  refine ⟨?_, ?_, ?_, ?_⟩ <;> unfold switchCase
  · rw [if_neg (by decide), if_neg (by decide), if_neg (by decide), if_neg (by decide),
      if_neg (by decide), if_neg (by decide), if_neg (by decide), if_pos rfl]
  · rw [if_neg (by decide), if_neg (by decide), if_neg (by decide), if_neg (by decide),
      if_neg (by decide), if_neg (by decide), if_neg (by decide), if_neg (by decide),
      if_pos rfl]
  · rw [if_neg (by decide), if_neg (by decide), if_neg (by decide), if_neg (by decide),
      if_neg (by decide), if_neg (by decide), if_neg (by decide), if_neg (by decide),
      if_neg (by decide), if_pos rfl]
  · rw [if_neg (by decide), if_neg (by decide), if_neg (by decide), if_neg (by decide),
      if_neg (by decide), if_neg (by decide), if_neg (by decide), if_neg (by decide),
      if_neg (by decide), if_neg (by decide), if_pos rfl]

/-- The state after the entry write, the pulse of one relay, the ACK pulse
and the echo with its status text. -/
theorem relay_command_state (relay : Line) (c : Char) (string : String) (s : State) :
    epilogue c string false (ackPulse (relayPulse relay (setLow [Line.ACK, Line.TTL_OUT] s)))
      = { s with
          out := fun l => if l = Line.ACK then false else if l = relay then true
            else if l = Line.TTL_OUT then false else s.out l,
          trace := s.trace ++ [Event.low [Line.ACK, Line.TTL_OUT],
            Event.low [relay], Event.delay RELAY_ONTIME, Event.high [relay],
            Event.high [Line.ACK], Event.delay 4000000, Event.low [Line.ACK],
            Event.tx c, Event.msg string] } := by
  rw [epilogue_plain, ackPulse_eq]
  simp only [relayPulse, setHigh, setLow, delay_cycles, emit, List.mem_singleton,
    List.mem_cons, List.not_mem_nil, or_false, List.append_assoc, List.singleton_append,
    List.cons_append, List.nil_append]
  congr 1
  funext l
  by_cases h1 : l = Line.ACK
  · simp [h1]
  · by_cases h2 : l = relay
    · simp [h1, h2]
    · by_cases h3 : l = Line.TTL_OUT
      · simp [h1, h2, h3]
      · simp [h1, h2, h3]

/-- C12: the handler run on `F` twice in succession gives twice the trace of
one `F` command: relay 1 is driven low, held `RELAY_ONTIME` cycles and driven
high, then, after the ACK pulse, the echo and the entry write of the second
run, driven low, held `RELAY_ONTIME` cycles and driven high again.  The relay
line is high when the first run returns and when the second returns. -/
theorem two_F_commands_two_pulses (env : Env) (s : State) (rest : List Char) :
    ∃ s1 s2, USCI_A0_ISR env s ('F' :: 'F' :: rest) = some (s1, 'F' :: rest)
      ∧ USCI_A0_ISR env s1 ('F' :: rest) = some (s2, rest)
      ∧ s1.trace = s.trace ++ traceF
      ∧ s1.out Line.RELAY1 = true
      ∧ s2.trace = s.trace ++ traceF ++ traceF
      ∧ s2.out Line.RELAY1 = true
      ∧ RELAY_ONTIME = 4000000 := by
  have hF : ∀ (s0 : State) (rx : List Char), USCI_A0_ISR env s0 ('F' :: rx)
      = some ({ s0 with
          out := fun l => if l = Line.ACK then false else if l = Line.RELAY1 then true
            else if l = Line.TTL_OUT then false else s0.out l,
          trace := s0.trace ++ traceF }, rx) := by
    intro s0 rx
    simp only [USCI_A0_ISR, (switchCase_relay env _ rx).1]
    rw [relay_command_state Line.RELAY1 'F' msgRelay1 s0]
    rfl
  refine ⟨_, _, hF s _, hF _ rest, rfl, ?_, rfl, ?_, rfl⟩
  · simp
  · simp

/-- C13: `F`, `G`, `H` and `J` pulse relay 1, 2, 3 and 4.  For each pair of
command byte and relay line the handler returns, having driven that relay low,
waited `RELAY_ONTIME` cycles and driven it high, then pulsed ACK and sent the
echo and the status text; the relay is high at the return, every output line
other than it, ACK and TTL_OUT is as before, and the compare registers, the
table and the Blink flag are unchanged. -/
theorem relay_command_frame (env : Env) (s : State) (rest : List Char) (c : Char)
    (relay : Line) (string : String)
    (hc : (c, relay, string) ∈ [('F', Line.RELAY1, msgRelay1), ('G', Line.RELAY2, msgRelay2),
      ('H', Line.RELAY3, msgRelay3), ('J', Line.RELAY4, msgRelay4)]) :
    ∃ s', USCI_A0_ISR env s (c :: rest) = some (s', rest)
      ∧ s'.trace = s.trace ++ [Event.low [Line.ACK, Line.TTL_OUT],
          Event.low [relay], Event.delay RELAY_ONTIME, Event.high [relay],
          Event.high [Line.ACK], Event.delay 4000000, Event.low [Line.ACK],
          Event.tx c, Event.msg string]
      ∧ s'.out relay = true
      ∧ (∀ l, l ≠ relay → l ≠ Line.ACK → l ≠ Line.TTL_OUT → s'.out l = s.out l)
      ∧ s'.out Line.ACK = false ∧ s'.out Line.TTL_OUT = false
      ∧ s'.TB3CCR1 = s.TB3CCR1 ∧ s'.TB3CCR2 = s.TB3CCR2 ∧ s'.TB3CCR3 = s.TB3CCR3
      ∧ s'.TB3CCR4 = s.TB3CCR4 ∧ s'.TB3CCR5 = s.TB3CCR5
      ∧ s'.L0 = s.L0 ∧ s'.L1 = s.L1 ∧ s'.L2 = s.L2 ∧ s'.L3 = s.L3
      ∧ s'._BLINK = s._BLINK := by
  have hsw := switchCase_relay env (setLow [Line.ACK, Line.TTL_OUT] s) rest
  simp only [List.mem_cons, List.mem_singleton, List.not_mem_nil, or_false, Prod.mk.injEq]
    at hc
  have key : USCI_A0_ISR env s (c :: rest) = some ({ s with
          out := fun l => if l = Line.ACK then false else if l = relay then true
            else if l = Line.TTL_OUT then false else s.out l,
          trace := s.trace ++ [Event.low [Line.ACK, Line.TTL_OUT],
            Event.low [relay], Event.delay RELAY_ONTIME, Event.high [relay],
            Event.high [Line.ACK], Event.delay 4000000, Event.low [Line.ACK],
            Event.tx c, Event.msg string] }, rest) ∧ relay ≠ Line.ACK
        ∧ relay ≠ Line.TTL_OUT := by
    rcases hc with ⟨h1, h2, h3⟩ | ⟨h1, h2, h3⟩ | ⟨h1, h2, h3⟩ | ⟨h1, h2, h3⟩ <;>
      subst h1 <;> subst h2 <;> subst h3
    · simp only [USCI_A0_ISR, hsw.1]
      rw [relay_command_state Line.RELAY1 'F' msgRelay1 s]
      exact ⟨rfl, by decide, by decide⟩
    · simp only [USCI_A0_ISR, hsw.2.1]
      rw [relay_command_state Line.RELAY2 'G' msgRelay2 s]
      exact ⟨rfl, by decide, by decide⟩
    · simp only [USCI_A0_ISR, hsw.2.2.1]
      rw [relay_command_state Line.RELAY3 'H' msgRelay3 s]
      exact ⟨rfl, by decide, by decide⟩
    · simp only [USCI_A0_ISR, hsw.2.2.2]
      rw [relay_command_state Line.RELAY4 'J' msgRelay4 s]
      exact ⟨rfl, by decide, by decide⟩
  obtain ⟨hrun, hA, hT⟩ := key
  refine ⟨_, hrun, rfl, ?_, ?_, ?_, ?_, rfl, rfl, rfl, rfl, rfl, rfl, rfl, rfl, rfl, rfl⟩
  · simp [hA]
  · intro l h1 h2 h3
    simp [h1, h2, h3]
  · simp
  · simp [hT.symm]

/-- Witness for C13: `H` and relay 3 in the initial state. -/
theorem relay_command_frame_witness :
    ∃ s', USCI_A0_ISR envDigit init ('H' :: []) = some (s', [])
      ∧ s'.trace = init.trace ++ [Event.low [Line.ACK, Line.TTL_OUT],
          Event.low [Line.RELAY3], Event.delay RELAY_ONTIME, Event.high [Line.RELAY3],
          Event.high [Line.ACK], Event.delay 4000000, Event.low [Line.ACK],
          Event.tx 'H', Event.msg msgRelay3]
      ∧ s'.out Line.RELAY3 = true
      ∧ (∀ l, l ≠ Line.RELAY3 → l ≠ Line.ACK → l ≠ Line.TTL_OUT → s'.out l = init.out l)
      ∧ s'.out Line.ACK = false ∧ s'.out Line.TTL_OUT = false
      ∧ s'.TB3CCR1 = init.TB3CCR1 ∧ s'.TB3CCR2 = init.TB3CCR2 ∧ s'.TB3CCR3 = init.TB3CCR3
      ∧ s'.TB3CCR4 = init.TB3CCR4 ∧ s'.TB3CCR5 = init.TB3CCR5
      ∧ s'.L0 = init.L0 ∧ s'.L1 = init.L1 ∧ s'.L2 = init.L2 ∧ s'.L3 = init.L3
      ∧ s'._BLINK = init._BLINK :=
  relay_command_frame envDigit init [] 'H' Line.RELAY3 msgRelay3 (by decide)

/-! ## The table under a committed edit -/

theorem keepsL0_closed : StepClosed (fun s s' => s'.L0 = s.L0) where
  refl := fun _ => rfl
  trans := fun _ _ _ h12 h23 => h23.trans h12
  on_emit := fun _ _ => rfl
  on_setHigh := fun _ _ => rfl
  on_setLow := fun _ _ => rfl
  on_setTB3CCR := by
    intro ch v s
    unfold setTB3CCR
    split_ifs <;> rfl
  on_setBLINK := fun _ _ => rfl
  on_setRxstring := fun _ _ => rfl
  on_setLength := fun _ _ => rfl
  on_ModifyCCR := by
    intro p fdr v s
    cases p <;> rfl

/-- Level 0 is never written: it holds its build-time values in every
reachable state. -/
theorem Reachable.level0 (env : Env) (m : Main) (hr : Reachable env m) : m.g.L0 = L0 := by
  induction hr with
  | start => rfl
  | step m _ ih => exact (keepsL0_closed.of_mainStep env m).trans ih
  | serial m m' rx rest _ hs ih =>
    unfold serialInterrupt at hs
    cases hisr : USCI_A0_ISR env m.g rx with
    | none => simp [hisr] at hs
    | some r =>
      obtain ⟨g, rx1⟩ := r
      simp only [hisr, Option.some.injEq, Prod.mk.injEq] at hs
      obtain ⟨hm, _⟩ := hs
      subst hm
      exact (keepsL0_closed.of_USCI_A0_ISR env m.g g rx rx1 hisr).trans ih
  | button m g P2IN _ hb ih => exact (keepsL0_closed.of_Port_1_ISR m.g g P2IN hb).trans ih

/-- The state a session that passes the tests of line 297 with a level in
'1'..'3' returns in: the final state is the epilogue on the state the commit
step leaves, which holds the table write. -/
theorem ISR_config_committed (env : Env) (s : State) (lvl fdr ans : Char)
    (typed rest : List Char) (hlvl : lvl ∈ ['1', '2', '3'])
    (hlen : typed.length ≤ 4) (hcr : '\r' ∉ typed)
    (hinv : inputsInvalid env (dutyBuffer typed) lvl fdr = false) :
    ∃ p : LvlPtr, (lvl = '1' ∧ p = LvlPtr.L1 ∨ lvl = '2' ∧ p = LvlPtr.L2
        ∨ lvl = '3' ∧ p = LvlPtr.L3)
      ∧ USCI_A0_ISR env s ('$' :: lvl :: fdr :: (dutyKeys typed ++ ans :: rest))
        = some (epilogue '$' (if ans = 'y' then msgNewSettings else msgConfigApplied) false
            (if ans = 'y' then
              SetBrightness '4' lvl (SetBrightness '3' lvl (SetBrightness '2' lvl
                (SetBrightness '1' lvl (UARTsendMsg msgCRLF (txbuf ans
                  (UARTsendMsg msgTestPrompt (ModifyCCR p fdr
                    (atoi (dutyBuffer typed ++ env.overrun))
                    (afterEntry lvl fdr typed (setLow [Line.ACK, Line.TTL_OUT] s)))))))))
             else UARTsendMsg msgCRLF (txbuf ans (UARTsendMsg msgTestPrompt (ModifyCCR p fdr
                    (atoi (dutyBuffer typed ++ env.overrun))
                    (afterEntry lvl fdr typed (setLow [Line.ACK, Line.TTL_OUT] s)))))),
          rest) := by
  obtain ⟨h1, h2, h3⟩ := parseInputs_valid env (dutyBuffer typed) lvl fdr
    (afterEntry lvl fdr typed (setLow [Line.ACK, Line.TTL_OUT] s)) hinv
  rw [ISR_config_typed env s lvl fdr typed (ans :: rest) hlen hcr]
  simp only [List.mem_cons, List.mem_singleton, List.not_mem_nil, or_false] at hlvl
  rcases hlvl with h | h | h
  · refine ⟨LvlPtr.L1, Or.inl ⟨h, rfl⟩, ?_⟩
    rw [h1 h, commitStep_some]
    rfl
  · refine ⟨LvlPtr.L2, Or.inr (Or.inl ⟨h, rfl⟩), ?_⟩
    rw [h2 h, commitStep_some]
    rfl
  · refine ⟨LvlPtr.L3, Or.inr (Or.inr ⟨h, rfl⟩), ?_⟩
    rw [h3 h, commitStep_some]
    rfl

/-- The four `SetBrightness` calls of the answer `y`: for a level in '1'..'3'
they load the four fields of that level's row into the four feeder registers
and leave the table, the cue register, the Blink flag and the output lines
alone. -/
theorem apply_all_feeders (lvl : Char) (b : State) (hlvl : lvl ∈ ['1', '2', '3']) :
    ∃ row, levelRow b lvl = some row
      ∧ (SetBrightness '4' lvl (SetBrightness '3' lvl (SetBrightness '2' lvl
          (SetBrightness '1' lvl b))))
        = { b with TB3CCR1 := row.fdr1, TB3CCR2 := row.fdr2, TB3CCR3 := row.fdr3,
                   TB3CCR4 := row.fdr4,
                   trace := b.trace ++ [Event.ccr 1 row.fdr1, Event.ccr 2 row.fdr2,
                     Event.ccr 3 row.fdr3, Event.ccr 4 row.fdr4] } := by
  simp only [List.mem_cons, List.mem_singleton, List.not_mem_nil, or_false] at hlvl
  rcases hlvl with h | h | h <;> subst h
  · exact ⟨b.L1, by simp [levelRow], by simp [SetBrightness, levelRow, setTB3CCR]⟩
  · exact ⟨b.L2, by simp [levelRow], by simp [SetBrightness, levelRow, setTB3CCR]⟩
  · exact ⟨b.L3, by simp [levelRow], by simp [SetBrightness, levelRow, setTB3CCR]⟩

/-- What a committed session leaves: the table of the state after `ModifyCCR`,
the final text by the answer, and the feeder registers either loaded from the
edited level's row (answer `y`) or untouched. -/
theorem committed_session_state (env : Env) (s : State) (lvl fdr ans : Char)
    (typed rest : List Char) (hlvl : lvl ∈ ['1', '2', '3'])
    (hlen : typed.length ≤ 4) (hcr : '\r' ∉ typed)
    (hinv : inputsInvalid env (dutyBuffer typed) lvl fdr = false) :
    ∃ (s' : State) (p : LvlPtr),
      (lvl = '1' ∧ p = LvlPtr.L1 ∨ lvl = '2' ∧ p = LvlPtr.L2 ∨ lvl = '3' ∧ p = LvlPtr.L3)
      ∧ USCI_A0_ISR env s ('$' :: lvl :: fdr :: (dutyKeys typed ++ ans :: rest))
          = some (s', rest)
      ∧ s'.L0 = s.L0
      ∧ s'.L1 = (ModifyCCR p fdr (atoi (dutyBuffer typed ++ env.overrun)) s).L1
      ∧ s'.L2 = (ModifyCCR p fdr (atoi (dutyBuffer typed ++ env.overrun)) s).L2
      ∧ s'.L3 = (ModifyCCR p fdr (atoi (dutyBuffer typed ++ env.overrun)) s).L3
      ∧ s'.TB3CCR5 = s.TB3CCR5
      ∧ s'.trace.getLast?
          = some (Event.msg (if ans = 'y' then msgNewSettings else msgConfigApplied))
      ∧ (ans ≠ 'y' → s'.TB3CCR1 = s.TB3CCR1 ∧ s'.TB3CCR2 = s.TB3CCR2
          ∧ s'.TB3CCR3 = s.TB3CCR3 ∧ s'.TB3CCR4 = s.TB3CCR4)
      ∧ (ans = 'y' → ∃ row, levelRow s' lvl = some row
          ∧ s'.TB3CCR1 = row.fdr1 ∧ s'.TB3CCR2 = row.fdr2
          ∧ s'.TB3CCR3 = row.fdr3 ∧ s'.TB3CCR4 = row.fdr4) := by
  obtain ⟨p, hp, hrun⟩ := ISR_config_committed env s lvl fdr ans typed rest hlvl hlen hcr hinv
  refine ⟨_, p, hp, hrun, ?_⟩
  generalize hb : UARTsendMsg msgCRLF (txbuf ans (UARTsendMsg msgTestPrompt (ModifyCCR p fdr
      (atoi (dutyBuffer typed ++ env.overrun))
      (afterEntry lvl fdr typed (setLow [Line.ACK, Line.TTL_OUT] s))))) = b
  have e0 : b.L0 = s.L0 := by
    rw [← hb, afterEntry_eq]
    cases p <;> rfl
  have e1 : b.L1 = (ModifyCCR p fdr (atoi (dutyBuffer typed ++ env.overrun)) s).L1 := by
    rw [← hb, afterEntry_eq]
    cases p <;> rfl
  have e2 : b.L2 = (ModifyCCR p fdr (atoi (dutyBuffer typed ++ env.overrun)) s).L2 := by
    rw [← hb, afterEntry_eq]
    cases p <;> rfl
  have e3 : b.L3 = (ModifyCCR p fdr (atoi (dutyBuffer typed ++ env.overrun)) s).L3 := by
    rw [← hb, afterEntry_eq]
    cases p <;> rfl
  have c1 : b.TB3CCR1 = s.TB3CCR1 := by
    rw [← hb, afterEntry_eq]
    cases p <;> rfl
  have c2 : b.TB3CCR2 = s.TB3CCR2 := by
    rw [← hb, afterEntry_eq]
    cases p <;> rfl
  have c3 : b.TB3CCR3 = s.TB3CCR3 := by
    rw [← hb, afterEntry_eq]
    cases p <;> rfl
  have c4 : b.TB3CCR4 = s.TB3CCR4 := by
    rw [← hb, afterEntry_eq]
    cases p <;> rfl
  have c5 : b.TB3CCR5 = s.TB3CCR5 := by
    rw [← hb, afterEntry_eq]
    cases p <;> rfl
  obtain ⟨row, hrow, hall⟩ := apply_all_feeders lvl b hlvl
  rw [hall, epilogue_plain]
  by_cases hy : ans = 'y'
  · simp only [if_pos hy]
    refine ⟨e0, e1, e2, e3, c5, trace_last_two _ _ _, fun h => absurd hy h, fun _ => ?_⟩
    refine ⟨row, ?_, rfl, rfl, rfl, rfl⟩
    rw [← hrow]
    rfl
  · simp only [if_neg hy]
    exact ⟨e0, e1, e2, e3, c5, trace_last_two _ _ _, fun _ => ⟨c1, c2, c3, c4⟩,
      fun h => absurd h hy⟩

theorem modify_get_same (row : LightLevel) (fdr : Char) (v : Nat)
    (hfdr : fdr ∈ ['1', '2', '3', '4']) : (row.modify fdr v).get fdr = some v := by
  simp only [List.mem_cons, List.mem_singleton, List.not_mem_nil, or_false] at hfdr
  rcases hfdr with h | h | h | h <;> subst h <;> simp [LightLevel.modify, LightLevel.get]

theorem modify_get_other (row : LightLevel) (fdr fdr' : Char) (v : Nat) (hne : fdr' ≠ fdr) :
    (row.modify fdr v).get fdr' = row.get fdr' := by
  unfold LightLevel.modify LightLevel.get
  by_cases h1 : fdr = '1'
  · subst h1
    simp [hne]
  by_cases h2 : fdr = '2'
  · subst h2
    simp [hne]
  by_cases h3 : fdr = '3'
  · subst h3
    simp [hne]
  by_cases h4 : fdr = '4'
  · subst h4
    simp [hne]
  simp [h1, h2, h3, h4]

/-- The rows after a committed edit, read by level character: the edited
level's row is the old one with the feeder's field written, every other row
is the old one. -/
theorem levelRow_after_commit (s s' : State) (lvl fdr lvl' : Char) (p : LvlPtr) (v : Int)
    (hp : lvl = '1' ∧ p = LvlPtr.L1 ∨ lvl = '2' ∧ p = LvlPtr.L2 ∨ lvl = '3' ∧ p = LvlPtr.L3)
    (e0 : s'.L0 = s.L0) (e1 : s'.L1 = (ModifyCCR p fdr v s).L1)
    (e2 : s'.L2 = (ModifyCCR p fdr v s).L2) (e3 : s'.L3 = (ModifyCCR p fdr v s).L3) :
    levelRow s' lvl'
      = if lvl' = lvl then (levelRow s lvl).map (fun row => row.modify fdr (toUnsigned v))
        else levelRow s lvl' := by
  unfold levelRow
  rw [e0, e1, e2, e3]
  rcases hp with ⟨h, hp⟩ | ⟨h, hp⟩ | ⟨h, hp⟩ <;> subst h <;> subst hp <;>
    simp only [ModifyCCR]
  · by_cases h0 : lvl' = '0'
    · subst h0
      simp
    by_cases h1 : lvl' = '1'
    · subst h1
      simp
    simp [h0, h1]
  · by_cases h0 : lvl' = '0'
    · subst h0
      simp
    by_cases h1 : lvl' = '1'
    · subst h1
      simp
    by_cases h2 : lvl' = '2'
    · subst h2
      simp
    simp [h0, h1, h2]
  · by_cases h0 : lvl' = '0'
    · subst h0
      simp
    by_cases h1 : lvl' = '1'
    · subst h1
      simp
    by_cases h2 : lvl' = '2'
    · subst h2
      simp
    by_cases h3 : lvl' = '3'
    · subst h3
      simp
    simp [h0, h1, h2, h3]

/-- C14: a committed `$` edit of a level in '1'..'3' and a feeder in '1'..'4'
leaves the entered value (as 16 bits unsigned) in the table entry of that level
and feeder and every other table entry as it was; and in every reachable
state, whatever commands came before, level 0 holds its four values 8000. -/
theorem committed_edit_changes_one_entry (env : Env) (s : State) (lvl fdr ans : Char)
    (typed rest : List Char)
    (hlvl : lvl ∈ ['1', '2', '3']) (hfdr : fdr ∈ ['1', '2', '3', '4'])
    (hlen : typed.length ≤ 4) (hcr : '\r' ∉ typed)
    (hinv : inputsInvalid env (dutyBuffer typed) lvl fdr = false) :
    (∃ s', USCI_A0_ISR env s ('$' :: lvl :: fdr :: (dutyKeys typed ++ ans :: rest))
        = some (s', rest)
      ∧ tableEntry s' lvl fdr = some (toUnsigned (atoi (dutyBuffer typed ++ env.overrun)))
      ∧ ∀ lvl' fdr', (lvl' ≠ lvl ∨ fdr' ≠ fdr) →
          tableEntry s' lvl' fdr' = tableEntry s lvl' fdr')
    ∧ ∀ m, Reachable env m →
        m.g.L0 = { fdr1 := 8000, fdr2 := 8000, fdr3 := 8000, fdr4 := 8000 } := by
  refine ⟨?_, fun m hm => Reachable.level0 env m hm⟩
  obtain ⟨s', p, hp, hrun, e0, e1, e2, e3, _⟩ :=
    committed_session_state env s lvl fdr ans typed rest hlvl hlen hcr hinv
  have hrows := fun lvl' => levelRow_after_commit s s' lvl fdr lvl' p _ hp e0 e1 e2 e3
  have hsome : ∃ row, levelRow s lvl = some row := by
    simp only [List.mem_cons, List.mem_singleton, List.not_mem_nil, or_false] at hlvl
    rcases hlvl with h | h | h <;> subst h
    · exact ⟨s.L1, by simp [levelRow]⟩
    · exact ⟨s.L2, by simp [levelRow]⟩
    · exact ⟨s.L3, by simp [levelRow]⟩
  obtain ⟨row, hrow⟩ := hsome
  refine ⟨s', hrun, ?_, ?_⟩
  · unfold tableEntry
    rw [hrows lvl, if_pos rfl, hrow]
    exact modify_get_same row fdr _ hfdr
  · intro lvl' fdr' hne
    unfold tableEntry
    rw [hrows lvl']
    by_cases hl : lvl' = lvl
    · subst hl
      have hf : fdr' ≠ fdr := by
        rcases hne with h | h
        · exact absurd rfl h
        · exact h
      rw [if_pos rfl, hrow]
      exact modify_get_other row fdr fdr' _ hf
    · rw [if_neg hl]

/-- Witness for C14: level '2', feeder '3', the duty entry 4321, answer 'n'. -/
theorem committed_edit_changes_one_entry_witness :
    (∃ s', USCI_A0_ISR envDigit init
          ('$' :: '2' :: '3' :: (dutyKeys ['4', '3', '2', '1'] ++ 'n' :: [])) = some (s', [])
      ∧ tableEntry s' '2' '3'
          = some (toUnsigned (atoi (dutyBuffer ['4', '3', '2', '1'] ++ envDigit.overrun)))
      ∧ ∀ lvl' fdr', (lvl' ≠ '2' ∨ fdr' ≠ '3') →
          tableEntry s' lvl' fdr' = tableEntry init lvl' fdr')
    ∧ ∀ m, Reachable envDigit m →
        m.g.L0 = { fdr1 := 8000, fdr2 := 8000, fdr3 := 8000, fdr4 := 8000 } :=
  committed_edit_changes_one_entry envDigit init '2' '3' 'n' ['4', '3', '2', '1'] []
    (by decide) (by decide) (by decide) (by decide) (by decide)

/-! ## Echo and status text of the single-byte commands -/

/-- The switch on a byte other than `#` and `$`: it reads nothing more, leaves
`_RXSTR` clear, and sets `string` by the command. -/
theorem switchCase_single (env : Env) (c : Char) (s : State) (rx : List Char)
    (h1 : c ≠ '#') (h2 : c ≠ '$') :
    ∃ (string : String) (s1 : State), switchCase env c s rx = some (string, false, s1, rx)
      ∧ (c = 'A' → string = msgAllOn) ∧ (c = 'g' → string = msgGreenOn)
      ∧ (c = 'r' → string = msgRedOn)
      ∧ (c = 'k' → string = if s._BLINK then msgBlinkOff else msgBlinkOn)
      ∧ (c = 'R' → string = msgAllOff)
      ∧ (c = 'F' → string = msgRelay1) ∧ (c = 'G' → string = msgRelay2)
      ∧ (c = 'H' → string = msgRelay3) ∧ (c = 'J' → string = msgRelay4)
      ∧ (c = '?' → string = msgInformation)
      ∧ (c ∉ ['#', '$', 'A', 'g', 'r', 'k', 'R', 'F', 'G', 'H', 'J', '?'] →
          string = msgUnknown) := by
  by_cases hu : c ∉ ['#', '$', 'A', 'g', 'r', 'k', 'R', 'F', 'G', 'H', 'J', '?']
  · refine ⟨msgUnknown, s, switchCase_unknown env c s rx hu, ?_⟩
    simp only [List.mem_cons, List.mem_singleton, List.not_mem_nil, or_false, not_or] at hu
    obtain ⟨_, _, u3, u4, u5, u6, u7, u8, u9, u10, u11, u12⟩ := hu
    exact ⟨fun h => absurd h u3, fun h => absurd h u4, fun h => absurd h u5,
      fun h => absurd h u6, fun h => absurd h u7, fun h => absurd h u8, fun h => absurd h u9,
      fun h => absurd h u10, fun h => absurd h u11, fun h => absurd h u12, fun _ => rfl⟩
  · simp only [List.mem_cons, List.mem_singleton, List.not_mem_nil, or_false, not_not] at hu
    rcases hu with h | h | h | h | h | h | h | h | h | h | h | h
    · exact absurd h h1
    · exact absurd h h2
    all_goals subst h
    · exact ⟨_, _, rfl, by simp⟩
    · exact ⟨_, _, rfl, by simp⟩
    · exact ⟨_, _, rfl, by simp⟩
    · by_cases hb : s._BLINK = true
      · refine ⟨msgBlinkOff, ackPulse (setBLINK false s), ?_, ?_⟩
        · unfold switchCase
          simp [hb]
        · simp [hb]
      · refine ⟨msgBlinkOn, ackPulse (setBLINK true s), ?_, ?_⟩
        · unfold switchCase
          simp [hb]
        · simp [hb]
    · exact ⟨_, _, rfl, by simp⟩
    · exact ⟨_, _, rfl, by simp⟩
    · exact ⟨_, _, rfl, by simp⟩
    · exact ⟨_, _, rfl, by simp⟩
    · exact ⟨_, _, rfl, by simp⟩
    · exact ⟨_, _, rfl, by simp⟩

/-- C15: for every byte other than `#` and `$` the handler returns without
reading another byte, and the last two things it sends are the byte itself and
then the status text of the command: the blinking text by the old flag for
`k`, the all-off text for `R`, the relay texts for `F`, `G`, `H`, `J`, the
information text for `?` (after the help texts), the texts of the legacy bytes
`A`, `g`, `r`, and the unrecognized-command text for every other byte. -/
theorem single_byte_echo_then_status (env : Env) (s : State) (c : Char) (rest : List Char)
    (h1 : c ≠ '#') (h2 : c ≠ '$') :
    ∃ (s' : State) (before : List Event) (string : String),
      USCI_A0_ISR env s (c :: rest) = some (s', rest)
      ∧ s'.trace = before ++ [Event.tx c, Event.msg string]
      ∧ (c = 'k' → string = if s._BLINK then msgBlinkOff else msgBlinkOn)
      ∧ (c = 'R' → string = msgAllOff)
      ∧ (c = 'F' → string = msgRelay1) ∧ (c = 'G' → string = msgRelay2)
      ∧ (c = 'H' → string = msgRelay3) ∧ (c = 'J' → string = msgRelay4)
      ∧ (c = '?' → string = msgInformation)
      ∧ (c = 'A' → string = msgAllOn) ∧ (c = 'g' → string = msgGreenOn)
      ∧ (c = 'r' → string = msgRedOn)
      ∧ (c ∉ ['#', '$', 'A', 'g', 'r', 'k', 'R', 'F', 'G', 'H', 'J', '?'] →
          string = msgUnknown) := by
  obtain ⟨string, s1, hsw, hA, hg, hr, hk, hR, hF, hG, hH, hJ, hq, hu⟩ :=
    switchCase_single env c (setLow [Line.ACK, Line.TTL_OUT] s) rest h1 h2
  refine ⟨epilogue c string false s1, s1.trace, string, ?_, ?_,
    hk, hR, hF, hG, hH, hJ, hq, hA, hg, hr, hu⟩
  · simp only [USCI_A0_ISR, hsw]
  · rw [epilogue_plain]

/-- Witness for C15: the byte `?` in the initial state. -/
theorem single_byte_echo_then_status_witness :
    ∃ (s' : State) (before : List Event) (string : String),
      USCI_A0_ISR envDigit init ('?' :: []) = some (s', [])
      ∧ s'.trace = before ++ [Event.tx '?', Event.msg string]
      ∧ ('?' = 'k' → string = if init._BLINK then msgBlinkOff else msgBlinkOn)
      ∧ ('?' = 'R' → string = msgAllOff)
      ∧ ('?' = 'F' → string = msgRelay1) ∧ ('?' = 'G' → string = msgRelay2)
      ∧ ('?' = 'H' → string = msgRelay3) ∧ ('?' = 'J' → string = msgRelay4)
      ∧ ('?' = '?' → string = msgInformation)
      ∧ ('?' = 'A' → string = msgAllOn) ∧ ('?' = 'g' → string = msgGreenOn)
      ∧ ('?' = 'r' → string = msgRedOn)
      ∧ ('?' ∉ ['#', '$', 'A', 'g', 'r', 'k', 'R', 'F', 'G', 'H', 'J', '?'] →
          string = msgUnknown) :=
  single_byte_echo_then_status envDigit init '?' [] (by decide) (by decide)

/-- C16: at the test prompt of a session that passes the tests of line 297
with a level in '1'..'3', the table is the one `ModifyCCR` left whatever the
answer.  On `y` the four feeder registers are loaded from the four fields of
the edited level's row and the final text is the new-settings text; on any
other byte no compare register changes and the final text is the one that
asks to restart the feeders to see the change. -/
theorem test_prompt_answer (env : Env) (s : State) (lvl fdr ans : Char)
    (typed rest : List Char) (hlvl : lvl ∈ ['1', '2', '3'])
    (hlen : typed.length ≤ 4) (hcr : '\r' ∉ typed)
    (hinv : inputsInvalid env (dutyBuffer typed) lvl fdr = false) :
    ∃ (s' : State) (p : LvlPtr),
      (lvl = '1' ∧ p = LvlPtr.L1 ∨ lvl = '2' ∧ p = LvlPtr.L2 ∨ lvl = '3' ∧ p = LvlPtr.L3)
      ∧ USCI_A0_ISR env s ('$' :: lvl :: fdr :: (dutyKeys typed ++ ans :: rest))
          = some (s', rest)
      ∧ s'.L0 = s.L0
      ∧ s'.L1 = (ModifyCCR p fdr (atoi (dutyBuffer typed ++ env.overrun)) s).L1
      ∧ s'.L2 = (ModifyCCR p fdr (atoi (dutyBuffer typed ++ env.overrun)) s).L2
      ∧ s'.L3 = (ModifyCCR p fdr (atoi (dutyBuffer typed ++ env.overrun)) s).L3
      ∧ s'.TB3CCR5 = s.TB3CCR5
      ∧ (ans = 'y' →
          s'.trace.getLast? = some (Event.msg msgNewSettings)
          ∧ ∃ row, levelRow s' lvl = some row
            ∧ s'.TB3CCR1 = row.fdr1 ∧ s'.TB3CCR2 = row.fdr2
            ∧ s'.TB3CCR3 = row.fdr3 ∧ s'.TB3CCR4 = row.fdr4)
      ∧ (ans ≠ 'y' →
          s'.trace.getLast? = some (Event.msg msgConfigApplied)
          ∧ s'.TB3CCR1 = s.TB3CCR1 ∧ s'.TB3CCR2 = s.TB3CCR2
          ∧ s'.TB3CCR3 = s.TB3CCR3 ∧ s'.TB3CCR4 = s.TB3CCR4) := by
  obtain ⟨s', p, hp, hrun, e0, e1, e2, e3, c5, hlast, hno, hyes⟩ :=
    committed_session_state env s lvl fdr ans typed rest hlvl hlen hcr hinv
  refine ⟨s', p, hp, hrun, e0, e1, e2, e3, c5, ?_, ?_⟩
  · intro hy
    rw [if_pos hy] at hlast
    exact ⟨hlast, hyes hy⟩
  · intro hy
    rw [if_neg hy] at hlast
    exact ⟨hlast, hno hy⟩

/-- Witness for C16: level '2', feeder '3', the duty entry 4321, answer 'y'. -/
theorem test_prompt_answer_witness :
    ∃ (s' : State) (p : LvlPtr),
      ('2' = '1' ∧ p = LvlPtr.L1 ∨ '2' = '2' ∧ p = LvlPtr.L2 ∨ '2' = '3' ∧ p = LvlPtr.L3)
      ∧ USCI_A0_ISR envDigit init
          ('$' :: '2' :: '3' :: (dutyKeys ['4', '3', '2', '1'] ++ 'y' :: [])) = some (s', [])
      ∧ s'.L0 = init.L0
      ∧ s'.L1 = (ModifyCCR p '3'
          (atoi (dutyBuffer ['4', '3', '2', '1'] ++ envDigit.overrun)) init).L1
      ∧ s'.L2 = (ModifyCCR p '3'
          (atoi (dutyBuffer ['4', '3', '2', '1'] ++ envDigit.overrun)) init).L2
      ∧ s'.L3 = (ModifyCCR p '3'
          (atoi (dutyBuffer ['4', '3', '2', '1'] ++ envDigit.overrun)) init).L3
      ∧ s'.TB3CCR5 = init.TB3CCR5
      ∧ ('y' = 'y' →
          s'.trace.getLast? = some (Event.msg msgNewSettings)
          ∧ ∃ row, levelRow s' '2' = some row
            ∧ s'.TB3CCR1 = row.fdr1 ∧ s'.TB3CCR2 = row.fdr2
            ∧ s'.TB3CCR3 = row.fdr3 ∧ s'.TB3CCR4 = row.fdr4)
      ∧ ('y' ≠ 'y' →
          s'.trace.getLast? = some (Event.msg msgConfigApplied)
          ∧ s'.TB3CCR1 = init.TB3CCR1 ∧ s'.TB3CCR2 = init.TB3CCR2
          ∧ s'.TB3CCR3 = init.TB3CCR3 ∧ s'.TB3CCR4 = init.TB3CCR4) :=
  test_prompt_answer envDigit init '2' '3' 'y' ['4', '3', '2', '1'] []
    (by decide) (by decide) (by decide) (by decide)

/-- C17: the four stored digits 1, 2, 3, 4 are not the duty the handler uses
when the byte after them is a digit.  The entry loop ends on the fourth
character without writing a terminator, `atoi` reads 12345, and the session
with level '1' and feeder '1' is rejected with the table unchanged, although
1234 is within 0..8000. -/
theorem unterminated_duty_reads_on :
    ∃ s', USCI_A0_ISR envOverrun init ['$', '1', '1', '1', '2', '3', '4'] = some (s', [])
      ∧ dutyBuffer ['1', '2', '3', '4'] = ['1', '2', '3', '4']
      ∧ atoi ['1', '2', '3', '4'] = 1234
      ∧ atoi (dutyBuffer ['1', '2', '3', '4'] ++ envOverrun.overrun) = 12345
      ∧ s'.trace.getLast? = some (Event.msg msgAborted)
      ∧ s'.L1 = init.L1 := by
  have h := ISR_config_typed envOverrun init '1' '1' ['1', '2', '3', '4'] []
    (by decide) (by decide)
  have hk : dutyKeys ['1', '2', '3', '4'] ++ [] = ['1', '2', '3', '4'] := by decide
  rw [hk] at h
  have hinv : inputsInvalid envOverrun (dutyBuffer ['1', '2', '3', '4']) '1' '1' = true := by
    decide
  rw [h]
  simp only [parseInputs, hinv, if_true]
  refine ⟨_, rfl, by decide, by decide, by decide, ?_, ?_⟩
  · simp only [epilogue_plain]
    exact trace_last_two _ _ _
  · simp [epilogue_plain, afterEntry_eq, setLow]

/-- C18: the handler run on `k` returns with the Blink flag flipped and the
compare registers, the table, the payload buffer and its length as they were;
its only write to the output lines besides the ACK pulse, which ends low, is
the entry write that drives ACK and TTL_OUT low, so no line changes when both
were low at entry.  The status text is the blinking-on text when the new flag
is set and the blinking-off text when it is clear, the two differ, and a
second `k` restores the flag. -/
theorem k_toggles_blink (env : Env) (s : State) (rest : List Char) :
    ∃ s', USCI_A0_ISR env s ('k' :: rest) = some (s', rest)
      ∧ s'._BLINK = !s._BLINK
      ∧ s'.trace = s.trace ++ [Event.low [Line.ACK, Line.TTL_OUT],
          Event.high [Line.ACK], Event.delay 4000000, Event.low [Line.ACK],
          Event.tx 'k', Event.msg (if s'._BLINK then msgBlinkOn else msgBlinkOff)]
      ∧ msgBlinkOn ≠ msgBlinkOff
      ∧ s'.out = (fun l => if l ∈ [Line.ACK, Line.TTL_OUT] then false else s.out l)
      ∧ (s.out Line.ACK = false → s.out Line.TTL_OUT = false → s'.out = s.out)
      ∧ s'.TB3CCR1 = s.TB3CCR1 ∧ s'.TB3CCR2 = s.TB3CCR2 ∧ s'.TB3CCR3 = s.TB3CCR3
      ∧ s'.TB3CCR4 = s.TB3CCR4 ∧ s'.TB3CCR5 = s.TB3CCR5
      ∧ s'.L0 = s.L0 ∧ s'.L1 = s.L1 ∧ s'.L2 = s.L2 ∧ s'.L3 = s.L3
      ∧ s'.length = s.length ∧ s'.rxstring = s.rxstring
      ∧ ∃ s'', USCI_A0_ISR env s' ('k' :: rest) = some (s'', rest)
          ∧ s''._BLINK = s._BLINK := by
  have hk : ∀ (s0 : State) (rx : List Char), USCI_A0_ISR env s0 ('k' :: rx)
      = some ({ s0 with
          _BLINK := !s0._BLINK,
          out := fun l => if l ∈ [Line.ACK, Line.TTL_OUT] then false else s0.out l,
          trace := s0.trace ++ [Event.low [Line.ACK, Line.TTL_OUT],
            Event.high [Line.ACK], Event.delay 4000000, Event.low [Line.ACK],
            Event.tx 'k', Event.msg (if (!s0._BLINK) = true then msgBlinkOn else msgBlinkOff)] },
        rx) := by
    intro s0 rx
    have hout : (fun l => if l = Line.ACK then false
          else if l ∈ [Line.ACK, Line.TTL_OUT] then false else s0.out l)
        = (fun l => if l ∈ [Line.ACK, Line.TTL_OUT] then false else s0.out l) := by
      funext l
      by_cases h1 : l = Line.ACK <;> simp [h1]
    by_cases hb : s0._BLINK = true
    · have hsw : switchCase env 'k' (setLow [Line.ACK, Line.TTL_OUT] s0) rx
          = some (msgBlinkOff, false,
              ackPulse (setBLINK false (setLow [Line.ACK, Line.TTL_OUT] s0)), rx) := by
        unfold switchCase
        simp [hb, setLow]
      simp only [USCI_A0_ISR, hsw, epilogue_plain, ackPulse_eq]
      simp only [setBLINK, setLow, hb, hout]
      simp
    · have hsw : switchCase env 'k' (setLow [Line.ACK, Line.TTL_OUT] s0) rx
          = some (msgBlinkOn, false,
              ackPulse (setBLINK true (setLow [Line.ACK, Line.TTL_OUT] s0)), rx) := by
        unfold switchCase
        simp [hb, setLow]
      have hb2 : s0._BLINK = false := by simpa using hb
      simp only [USCI_A0_ISR, hsw, epilogue_plain, ackPulse_eq]
      simp only [setBLINK, setLow, hb2, hout]
      simp
  refine ⟨_, hk s rest, rfl, rfl, by decide, rfl, ?_, rfl, rfl, rfl, rfl, rfl, rfl, rfl, rfl,
    rfl, rfl, rfl, _, hk _ rest, ?_⟩
  · intro hACK hTTL
    funext l
    simp only [List.mem_cons, List.mem_singleton, List.not_mem_nil, or_false]
    by_cases h1 : l = Line.ACK
    · simp [h1, hACK]
    · by_cases h2 : l = Line.TTL_OUT
      · simp [h2, hTTL]
      · simp [h1, h2]
  · simp

/-! ## The TTL handshake -/

theorem waitTTL_asserted (rest : List Bool) :
    ∀ (k : Nat) (s : State),
      waitTTL (List.replicate k false ++ true :: rest) s
        = Run.returned { s with
            trace := s.trace ++ List.replicate k (Event.poll Port.P2 false)
              ++ [Event.poll Port.P2 true] } := by
  intro k
  induction k with
  | zero =>
    intro s
    simp [waitTTL, emit]
  | succ k ih =>
    intro s
    simp only [List.replicate_succ, List.cons_append, waitTTL, Bool.false_eq_true, if_false,
      List.append_eq]
    rw [ih]
    simp [emit]

theorem waitTTL_deasserted :
    ∀ (k : Nat) (s : State),
      waitTTL (List.replicate k false) s
        = Run.waiting { s with
            trace := s.trace ++ List.replicate k (Event.poll Port.P2 false) } := by
  intro k
  induction k with
  | zero =>
    intro s
    simp [waitTTL]
  | succ k ih =>
    intro s
    simp only [List.replicate_succ, waitTTL, Bool.false_eq_true, if_false]
    rw [ih]
    simp [emit]

/-- Every sequence of readings either holds an asserted one, after some
number of de-asserted ones, or is de-asserted throughout. -/
theorem readings_split (P2IN : List Bool) :
    (∃ k rest, P2IN = List.replicate k false ++ true :: rest)
      ∨ ∃ k, P2IN = List.replicate k false := by
  induction P2IN with
  | nil => exact Or.inr ⟨0, rfl⟩
  | cons v P2IN ih =>
    cases v with
    | true => exact Or.inl ⟨0, P2IN, rfl⟩
    | false =>
      rcases ih with ⟨k, rest, h⟩ | ⟨k, h⟩
      · exact Or.inl ⟨k + 1, rest, by rw [h]; rfl⟩
      · exact Or.inr ⟨k + 1, by rw [h]; rfl⟩

/-- The state before the wait loop of the port handler. -/
theorem handshake_opening_state (s : State) :
    setLow [Line.TTL_OUT] (delay_cycles 8000000 (setHigh [Line.LED4] (setHigh [Line.TTL_OUT]
      (['t', 'e', 's', 't', '\r', '\n', '\n'].foldl (fun s c => txbuf c s)
        (setHigh [Line.GRNLED] s)))))
      = { s with
          out := fun l => if l = Line.TTL_OUT then false else if l = Line.LED4 then true
            else if l = Line.GRNLED then true else s.out l,
          trace := s.trace ++ handshakeOpening } := by
  simp only [List.foldl_cons, List.foldl_nil, setLow, setHigh, delay_cycles, txbuf, emit,
    handshakeOpening, List.mem_singleton, List.append_assoc, List.singleton_append,
    List.cons_append, List.nil_append]
  congr 1
  funext l
  by_cases h1 : l = Line.TTL_OUT
  · simp [h1]
  · by_cases h2 : l = Line.LED4
    · simp [h2]
    · simp [h1, h2]

/-- The port handler on readings that are de-asserted `k` times and then
asserted: it returns, in this state. -/
theorem Port_1_ISR_returns (s : State) (k : Nat) (rest : List Bool) :
    Port_1_ISR s (List.replicate k false ++ true :: rest)
      = Run.returned { s with
          out := fun l => if l = Line.GRNLED then false else if l = Line.LED3 then true
            else if l = Line.TTL_OUT then false else if l = Line.LED4 then true else s.out l,
          trace := s.trace ++ handshakeOpening
            ++ List.replicate k (Event.poll Port.P2 false)
            ++ [Event.poll Port.P2 true, Event.high [Line.LED3], Event.low [Line.GRNLED]] } := by
  unfold Port_1_ISR
  simp only [handshake_opening_state, waitTTL_asserted]
  simp only [setLow, setHigh, List.mem_singleton, List.append_assoc, List.singleton_append,
    List.cons_append, List.nil_append]
  congr 2
  funext l
  by_cases h1 : l = Line.GRNLED
  · simp [h1]
  · by_cases h2 : l = Line.LED3
    · simp [h2]
    · simp [h1, h2]

/-- The port handler on readings that are de-asserted throughout: it is
still in its wait loop, in this state. -/
theorem Port_1_ISR_waits (s : State) (k : Nat) :
    Port_1_ISR s (List.replicate k false)
      = Run.waiting { s with
          out := fun l => if l = Line.TTL_OUT then false else if l = Line.LED4 then true
            else if l = Line.GRNLED then true else s.out l,
          trace := s.trace ++ handshakeOpening
            ++ List.replicate k (Event.poll Port.P2 false) } := by
  unfold Port_1_ISR
  simp only [handshake_opening_state, waitTTL_deasserted]

/-- C19: in the port handler the TTL output is raised, held 8,000,000 cycles
and lowered before the first read of the input.  On readings de-asserted `k`
times and then asserted the handler returns: after the opening come the `k`
de-asserted reads, the asserted read, and only then LED3; the TTL output is
low at the return.  On readings de-asserted throughout the handler is still
waiting, has done nothing after the opening but read, and LED3 is as it was.
Every sequence of readings is of one of the two kinds. -/
theorem handshake_order (s : State) (k : Nat) (rest : List Bool) :
    (∃ s', Port_1_ISR s (List.replicate k false ++ true :: rest) = Run.returned s'
      ∧ s'.trace = s.trace
          ++ [Event.high [Line.GRNLED],
              Event.tx 't', Event.tx 'e', Event.tx 's', Event.tx 't', Event.tx '\r',
              Event.tx '\n', Event.tx '\n',
              Event.high [Line.TTL_OUT], Event.high [Line.LED4], Event.delay 8000000,
              Event.low [Line.TTL_OUT]]
          ++ List.replicate k (Event.poll Port.P2 false)
          ++ [Event.poll Port.P2 true, Event.high [Line.LED3], Event.low [Line.GRNLED]]
      ∧ s'.out Line.TTL_OUT = false ∧ s'.out Line.LED3 = true)
    ∧ (∃ s1, Port_1_ISR s (List.replicate k false) = Run.waiting s1
      ∧ s1.trace = s.trace
          ++ [Event.high [Line.GRNLED],
              Event.tx 't', Event.tx 'e', Event.tx 's', Event.tx 't', Event.tx '\r',
              Event.tx '\n', Event.tx '\n',
              Event.high [Line.TTL_OUT], Event.high [Line.LED4], Event.delay 8000000,
              Event.low [Line.TTL_OUT]]
          ++ List.replicate k (Event.poll Port.P2 false)
      ∧ s1.out Line.LED3 = s.out Line.LED3 ∧ s1.out Line.TTL_OUT = false)
    ∧ ∀ P2IN : List Bool, (∃ k rest, P2IN = List.replicate k false ++ true :: rest)
        ∨ ∃ k, P2IN = List.replicate k false := by
  refine ⟨⟨_, Port_1_ISR_returns s k rest, rfl, ?_, ?_⟩,
    ⟨_, Port_1_ISR_waits s k, rfl, ?_, ?_⟩, readings_split⟩
  · simp
  · simp
  · simp
  · simp

/-- C20: the wait loop does not read the port on which TTL_IN is an input.
Every read of the port handler, on any readings that let it return, is a read
of port 2, where the set-up of `main` made the TTL_IN pin an output; the only
port whose TTL_IN pin it made an input is port 3. -/
theorem handshake_polls_port_2 (s : State) (k : Nat) (rest : List Bool) :
    ∃ (s' : State) (added : List Event),
      Port_1_ISR s (List.replicate k false ++ true :: rest) = Run.returned s'
      ∧ s'.trace = s.trace ++ added
      ∧ Event.poll Port.P2 true ∈ added
      ∧ (∀ port asserted, Event.poll port asserted ∈ added → port = Port.P2)
      ∧ TTL_IN_dir Port.P2 = some Dir.output
      ∧ TTL_IN_dir Port.P3 = some Dir.input
      ∧ (∀ port, TTL_IN_dir port = some Dir.input → port = Port.P3)
      ∧ Port.P2 ≠ Port.P3 := by
  refine ⟨_, handshakeOpening ++ List.replicate k (Event.poll Port.P2 false)
      ++ [Event.poll Port.P2 true, Event.high [Line.LED3], Event.low [Line.GRNLED]],
    Port_1_ISR_returns s k rest, ?_, ?_, ?_, rfl, rfl, ?_, by decide⟩
  · simp only [List.append_assoc]
  · simp
  · intro port asserted hmem
    simp only [handshakeOpening, List.mem_append, List.mem_cons, List.mem_singleton,
      List.not_mem_nil, or_false, List.mem_replicate] at hmem
    rcases hmem with (h | h) | h
    · simp at h
    · exact (Event.poll.inj h.2).1
    · rcases h with h | h | h
      · exact (Event.poll.inj h).1
      · simp at h
      · simp at h
  · intro port h
    cases port <;> simp [TTL_IN_dir] at h ⊢

/-! ## Effects of the serial handler, unit by unit -/

theorem PulseClosed.next_txbuf {allowed : Line → Prop} {R : State → State → Prop} (hR : PulseClosed allowed R)
    {a s : State} (c : Char) (h : R a s) : R a (txbuf c s) :=
  hR.trans _ _ _ h (hR.on_txbuf c s)

theorem PulseClosed.next_UARTsendMsg {allowed : Line → Prop} {R : State → State → Prop} (hR : PulseClosed allowed R)
    {a s : State} (string : String) (h : R a s) : R a (UARTsendMsg string s) :=
  hR.trans _ _ _ h (hR.on_UARTsendMsg string s)

theorem PulseClosed.next_ackPulse {allowed : Line → Prop} {R : State → State → Prop} (hR : PulseClosed allowed R)
    {a s : State} (h : R a s) : R a (ackPulse s) :=
  hR.trans _ _ _ h (hR.on_ackPulse s)

theorem PulseClosed.next_relayPulse {allowed : Line → Prop} {R : State → State → Prop} (hR : PulseClosed allowed R)
    {a s : State} (relay : Line) (hrel : allowed relay) (h : R a s) :
    R a (relayPulse relay s) :=
  hR.trans _ _ _ h (hR.on_relayPulse relay s hrel)

theorem PulseClosed.next_ledsHigh {allowed : Line → Prop} {R : State → State → Prop} (hR : PulseClosed allowed R)
    {a s : State} (mask : List Line) (hm : ∀ l ∈ mask, l ∈ ledLines) (h : R a s) :
    R a (setHigh mask s) :=
  hR.trans _ _ _ h (hR.on_ledsHigh mask s hm)

theorem PulseClosed.next_ledsLow {allowed : Line → Prop} {R : State → State → Prop} (hR : PulseClosed allowed R)
    {a s : State} (mask : List Line) (hm : ∀ l ∈ mask, l ∈ ledLines) (h : R a s) :
    R a (setLow mask s) :=
  hR.trans _ _ _ h (hR.on_ledsLow mask s hm)

theorem PulseClosed.next_setTB3CCR {allowed : Line → Prop} {R : State → State → Prop} (hR : PulseClosed allowed R)
    {a s : State} (ch v : Nat) (h : R a s) : R a (setTB3CCR ch v s) :=
  hR.trans _ _ _ h (hR.on_setTB3CCR ch v s)

theorem PulseClosed.next_setBLINK {allowed : Line → Prop} {R : State → State → Prop} (hR : PulseClosed allowed R)
    {a s : State} (v : Bool) (h : R a s) : R a (setBLINK v s) :=
  hR.trans _ _ _ h (hR.on_setBLINK v s)

theorem PulseClosed.next_SetBrightness {allowed : Line → Prop} {R : State → State → Prop} (hR : PulseClosed allowed R)
    {a s : State} (feeder level : Char) (h : R a s) : R a (SetBrightness feeder level s) := by
  unfold SetBrightness
  cases levelRow s level with
  | none => exact h
  | some row =>
    simp only
    split_ifs
    · exact hR.next_setTB3CCR _ _ h
    · exact hR.next_setTB3CCR _ _ h
    · exact hR.next_setTB3CCR _ _ h
    · exact hR.next_setTB3CCR _ _ h
    · exact h

theorem PulseClosed.next_echoLoop {allowed : Line → Prop} {R : State → State → Prop} (hR : PulseClosed allowed R)
    {a : State} : ∀ (n i : Nat) (s : State), R a s → R a (echoLoop n i s) := by
  intro n
  induction n with
  | zero =>
    intro i s h
    exact h
  | succ n ih =>
    intro i s h
    unfold echoLoop
    exact ih _ _ (hR.next_txbuf _ h)

theorem PulseClosed.next_sendMsgs {allowed : Line → Prop} {R : State → State → Prop} (hR : PulseClosed allowed R)
    {a : State} : ∀ (l : List String) (s : State), R a s →
      R a (l.foldl (fun s string => UARTsendMsg string s) s) := by
  intro l
  induction l with
  | nil =>
    intro s h
    exact h
  | cons m l ih =>
    intro s h
    simp only [List.foldl_cons]
    exact ih _ (hR.next_UARTsendMsg m h)

theorem PulseClosed.next_ccrLoop {allowed : Line → Prop} {R : State → State → Prop} (hR : PulseClosed allowed R)
    {a : State} (length : Nat) :
    ∀ (rx : List Char) (i : Nat) (CCRVAL : List Char) (s : State)
      (r : List Char × State × List Char),
      R a s → ccrLoop length i CCRVAL s rx = some r → R a r.2.1 := by
  intro rx
  induction rx with
  | nil =>
    intro i CCRVAL s r ha h
    unfold ccrLoop at h
    split_ifs at h
    cases h
    exact ha
  | cons b rx ih =>
    intro i CCRVAL s r ha h
    unfold ccrLoop at h
    split_ifs at h
    · cases h
      exact ha
    · exact ih _ _ _ _ (hR.next_txbuf b ha) h
    · cases h
      exact ha

theorem PulseClosed.next_parseInputs {allowed : Line → Prop} {R : State → State → Prop} (hR : PulseClosed allowed R)
    {a s : State} (env : Env) (CCRVAL : List Char) (lvl fdr : Char) (h : R a s) :
    R a (parseInputs env CCRVAL lvl fdr s).2 := by
  unfold parseInputs
  split_ifs
  · exact h
  · exact h
  · exact h
  · exact h
  · exact hR.next_UARTsendMsg _ h

theorem PulseClosed.next_commitStep {allowed : Line → Prop} {R : State → State → Prop} (hR : PulseClosed allowed R)
    {a : State} (env : Env) (CCRVAL : List Char) (lvl fdr : Char) (o : Option LvlPtr)
    (s : State) (rx : List Char) (r : String × State × List Char) (ha : R a s)
    (h : commitStep env CCRVAL lvl fdr (o, s) rx = some r) : R a r.2.1 := by
  cases o with
  | none =>
    simp only [commitStep, Option.some.injEq] at h
    subst h
    exact ha
  | some p =>
    cases rx with
    | nil => simp [commitStep] at h
    | cons ans rx =>
      rw [commitStep_some, Option.some.injEq] at h
      subst h
      have hbase : R a (UARTsendMsg msgCRLF (txbuf ans (UARTsendMsg msgTestPrompt
          (ModifyCCR p fdr (atoi (CCRVAL ++ env.overrun)) s)))) :=
        hR.next_UARTsendMsg _ (hR.next_txbuf _ (hR.next_UARTsendMsg _
          (hR.trans _ _ _ ha (hR.on_ModifyCCR p fdr (atoi (CCRVAL ++ env.overrun)) s))))
      by_cases hy : ans = 'y'
      · simp only [hy, if_true] at hbase ⊢
        exact hR.next_SetBrightness _ _ (hR.next_SetBrightness _ _
          (hR.next_SetBrightness _ _ (hR.next_SetBrightness _ _ hbase)))
      · simp only [hy, if_false]
        exact hbase

theorem PulseClosed.next_atDutyPrompt {allowed : Line → Prop} {R : State → State → Prop} (hR : PulseClosed allowed R)
    {a s : State} (lvl fdr : Char) (h : R a s) : R a (atDutyPrompt lvl fdr s) := by
  unfold atDutyPrompt
  exact hR.trans _ _ _ (hR.next_UARTsendMsg _ (hR.next_UARTsendMsg _ (hR.next_txbuf _
    (hR.next_UARTsendMsg _ (hR.next_UARTsendMsg _ (hR.next_txbuf _ (hR.next_UARTsendMsg _
      (hR.next_UARTsendMsg _ h)))))))) (hR.on_setLength 4 _)

theorem PulseClosed.next_configCase {allowed : Line → Prop} {R : State → State → Prop} (hR : PulseClosed allowed R)
    {a : State} (env : Env) (s : State) (rx : List Char) (r : String × State × List Char)
    (ha : R a s) (h : configCase env s rx = some r) : R a r.2.1 := by
  cases rx with
  | nil => simp [configCase] at h
  | cons lvl rx =>
    cases rx with
    | nil => simp [configCase] at h
    | cons fdr rx =>
      rw [configCase_two] at h
      cases hloop : ccrLoop 4 0 [] (atDutyPrompt lvl fdr s) rx with
      | none => simp [hloop] at h
      | some q =>
        obtain ⟨CCRVAL, s2, rx2⟩ := q
        simp only [hloop] at h
        have hl : R a s2 := hR.next_ccrLoop _ _ _ _ _ _ (hR.next_atDutyPrompt lvl fdr ha) hloop
        have hp := hR.next_parseInputs env CCRVAL lvl fdr (hR.next_UARTsendMsg msgCRLF hl)
        exact hR.next_commitStep env CCRVAL lvl fdr _ _ rx2 r hp h

theorem PulseClosed.next_epilogue {allowed : Line → Prop} {R : State → State → Prop} (hR : PulseClosed allowed R)
    {a s : State} (c : Char) (string : String) (flag : Bool) (h : R a s) :
    R a (epilogue c string flag s) := by
  have h2 : R a (UARTsendMsg string (txbuf c s)) := hR.next_UARTsendMsg _ (hR.next_txbuf _ h)
  cases flag with
  | false => exact h2
  | true =>
    exact hR.next_ackPulse (hR.next_txbuf _ (hR.next_txbuf _ (hR.next_txbuf _
      (hR.next_echoLoop _ _ _ (hR.next_SetBrightness _ _ h2)))))

theorem PulseClosed.next_switchCase {allowed : Line → Prop} {R : State → State → Prop} (hR : PulseClosed allowed R)
    {a : State} (env : Env) (c : Char) (s : State) (rx : List Char)
    (r : String × Bool × State × List Char)
    (hown : ∀ relay, (c, relay) ∈ relayCommands → allowed relay) (ha : R a s)
    (h : switchCase env c s rx = some r) : R a r.2.2.1 := by
  unfold switchCase at h
  by_cases h1 : c = '#'
  · rw [if_pos h1] at h
    cases hl : rxLoop s.length 0 s.rxstring rx with
    | none => simp [hl] at h
    | some q =>
      simp only [hl, Option.some.injEq] at h
      subst h
      exact hR.trans _ _ _ ha (hR.on_setRxstring _ s)
  rw [if_neg h1] at h
  by_cases h2 : c = '$'
  · rw [if_pos h2] at h
    cases hc : configCase env s rx with
    | none => simp [hc] at h
    | some q =>
      simp only [hc, Option.some.injEq] at h
      subst h
      exact hR.next_configCase env s rx q ha hc
  rw [if_neg h2] at h
  by_cases h3 : c = 'A'
  · rw [if_pos h3, Option.some.injEq] at h
    subst h
    exact hR.next_ackPulse (hR.next_ledsHigh _ (by decide) (hR.next_ledsHigh _ (by decide)
      (hR.next_ledsHigh _ (by decide) ha)))
  rw [if_neg h3] at h
  by_cases h4 : c = 'g'
  · rw [if_pos h4, Option.some.injEq] at h
    subst h
    exact hR.next_ackPulse (hR.next_ledsHigh _ (by decide) ha)
  rw [if_neg h4] at h
  by_cases h5 : c = 'r'
  · rw [if_pos h5, Option.some.injEq] at h
    subst h
    exact hR.next_ackPulse (hR.next_ledsHigh _ (by decide) ha)
  rw [if_neg h5] at h
  by_cases h6 : c = 'k'
  · rw [if_pos h6] at h
    by_cases hb : s._BLINK = true
    · rw [if_pos hb, Option.some.injEq] at h
      subst h
      exact hR.next_ackPulse (hR.next_setBLINK _ ha)
    · rw [if_neg hb, Option.some.injEq] at h
      subst h
      exact hR.next_ackPulse (hR.next_setBLINK _ ha)
  rw [if_neg h6] at h
  by_cases h7 : c = 'R'
  · rw [if_pos h7, Option.some.injEq] at h
    subst h
    have hleds : R a (setHigh [Line.RELAY1, Line.RELAY2, Line.RELAY3, Line.RELAY4]
        (setLow [Line.ACK, Line.TTL_OUT] (setLow [Line.REDLED] s))) :=
      hR.trans _ _ _ (hR.trans _ _ _ (hR.next_ledsLow _ (by decide) ha) (hR.on_entry _))
        (hR.on_relaysHigh _)
    exact hR.next_ackPulse (hR.next_setBLINK _ (hR.next_setTB3CCR _ _ (hR.next_setTB3CCR _ _
      (hR.next_setTB3CCR _ _ (hR.next_setTB3CCR _ _ (hR.next_setTB3CCR _ _
        (hR.next_ledsLow _ (by decide) (hR.next_ledsLow _ (by decide) hleds))))))))
  rw [if_neg h7] at h
  by_cases h8 : c = 'F'
  · rw [if_pos h8, Option.some.injEq] at h
    subst h
    exact hR.next_ackPulse (hR.next_relayPulse _ (hown _ (by simp [h8, relayCommands])) ha)
  rw [if_neg h8] at h
  by_cases h9 : c = 'G'
  · rw [if_pos h9, Option.some.injEq] at h
    subst h
    exact hR.next_ackPulse (hR.next_relayPulse _ (hown _ (by simp [h9, relayCommands])) ha)
  rw [if_neg h9] at h
  by_cases h10 : c = 'H'
  · rw [if_pos h10, Option.some.injEq] at h
    subst h
    exact hR.next_ackPulse (hR.next_relayPulse _ (hown _ (by simp [h10, relayCommands])) ha)
  rw [if_neg h10] at h
  by_cases h11 : c = 'J'
  · rw [if_pos h11, Option.some.injEq] at h
    subst h
    exact hR.next_ackPulse (hR.next_relayPulse _ (hown _ (by simp [h11, relayCommands])) ha)
  rw [if_neg h11] at h
  by_cases h12 : c = '?'
  · rw [if_pos h12, Option.some.injEq] at h
    subst h
    exact hR.next_sendMsgs _ _ ha
  rw [if_neg h12, Option.some.injEq] at h
  subst h
  exact ha

/-- A relation that every unit of effect respects holds between the entry of
a serial handler run on the byte `c` and its return, when the relay of `c`, if
it is a relay command, is among the allowed ones. -/
theorem PulseClosed.across_USCI_A0_ISR {allowed : Line → Prop} {R : State → State → Prop} (hR : PulseClosed allowed R)
    (env : Env) (s s' : State) (c : Char) (rx rest : List Char)
    (hown : ∀ relay, (c, relay) ∈ relayCommands → allowed relay)
    (h : USCI_A0_ISR env s (c :: rx) = some (s', rest)) : R s s' := by
  simp only [USCI_A0_ISR] at h
  cases hsw : switchCase env c (setLow [Line.ACK, Line.TTL_OUT] s) rx with
  | none => simp [hsw] at h
  | some q =>
    obtain ⟨string, flag, s1, rx1⟩ := q
    simp only [hsw, Option.some.injEq, Prod.mk.injEq] at h
    obtain ⟨h1, _⟩ := h
    subst h1
    exact hR.next_epilogue _ _ _ (hR.next_switchCase env c _ rx _ hown (hR.on_entry s) hsw)

/-! ## Relay lines and the ACK line at rest -/

theorem Idle.of_out {s s' : State} (h : s'.out = s.out) (hs : Idle s) : Idle s' := by
  unfold Idle at *
  rw [h]
  exact hs

theorem setTB3CCR_out (ch v : Nat) (s : State) : (setTB3CCR ch v s).out = s.out := by
  unfold setTB3CCR
  split_ifs <;> rfl

theorem ModifyCCR_out (lvl_ptr : LvlPtr) (fdr : Char) (value : Int) (s : State) :
    (ModifyCCR lvl_ptr fdr value s).out = s.out := by
  cases lvl_ptr <;> rfl

theorem ModifyCCR_trace (lvl_ptr : LvlPtr) (fdr : Char) (value : Int) (s : State) :
    (ModifyCCR lvl_ptr fdr value s).trace = s.trace := by
  cases lvl_ptr <;> rfl

theorem relay_not_led {l : Line} (hl : l ∈ relayLines) (hled : l ∈ ledLines) : False := by
  cases l <;> simp [relayLines, ledLines] at hl hled

theorem relay_ne_ACK {l : Line} (hl : l ∈ relayLines) : l ≠ Line.ACK := by
  intro h
  subst h
  simp [relayLines] at hl

theorem relayCommands_relay {c : Char} {relay : Line} (h : (c, relay) ∈ relayCommands) :
    relay ∈ relayLines := by
  simp only [relayCommands, List.mem_cons, Prod.mk.injEq, List.mem_singleton,
    List.not_mem_nil, or_false] at h
  rcases h with ⟨_, h⟩ | ⟨_, h⟩ | ⟨_, h⟩ | ⟨_, h⟩ <;> subst h <;> simp [relayLines]

/-- Every unit of effect of the serial handler leaves the relay lines high and
the ACK line low when it found them so. -/
theorem idle_closed :
    PulseClosed (fun relay => relay ∈ relayLines) (fun s s' => Idle s → Idle s') where
  refl := fun _ h => h
  trans := fun _ _ _ h12 h23 h => h23 (h12 h)
  on_txbuf := fun _ _ h => Idle.of_out rfl h
  on_UARTsendMsg := fun _ _ h => Idle.of_out rfl h
  on_entry := by
    intro s hs
    obtain ⟨hrel, _⟩ := hs
    refine ⟨?_, ?_⟩
    · intro l hl
      show (if l ∈ [Line.ACK, Line.TTL_OUT] then false else s.out l) = true
      rw [if_neg (by intro h; cases l <;> simp [relayLines] at hl h)]
      exact hrel l hl
    · show (if Line.ACK ∈ [Line.ACK, Line.TTL_OUT] then false else s.out Line.ACK) = false
      rw [if_pos (by simp)]
  on_ackPulse := by
    intro s hs
    obtain ⟨hrel, _⟩ := hs
    rw [ackPulse_eq]
    refine ⟨?_, ?_⟩
    · intro l hl
      show (if l = Line.ACK then false else s.out l) = true
      rw [if_neg (relay_ne_ACK hl)]
      exact hrel l hl
    · show (if Line.ACK = Line.ACK then false else s.out Line.ACK) = false
      rw [if_pos rfl]
  on_relayPulse := by
    intro relay s hrelay hs
    obtain ⟨hrel, hack⟩ := hs
    refine ⟨?_, ?_⟩
    · intro l hl
      show (if l ∈ [relay] then true else if l ∈ [relay] then false else s.out l) = true
      by_cases h : l ∈ [relay]
      · rw [if_pos h]
      · rw [if_neg h, if_neg h]
        exact hrel l hl
    · show (if Line.ACK ∈ [relay] then true else if Line.ACK ∈ [relay] then false
        else s.out Line.ACK) = false
      have h : Line.ACK ∉ [relay] := by
        intro h
        rw [List.mem_singleton] at h
        exact relay_ne_ACK hrelay h.symm
      rw [if_neg h, if_neg h]
      exact hack
  on_ledsHigh := by
    intro mask s hm hs
    obtain ⟨hrel, hack⟩ := hs
    refine ⟨?_, ?_⟩
    · intro l hl
      show (if l ∈ mask then true else s.out l) = true
      by_cases h : l ∈ mask
      · rw [if_pos h]
      · rw [if_neg h]
        exact hrel l hl
    · show (if Line.ACK ∈ mask then true else s.out Line.ACK) = false
      have h : Line.ACK ∉ mask := by
        intro h
        have hled := hm _ h
        simp [ledLines] at hled
      rw [if_neg h]
      exact hack
  on_ledsLow := by
    intro mask s hm hs
    obtain ⟨hrel, hack⟩ := hs
    refine ⟨?_, ?_⟩
    · intro l hl
      show (if l ∈ mask then false else s.out l) = true
      rw [if_neg (fun h => relay_not_led hl (hm l h))]
      exact hrel l hl
    · show (if Line.ACK ∈ mask then false else s.out Line.ACK) = false
      by_cases h : Line.ACK ∈ mask
      · rw [if_pos h]
      · rw [if_neg h]
        exact hack
  on_relaysHigh := by
    intro s hs
    obtain ⟨hrel, hack⟩ := hs
    refine ⟨?_, ?_⟩
    · intro l hl
      show (if l ∈ [Line.RELAY1, Line.RELAY2, Line.RELAY3, Line.RELAY4] then true
        else s.out l) = true
      exact if_pos hl
    · exact hack
  on_setTB3CCR := fun ch v s h => Idle.of_out (setTB3CCR_out ch v s) h
  on_setBLINK := fun _ _ h => Idle.of_out rfl h
  on_setRxstring := fun _ _ h => Idle.of_out rfl h
  on_setLength := fun _ _ h => Idle.of_out rfl h
  on_ModifyCCR := fun p fdr v s h => Idle.of_out (ModifyCCR_out p fdr v s) h

theorem OwnRelayLow.of_no_low (c : Char) {s s' : State} (added : List Event)
    (h : s'.trace = s.trace ++ added) (hno : ∀ mask, Event.low mask ∉ added) :
    OwnRelayLow c s s' :=
  ⟨added, h, fun mask hm => absurd hm (hno mask)⟩

/-- The only writes of the serial handler that drive a relay line low are
those of the relay pulse of the command byte. -/
theorem ownRelayLow_closed (c : Char) :
    PulseClosed (fun relay => (c, relay) ∈ relayCommands) (OwnRelayLow c) where
  refl := fun s => OwnRelayLow.of_no_low c [] (by simp) (by simp)
  trans := by
    intro s1 s2 s3 h12 h23
    obtain ⟨a1, e1, p1⟩ := h12
    obtain ⟨a2, e2, p2⟩ := h23
    refine ⟨a1 ++ a2, by rw [e2, e1, List.append_assoc], ?_⟩
    intro mask hm
    rcases List.mem_append.mp hm with h | h
    · exact p1 mask h
    · exact p2 mask h
  on_txbuf := fun ch s => OwnRelayLow.of_no_low c [Event.tx ch] rfl (by simp)
  on_UARTsendMsg := fun string s => OwnRelayLow.of_no_low c [Event.msg string] rfl (by simp)
  on_entry := by
    intro s
    refine ⟨[Event.low [Line.ACK, Line.TTL_OUT]], rfl, ?_⟩
    intro mask hm relay hrelay hl
    simp only [List.mem_singleton, Event.low.injEq] at hm
    subst hm
    cases relay <;> simp [relayLines] at hrelay hl
  on_ackPulse := by
    intro s
    rw [ackPulse_eq]
    refine ⟨[Event.high [Line.ACK], Event.delay 4000000, Event.low [Line.ACK]], rfl, ?_⟩
    intro mask hm relay hrelay hl
    simp only [List.mem_cons, List.mem_singleton, Event.low.injEq, List.not_mem_nil,
      or_false, reduceCtorEq, false_or] at hm
    subst hm
    rw [List.mem_singleton] at hrelay
    exact absurd hrelay (relay_ne_ACK hl)
  on_relayPulse := by
    intro relay s hrelay
    refine ⟨[Event.low [relay], Event.delay RELAY_ONTIME, Event.high [relay]], ?_, ?_⟩
    · simp [relayPulse, setHigh, setLow, delay_cycles, emit]
    · intro mask hm r hr _
      simp only [List.mem_cons, List.mem_singleton, Event.low.injEq, List.not_mem_nil,
        or_false, reduceCtorEq] at hm
      subst hm
      rw [List.mem_singleton] at hr
      subst hr
      exact hrelay
  on_ledsHigh := fun mask s _ => OwnRelayLow.of_no_low c [Event.high mask] rfl (by simp)
  on_ledsLow := by
    intro mask s hmask
    refine ⟨[Event.low mask], rfl, ?_⟩
    intro mask' hm relay hrelay hl
    simp only [List.mem_singleton, Event.low.injEq] at hm
    subst hm
    exact absurd (hmask relay hrelay) (fun hled => relay_not_led hl hled)
  on_relaysHigh := fun s => OwnRelayLow.of_no_low c
    [Event.high [Line.RELAY1, Line.RELAY2, Line.RELAY3, Line.RELAY4]] rfl (by simp)
  on_setTB3CCR := by
    intro ch v s
    obtain ⟨mid, hmid, htrace⟩ := setTB3CCR_trace ch v s
    refine OwnRelayLow.of_no_low c mid htrace ?_
    intro mask hm
    obtain ⟨ch', v', he⟩ := hmid _ hm
    cases he
  on_setBLINK := fun _ s => OwnRelayLow.of_no_low c [] (by simp [setBLINK]) (by simp)
  on_setRxstring := fun _ s => OwnRelayLow.of_no_low c [] (by simp [setRxstring]) (by simp)
  on_setLength := fun _ s => OwnRelayLow.of_no_low c [] (by simp [setLength]) (by simp)
  on_ModifyCCR := fun p fdr v s =>
    OwnRelayLow.of_no_low c [] (by simp [ModifyCCR_trace]) (by simp)

theorem mainStep_out (env : Env) (m : Main) : (mainStep env m).g.out = m.g.out := by
  unfold mainStep
  split
  · split_ifs <;> rfl
  · split_ifs
    · exact setTB3CCR_out _ _ _
    · rfl
  · split_ifs
    · exact setTB3CCR_out _ _ _
    · rfl

theorem Port_1_ISR_idle (s g : State) (P2IN : List Bool)
    (h : Port_1_ISR s P2IN = Run.returned g) (hs : Idle s) : Idle g := by
  rcases readings_split P2IN with ⟨k, rest, hP⟩ | ⟨k, hP⟩
  · rw [hP, Port_1_ISR_returns, Run.returned.injEq] at h
    subst h
    obtain ⟨hrel, hack⟩ := hs
    refine ⟨?_, ?_⟩
    · intro l hl
      have := hrel l hl
      cases l <;> simp [relayLines] at hl <;> simpa using this
    · simpa using hack
  · rw [hP, Port_1_ISR_waits] at h
    cases h

/-- The relay lines are high and the ACK line is low whenever no handler is
running. -/
theorem Reachable.idle (env : Env) (m : Main) (hr : Reachable env m) : Idle m.g := by
  induction hr with
  | start =>
    refine ⟨?_, ?_⟩
    · intro l hl
      cases l <;> simp [relayLines] at hl <;> rfl
    · rfl
  | step m _ ih => exact Idle.of_out (mainStep_out env m) ih
  | serial m m' rx rest _ hs ih =>
    unfold serialInterrupt at hs
    cases hisr : USCI_A0_ISR env m.g rx with
    | none => simp [hisr] at hs
    | some r =>
      obtain ⟨g, rx1⟩ := r
      simp only [hisr, Option.some.injEq, Prod.mk.injEq] at hs
      obtain ⟨hm, _⟩ := hs
      subst hm
      cases rx with
      | nil => simp [USCI_A0_ISR] at hisr
      | cons c rx =>
        exact idle_closed.across_USCI_A0_ISR env m.g g c rx rx1
          (fun relay h => relayCommands_relay h) hisr ih
  | button m g P2IN _ hb ih => exact Port_1_ISR_idle m.g g P2IN hb ih

/-- C21: in every state the program can be in between handler runs (the
initialised state, and the state after any sequence of serial commands, loop
steps and button handshakes) the four relay lines are high and the ACK line is
low; a run of the serial handler from such a state on a byte `c` returns with
the four relay lines high and ACK low again, and the only writes in that run
that drive a relay line low are those of the relay of `c` itself (RELAY1 for
`F`, RELAY2 for `G`, RELAY3 for `H`, RELAY4 for `J`, none for another byte). -/
theorem relays_idle_between_commands (env : Env) (m : Main) (hr : Reachable env m) :
    Idle m.g ∧ ∀ (c : Char) (rx rest : List Char) (s' : State),
      USCI_A0_ISR env m.g (c :: rx) = some (s', rest) → Idle s' ∧ OwnRelayLow c m.g s' := by
  refine ⟨Reachable.idle env m hr, ?_⟩
  intro c rx rest s' h
  exact ⟨idle_closed.across_USCI_A0_ISR env m.g s' c rx rest (fun relay h => relayCommands_relay h)
      h (Reachable.idle env m hr),
    (ownRelayLow_closed c).across_USCI_A0_ISR env m.g s' c rx rest (fun _ h => h) h⟩

theorem relays_idle_between_commands_witness :
    Reachable envDigit start ∧ Idle start.g ∧ ∀ (c : Char) (rx rest : List Char) (s' : State),
      USCI_A0_ISR envDigit start.g (c :: rx) = some (s', rest) →
        Idle s' ∧ OwnRelayLow c start.g s' :=
  ⟨Reachable.start, relays_idle_between_commands envDigit start Reachable.start⟩

/-! ## The payload of `#` -/

/-- On two states with the same table `SetBrightness` adds the same events. -/
theorem SetBrightness_added (feeder level : Char) (s1 s2 : State)
    (h0 : s1.L0 = s2.L0) (h1 : s1.L1 = s2.L1) (h2 : s1.L2 = s2.L2) (h3 : s1.L3 = s2.L3) :
    ∃ mid : List Event, (SetBrightness feeder level s1).trace = s1.trace ++ mid
      ∧ (SetBrightness feeder level s2).trace = s2.trace ++ mid := by
  have hrow : levelRow s1 level = levelRow s2 level := by
    simp only [levelRow, h0, h1, h2, h3]
  unfold SetBrightness
  rw [hrow]
  cases levelRow s2 level with
  | none => exact ⟨[], by simp, by simp⟩
  | some row =>
    simp only
    split_ifs
    · exact ⟨[Event.ccr 1 row.fdr1], rfl, rfl⟩
    · exact ⟨[Event.ccr 2 row.fdr2], rfl, rfl⟩
    · exact ⟨[Event.ccr 3 row.fdr3], rfl, rfl⟩
    · exact ⟨[Event.ccr 4 row.fdr4], rfl, rfl⟩
    · exact ⟨[], by simp, by simp⟩

/-- The end of a `#` run after the `SetBrightness` call. -/
theorem hash_tail (t : State) :
    (ackPulse (txbuf '\n' (txbuf '\n' (txbuf '\r' (echoLoop 4 0 t)))))
      = { t with
          out := fun l => if l = Line.ACK then false else t.out l,
          trace := t.trace ++ [Event.tx (t.rxstring 0), Event.tx (t.rxstring 1),
            Event.tx (t.rxstring 2), Event.tx (t.rxstring 3),
            Event.tx '\r', Event.tx '\n', Event.tx '\n',
            Event.high [Line.ACK], Event.delay 4000000, Event.low [Line.ACK]] } := by
  rw [ackPulse_eq, echoLoop_four]
  simp [txbuf, emit]

/-- A run of the handler on `#` and four payload bytes, with the payload
length at 4. -/
theorem hash_run (env : Env) (s : State) (b0 b1 b2 b3 : Char) (rest : List Char)
    (hlen : s.length = 4) (mid : List Event)
    (hmid : (SetBrightness b1 b3 s).trace = s.trace ++ mid) :
    ∃ s', USCI_A0_ISR env s ('#' :: b0 :: b1 :: b2 :: b3 :: rest) = some (s', rest)
      ∧ s'.trace = s.trace ++ hashTrace mid b0 b1 b2 b3
      ∧ s'.TB3CCR1 = (SetBrightness b1 b3 s).TB3CCR1
      ∧ s'.TB3CCR2 = (SetBrightness b1 b3 s).TB3CCR2
      ∧ s'.TB3CCR3 = (SetBrightness b1 b3 s).TB3CCR3
      ∧ s'.TB3CCR4 = (SetBrightness b1 b3 s).TB3CCR4
      ∧ s'.TB3CCR5 = s.TB3CCR5
      ∧ s'.L0 = s.L0 ∧ s'.L1 = s.L1 ∧ s'.L2 = s.L2 ∧ s'.L3 = s.L3
      ∧ s'._BLINK = s._BLINK
      ∧ s'.out = fun l => if l = Line.ACK then false else if l = Line.TTL_OUT then false
          else s.out l := by
  rw [ISR_hash_four env s b0 b1 b2 b3 rest hlen]
  refine ⟨_, rfl, ?_⟩
  generalize hs1 : UARTsendMsg msgFeeder (txbuf '#'
      (setRxstring (Function.update (Function.update (Function.update
          (Function.update s.rxstring 0 b0) 1 b1) 2 b2) 3 b3)
        (setLow [Line.ACK, Line.TTL_OUT] s))) = s1
  have e0 : s1.L0 = s.L0 := by rw [← hs1]; rfl
  have e1 : s1.L1 = s.L1 := by rw [← hs1]; rfl
  have e2 : s1.L2 = s.L2 := by rw [← hs1]; rfl
  have e3 : s1.L3 = s.L3 := by rw [← hs1]; rfl
  have eB : s1._BLINK = s._BLINK := by rw [← hs1]; rfl
  have d1 : s1.TB3CCR1 = s.TB3CCR1 := by rw [← hs1]; rfl
  have d2 : s1.TB3CCR2 = s.TB3CCR2 := by rw [← hs1]; rfl
  have d3 : s1.TB3CCR3 = s.TB3CCR3 := by rw [← hs1]; rfl
  have d4 : s1.TB3CCR4 = s.TB3CCR4 := by rw [← hs1]; rfl
  have d5 : s1.TB3CCR5 = s.TB3CCR5 := by rw [← hs1]; rfl
  have r0 : s1.rxstring 0 = b0 := by rw [← hs1]; rfl
  have r1 : s1.rxstring 1 = b1 := by rw [← hs1]; rfl
  have r2 : s1.rxstring 2 = b2 := by rw [← hs1]; rfl
  have r3 : s1.rxstring 3 = b3 := by rw [← hs1]; rfl
  have ht : s1.trace = s.trace
      ++ [Event.low [Line.ACK, Line.TTL_OUT], Event.tx '#', Event.msg msgFeeder] := by
    rw [← hs1]
    simp [UARTsendMsg, txbuf, emit, setRxstring, setLow]
  have ho : s1.out = fun l => if l ∈ [Line.ACK, Line.TTL_OUT] then false else s.out l := by
    rw [← hs1]; rfl
  obtain ⟨mid', hm1, hm2⟩ := SetBrightness_added b1 b3 s s1 e0.symm e1.symm e2.symm e3.symm
  have hmm : mid' = mid := List.append_cancel_left (hm1.symm.trans hmid)
  subst hmm
  obtain ⟨f0, f1, f2, f3, fB, _, fr, fo, f5⟩ := SetBrightness_frame b1 b3 s1
  obtain ⟨c1, c2, c3, c4⟩ := SetBrightness_congr b1 b3 s1 s e0 e1 e2 e3 d1 d2 d3 d4
  rw [hash_tail]
  refine ⟨?_, c1, c2, c3, c4, f5.trans d5, f0.trans e0, f1.trans e1, f2.trans e2,
    f3.trans e3, fB.trans eB, ?_⟩
  · show (SetBrightness b1 b3 s1).trace ++ _ = _
    rw [hm2, ht, fr, r0, r1, r2, r3]
    simp [hashTrace]
  · show (fun l => if l = Line.ACK then false else (SetBrightness b1 b3 s1).out l) = _
    rw [fo, ho]
    funext l
    by_cases ha : l = Line.ACK
    · simp [ha]
    · by_cases hb : l = Line.TTL_OUT
      · simp [hb]
      · simp [ha, hb]

/-- C22: with the payload length at 4, the handler run on `#` and a payload
`a0 b1 a2 b3` and the handler run on `#` and a payload `c0 b1 c2 b3` both
return, and differ only in the echo of bytes 0 and 2: the register writes
`mid` are in both those of `SetBrightness b1 b3`, the compare registers, the
table, the Blink flag and the output lines end up the same, and the status
text is in both the feeder-configured text, whatever bytes 0 and 2 are. -/
theorem hash_payload_bytes_0_and_2_unchecked (env : Env) (s : State)
    (a0 a2 c0 c2 b1 b3 : Char) (rest : List Char) (hlen : s.length = 4) :
    ∃ (s1 s2 : State) (mid : List Event),
      USCI_A0_ISR env s ('#' :: a0 :: b1 :: a2 :: b3 :: rest) = some (s1, rest)
      ∧ USCI_A0_ISR env s ('#' :: c0 :: b1 :: c2 :: b3 :: rest) = some (s2, rest)
      ∧ (SetBrightness b1 b3 s).trace = s.trace ++ mid
      ∧ s1.trace = s.trace ++ hashTrace mid a0 b1 a2 b3
      ∧ s2.trace = s.trace ++ hashTrace mid c0 b1 c2 b3
      ∧ s1.TB3CCR1 = (SetBrightness b1 b3 s).TB3CCR1 ∧ s2.TB3CCR1 = s1.TB3CCR1
      ∧ s1.TB3CCR2 = (SetBrightness b1 b3 s).TB3CCR2 ∧ s2.TB3CCR2 = s1.TB3CCR2
      ∧ s1.TB3CCR3 = (SetBrightness b1 b3 s).TB3CCR3 ∧ s2.TB3CCR3 = s1.TB3CCR3
      ∧ s1.TB3CCR4 = (SetBrightness b1 b3 s).TB3CCR4 ∧ s2.TB3CCR4 = s1.TB3CCR4
      ∧ s1.TB3CCR5 = s.TB3CCR5 ∧ s2.TB3CCR5 = s1.TB3CCR5
      ∧ s2.L0 = s1.L0 ∧ s2.L1 = s1.L1 ∧ s2.L2 = s1.L2 ∧ s2.L3 = s1.L3
      ∧ s2._BLINK = s1._BLINK ∧ s2.out = s1.out := by
  obtain ⟨mid, _, hmid⟩ := SetBrightness_trace b1 b3 s
  obtain ⟨s1, h1, t1, p1, p2, p3, p4, p5, l0, l1, l2, l3, pB, po⟩ :=
    hash_run env s a0 b1 a2 b3 rest hlen mid hmid
  obtain ⟨s2, h2, t2, q1, q2, q3, q4, q5, m0, m1, m2, m3, qB, qo⟩ :=
    hash_run env s c0 b1 c2 b3 rest hlen mid hmid
  exact ⟨s1, s2, mid, h1, h2, hmid, t1, t2, p1, q1.trans p1.symm, p2, q2.trans p2.symm,
    p3, q3.trans p3.symm, p4, q4.trans p4.symm, p5, q5.trans p5.symm, m0.trans l0.symm,
    m1.trans l1.symm, m2.trans l2.symm, m3.trans l3.symm, qB.trans pB.symm, qo.trans po.symm⟩

/-- Witness for C22: the payloads F, 2, L, 1 and x, 2, y, 1 from the initial
state. -/
theorem hash_payload_bytes_0_and_2_unchecked_witness :
    init.length = 4 ∧ ∃ (s1 s2 : State) (mid : List Event),
      USCI_A0_ISR envDigit init ('#' :: 'F' :: '2' :: 'L' :: '1' :: []) = some (s1, [])
      ∧ USCI_A0_ISR envDigit init ('#' :: 'x' :: '2' :: 'y' :: '1' :: []) = some (s2, [])
      ∧ (SetBrightness '2' '1' init).trace = init.trace ++ mid
      ∧ s1.trace = init.trace ++ hashTrace mid 'F' '2' 'L' '1'
      ∧ s2.trace = init.trace ++ hashTrace mid 'x' '2' 'y' '1'
      ∧ s1.TB3CCR1 = (SetBrightness '2' '1' init).TB3CCR1 ∧ s2.TB3CCR1 = s1.TB3CCR1
      ∧ s1.TB3CCR2 = (SetBrightness '2' '1' init).TB3CCR2 ∧ s2.TB3CCR2 = s1.TB3CCR2
      ∧ s1.TB3CCR3 = (SetBrightness '2' '1' init).TB3CCR3 ∧ s2.TB3CCR3 = s1.TB3CCR3
      ∧ s1.TB3CCR4 = (SetBrightness '2' '1' init).TB3CCR4 ∧ s2.TB3CCR4 = s1.TB3CCR4
      ∧ s1.TB3CCR5 = init.TB3CCR5 ∧ s2.TB3CCR5 = s1.TB3CCR5
      ∧ s2.L0 = s1.L0 ∧ s2.L1 = s1.L1 ∧ s2.L2 = s1.L2 ∧ s2.L3 = s1.L3
      ∧ s2._BLINK = s1._BLINK ∧ s2.out = s1.out :=
  ⟨rfl, hash_payload_bytes_0_and_2_unchecked envDigit init 'F' 'L' 'x' 'y' '2' '1' [] rfl⟩

/-! ## The Blink flag and the ramps -/

theorem atoiDigits_no_digit (l : List Char)
    (h : (match l with
      | [] => true
      | c :: _ => !isdigit c) = true) : atoiDigits 0 l = 0 := by
  cases l with
  | nil => rfl
  | cons c cs =>
    simp only [Bool.not_eq_true'] at h
    simp [atoiDigits, h]

/-- Where `atoi` finds no digit to convert, its value is 0. -/
theorem atoi_noDigits (str : List Char) (h : noDigits str = true) : atoi str = 0 := by
  unfold noDigits digitsStart at h
  unfold atoi
  cases hd : str.dropWhile isspace with
  | nil => rfl
  | cons c cs =>
    rw [hd] at h
    simp only at h
    show toInt16 (if c = '-' then - (atoiDigits 0 cs : Int)
      else if c = '+' then (atoiDigits 0 cs : Int) else (atoiDigits 0 (c :: cs) : Int)) = 0
    by_cases h1 : c = '-'
    · rw [if_pos h1] at h
      rw [if_pos h1, atoiDigits_no_digit cs h]
      rfl
    · rw [if_neg h1] at h
      rw [if_neg h1]
      by_cases h2 : c = '+'
      · rw [if_pos h2] at h
        rw [if_pos h2, atoiDigits_no_digit cs h]
        rfl
      · rw [if_neg h2] at h
        rw [if_neg h2, atoiDigits_no_digit _ h]
        rfl

theorem feederDuty_of_row (s : State) (row : LightLevel) (fdr : Char)
    (h1 : s.TB3CCR1 = row.fdr1) (h2 : s.TB3CCR2 = row.fdr2) (h3 : s.TB3CCR3 = row.fdr3)
    (h4 : s.TB3CCR4 = row.fdr4) : feederDuty fdr s = row.get fdr := by
  unfold feederDuty LightLevel.get
  rw [h1, h2, h3, h4]

/-- C24: a `$` session with a level in '1'..'3', a feeder in '1'..'4' and a
duty entry in which `atoi` finds no digit to convert (nothing before the
carriage return, or a first character, after white space and one sign, that is
no decimal digit) is not rejected.  The entry reads as 0, the test of line 297
passes, the handler returns with the applied text of the answer and not the
aborted text, the table entry of that level and feeder holds 0, and on the
answer `y` so does the compare register of the feeder. -/
theorem digitless_duty_entry_commits_zero (env : Env) (s : State) (lvl fdr ans : Char)
    (typed rest : List Char)
    (hlvl : lvl ∈ ['1', '2', '3']) (hfdr : fdr ∈ ['1', '2', '3', '4'])
    (hlen : typed.length ≤ 4) (hcr : '\r' ∉ typed)
    (hnd : noDigits (dutyBuffer typed ++ env.overrun) = true)
    (hpl : env.atoiAt lvl ≤ 3) (hpf : env.atoiAt fdr ≤ 4) :
    atoi (dutyBuffer typed ++ env.overrun) = 0
      ∧ inputsInvalid env (dutyBuffer typed) lvl fdr = false
      ∧ ∃ s', USCI_A0_ISR env s ('$' :: lvl :: fdr :: (dutyKeys typed ++ ans :: rest))
          = some (s', rest)
        ∧ s'.trace.getLast?
            = some (Event.msg (if ans = 'y' then msgNewSettings else msgConfigApplied))
        ∧ s'.trace.getLast? ≠ some (Event.msg msgAborted)
        ∧ tableEntry s' lvl fdr = some 0
        ∧ (ans = 'y' → feederDuty fdr s' = some 0) := by
  have hduty : atoi (dutyBuffer typed ++ env.overrun) = 0 := atoi_noDigits _ hnd
  have hinv : inputsInvalid env (dutyBuffer typed) lvl fdr = false := by
    simp only [inputsInvalid, hduty]
    simp [hpl, hpf]
  refine ⟨hduty, hinv, ?_⟩
  obtain ⟨s', p, hp, hrun, e0, e1, e2, e3, _, hlast, _, hyes⟩ :=
    committed_session_state env s lvl fdr ans typed rest hlvl hlen hcr hinv
  have hrows := levelRow_after_commit s s' lvl fdr lvl p _ hp e0 e1 e2 e3
  have hsome : ∃ row, levelRow s lvl = some row := by
    simp only [List.mem_cons, List.mem_singleton, List.not_mem_nil, or_false] at hlvl
    rcases hlvl with h | h | h <;> subst h
    · exact ⟨s.L1, by simp [levelRow]⟩
    · exact ⟨s.L2, by simp [levelRow]⟩
    · exact ⟨s.L3, by simp [levelRow]⟩
  obtain ⟨row, hrow⟩ := hsome
  have hentry : tableEntry s' lvl fdr = some 0 := by
    unfold tableEntry
    rw [hrows, if_pos rfl, hrow, hduty]
    exact modify_get_same row fdr _ hfdr
  refine ⟨s', hrun, hlast, ?_, hentry, ?_⟩
  · rw [hlast]
    by_cases hy : ans = 'y'
    · rw [if_pos hy]
      decide
    · rw [if_neg hy]
      decide
  · intro hy
    obtain ⟨row', hrow', c1, c2, c3, c4⟩ := hyes hy
    rw [feederDuty_of_row s' row' fdr c1 c2 c3 c4]
    unfold tableEntry at hentry
    rw [hrow'] at hentry
    exact hentry

/-- Witness for C24: level 2, feeder 3 from the initial state, once with the
entry `abcd` where the digit 5 follows the buffer in memory, once with an
immediate carriage return. -/
theorem digitless_duty_entry_commits_zero_witness :
    (noDigits (dutyBuffer ['a', 'b', 'c', 'd'] ++ envOverrun.overrun) = true
      ∧ atoi (dutyBuffer ['a', 'b', 'c', 'd'] ++ envOverrun.overrun) = 0
      ∧ inputsInvalid envOverrun (dutyBuffer ['a', 'b', 'c', 'd']) '2' '3' = false
      ∧ ∃ s', USCI_A0_ISR envOverrun init
            ('$' :: '2' :: '3' :: (dutyKeys ['a', 'b', 'c', 'd'] ++ 'y' :: [])) = some (s', [])
        ∧ s'.trace.getLast?
            = some (Event.msg (if 'y' = 'y' then msgNewSettings else msgConfigApplied))
        ∧ s'.trace.getLast? ≠ some (Event.msg msgAborted)
        ∧ tableEntry s' '2' '3' = some 0
        ∧ ('y' = 'y' → feederDuty '3' s' = some 0))
    ∧ (noDigits (dutyBuffer [] ++ envDigit.overrun) = true
      ∧ atoi (dutyBuffer [] ++ envDigit.overrun) = 0
      ∧ inputsInvalid envDigit (dutyBuffer []) '2' '3' = false
      ∧ ∃ s', USCI_A0_ISR envDigit init
            ('$' :: '2' :: '3' :: (dutyKeys [] ++ 'n' :: [])) = some (s', [])
        ∧ s'.trace.getLast?
            = some (Event.msg (if 'n' = 'y' then msgNewSettings else msgConfigApplied))
        ∧ s'.trace.getLast? ≠ some (Event.msg msgAborted)
        ∧ tableEntry s' '2' '3' = some 0
        ∧ ('n' = 'y' → feederDuty '3' s' = some 0)) :=
  ⟨⟨by decide, digitless_duty_entry_commits_zero envOverrun init '2' '3' 'y'
      ['a', 'b', 'c', 'd'] [] (by decide) (by decide) (by decide) (by decide) (by decide)
      (by decide) (by decide)⟩,
   ⟨by decide, digitless_duty_entry_commits_zero envDigit init '2' '3' 'n'
      [] [] (by decide) (by decide) (by decide) (by decide) (by decide)
      (by decide) (by decide)⟩⟩

end RECORD
